import Mathlib

/-!
# UPG: catalog ingestion, product search and the session handler

A shallow embedding of the Go sources

* `internal/infrastructure/storage/memory_product.go` (product search),
* `internal/infrastructure/parser/excel_parser.go` (catalog ingestion),
* `internal/usecase/admin_usecase.go` (catalog upload),
* `internal/delivery/telegram/handler.go` (per-user conversation flows),

followed by theorems about them.

Conventions of the embedding.

* A Go `string` is a `List Char`: the sequence of code points of a valid UTF-8
  string.  `len(s)` is the UTF-8 byte length (`byteLen`), and byte-wise
  `strings.Contains` on valid UTF-8 is containment of code point sequences.
* Functions of the Go standard library whose tables are not part of the
  repository (`unicode.ToLower`, `strconv.ParseFloat`) are fields of `GoLib`;
  every definition that calls them takes the library as its first argument and
  every theorem holds for all libraries.  `asciiLib` is a concrete library that
  agrees with Go on ASCII text and on integer numerals; it is only used to
  evaluate the program at concrete inputs.
* Go maps are ranged over in an unspecified order: a map that the program
  iterates is a list (the order of that run), a map that the program only looks
  up is a function from keys to optional values.
* Logging is omitted.
-/

namespace UPG

/-! ## Go strings -/

/-- A Go string, as the list of its code points. -/
abbrev Str := List Char

/-- The Go expression `len(s)`: the number of bytes of the UTF-8 encoding. -/
def byteLen (s : Str) : Nat := (s.map Char.utf8Size).sum

/-- The predicate `unicode.IsSpace`. -/
def isSpace (c : Char) : Bool :=
  let n := c.toNat
  (9 ≤ n && n ≤ 13) || n == 32 || n == 0x85 || n == 0xA0 || n == 0x1680 ||
  (0x2000 ≤ n && n ≤ 0x200a) || n == 0x2028 || n == 0x2029 || n == 0x202f ||
  n == 0x205f || n == 0x3000

/-- Drop the trailing characters satisfying `p`. -/
def dropRightWhile (p : Char → Bool) : Str → Str
  | [] => []
  | c :: t =>
    match dropRightWhile p t with
    | [] => if p c then [] else [c]
    | r => c :: r

/-- The function `strings.TrimSpace`. -/
def trimSpace (s : Str) : Str := dropRightWhile isSpace (s.dropWhile isSpace)

/-- Auxiliary loop of `fields`: `cur` is the field being read, reversed. -/
def fieldsAux : Str → Str → List Str
  | [], cur => if cur.isEmpty then [] else [cur.reverse]
  | c :: t, cur =>
    if isSpace c then
      (if cur.isEmpty then fieldsAux t [] else cur.reverse :: fieldsAux t [])
    else fieldsAux t (c :: cur)

/-- The function `strings.Fields`: the maximal runs of non-space characters. -/
def fields (s : Str) : List Str := fieldsAux s []

/-- The function `strings.Contains s sub`. -/
def contains : Str → Str → Bool
  | [], sub => sub.isEmpty
  | c :: t, sub => sub.isPrefixOf (c :: t) || contains t sub

/-- Loop of `replaceAll`; the counter is the number of characters of a matched
occurrence that are still to be skipped. -/
def replaceAllAux (old new : Str) : Nat → Str → Str
  | _, [] => []
  | k + 1, _ :: t => replaceAllAux old new k t
  | 0, c :: t =>
    if old.isPrefixOf (c :: t) then new ++ replaceAllAux old new (old.length - 1) t
    else c :: replaceAllAux old new 0 t

/-- The function `strings.ReplaceAll s old new` for a non-empty `old` (the
program never passes an empty one): non-overlapping occurrences, left to
right. -/
def replaceAll (s old new : Str) : Str := replaceAllAux old new 0 s

/-- Is the rune an ASCII decimal digit (`r >= '0' && r <= '9'`). -/
def isDigitRune (c : Char) : Bool := '0' ≤ c && c ≤ '9'

/-- Is the rune an ASCII letter or digit. -/
def isAlphaNumRune (c : Char) : Bool :=
  ('a' ≤ c && c ≤ 'z') || ('A' ≤ c && c ≤ 'Z') || ('0' ≤ c && c ≤ '9')

/-! ## Numbers -/

/-- The values of a Go `float64` as the program observes them: a finite value is
identified with the rational number it denotes (so `-0` is `0`). -/
inductive F64 where
  | nan
  | inf (neg : Bool)
  | fin (q : ℚ)
deriving DecidableEq

namespace F64

/-- The Go comparison `x == 0`. -/
def isZero : F64 → Bool
  | fin q => decide (q = 0)
  | _ => false

/-- The Go comparison `x < y`. -/
def lt : F64 → F64 → Bool
  | nan, _ => false
  | _, nan => false
  | inf a, inf b => a && !b
  | inf a, fin _ => a
  | fin _, inf b => !b
  | fin p, fin q => decide (p < q)

end F64

/-- The standard-library functions the program calls whose definition is a
table or an algorithm outside the repository. -/
structure GoLib where
  /-- The function `unicode.ToLower` on one rune. -/
  toLowerRune : Char → Char
  /-- The call `strconv.ParseFloat(s, 64)`: `none` when it returns an error. -/
  parseFloat : Str → Option F64

/-- The function `strings.ToLower`: `unicode.ToLower` on every rune. -/
def toLower (lib : GoLib) (s : Str) : Str := s.map lib.toLowerRune

/-- Value of a string of ASCII decimal digits. -/
def digitsValue (s : Str) : Nat := s.foldl (fun n c => 10 * n + (c.toNat - 48)) 0

/-- An integer numeral `[+-]digits` read as a float: the part of
`strconv.ParseFloat` needed to run the program on concrete sheets.  (Go accepts
more: fractions, exponents, hexadecimal floats, `inf`, `nan`, digit separators.) -/
def parseDecimal (s : Str) : Option F64 :=
  let neg := s.head? == some '-'
  let body := if neg || s.head? == some '+' then s.drop 1 else s
  if body.isEmpty || !body.all isDigitRune then none
  else some (F64.fin (if neg then -(digitsValue body : ℚ) else (digitsValue body : ℚ)))

/-- A concrete library: ASCII lower-casing and integer numerals. -/
def asciiLib : GoLib where
  toLowerRune := Char.toLower
  parseFloat := parseDecimal

/-! ## Entities (`internal/domain/entity/product.go`) -/

/-- The entity `Product`.  `Specs` is a Go map: a list of (key, value) pairs with
distinct keys, in the order in which that map happens to be ranged over.  Times
are abstract ticks. -/
structure Product where
  ID : Str
  Name : Str
  Category : Str
  Price : F64
  Description : Str
  Stock : Int
  Specs : List (Str × Str)
  CreatedAt : Nat
  UpdatedAt : Nat
deriving DecidableEq

/-- The entity `ProductCatalog`. -/
structure ProductCatalog where
  Products : List Product
  UpdatedAt : Nat
  Source : Str
deriving DecidableEq

/-! ## Product search (`internal/infrastructure/storage/memory_product.go`) -/

/-- The function `normalizeProductString`. -/
def normalizeProductString (lib : GoLib) (s : Str) : Str :=
  let replacements : List Str :=
    [[' '], ['-'], ['_'], ['.'], [','], [Char.ofNat 39], ['"'], ['/'], [Char.ofNat 92],
      ['?'], ['!']]
  replacements.foldl (fun acc r => replaceAll acc r []) (toLower lib s)

/-- The function `queryTokens`. -/
def queryTokens (lib : GoLib) (q : Str) : List Str :=
  let separators : List Str :=
    [[','], ['.'], ['?'], ['!'], [';'], [':'], ['/'], [Char.ofNat 92], ['-'], ['_']]
  let q1 := separators.foldl (fun acc sep => replaceAll acc sep [' ']) (toLower lib q)
  (fields q1).filter (fun f => decide (2 ≤ byteLen f))

/-- The function `matchTokens`. -/
def matchTokens (tokens : List Str) (parts : List Str) : Bool :=
  if tokens.length = 0 then false
  else tokens.any (fun t => parts.any (fun p => contains p t))

/-- The function `normalizeAlphaNum`. -/
def normalizeAlphaNum (lib : GoLib) (s : Str) : Str :=
  toLower lib (s.filter isAlphaNumRune)

/-- The stop words of `filterTokens`. -/
def stopWords : List Str :=
  ["bormi".toList, "bor".toList, "bormidi".toList, "bormi?".toList, "bormidi?".toList,
   "kerak".toList, "kerakmi".toList, "kerak?".toList, "qachon".toList, "qanday".toList]

/-- The function `filterTokens`. -/
def filterTokens (tokens : List Str) : List Str :=
  tokens.filter (fun t => !(stopWords.contains t))

/-- The function `normalizeTokens`. -/
def normalizeTokens (lib : GoLib) (tokens : List Str) : List Str :=
  (tokens.map (normalizeAlphaNum lib)).filter (fun n => !n.isEmpty)

/-- The type `scoredProduct`. -/
structure scoredProduct where
  Product : Product
  Score : Int
deriving DecidableEq

/-- The function `extractDigits`. -/
def extractDigits (s : Str) : Str := s.filter isDigitRune

/-- The largest Go `int` (64-bit). -/
def maxInt : Nat := 2 ^ 63 - 1

/-- The function `extractNumber`: the digits of `s` read by `strconv.Atoi`, whose
error is discarded; on overflow `Atoi` returns the largest `int`. -/
def extractNumber (s : Str) : Int :=
  let numStr := extractDigits s
  if numStr.isEmpty then 0 else (min (digitsValue numStr) maxInt : Nat)

/-- One row of the table `dp` of `longestCommonSubstringLength`, from the
previous row `prev` (the entries for `j = 1 .. len(b)`). -/
def lcsRow (c : Char) (b : Str) (prev : List Nat) : List Nat :=
  List.zipWith (fun bj d => if c = bj then d + 1 else 0) b (0 :: prev)

/-- The function `longestCommonSubstringLength`.  The Go code indexes bytes; its
arguments are outputs of `normalizeAlphaNum`, ASCII strings, where bytes and
code points coincide. -/
def longestCommonSubstringLength (a b : Str) : Nat :=
  if a.length = 0 ∨ b.length = 0 then 0
  else
    (a.foldl (fun (st : List Nat × Nat) c =>
        let row := lcsRow c b st.1
        (row, row.foldl max st.2)) (b.map (fun _ => 0), 0)).2

/-- The body of the token loop of `similarityScore` for one token. -/
def tokenScore (qt nameNorm nameCompact catNorm descNorm : Str) : Int :=
  if qt.isEmpty then 0
  else if contains nameNorm qt || contains nameCompact qt then 4
  else if contains catNorm qt || contains descNorm qt then 2
  else
    let qNum := extractNumber qt
    let pNum := extractNumber nameNorm
    if 0 < qNum ∧ 0 < pNum then
      let diff := qNum - pNum
      let diff := if diff < 0 then -diff else diff
      if diff ≤ 200 then 2 else 0
    else 0

/-- The function `similarityScore`. -/
def similarityScore (qTokens : List Str) (compactQuery nameNorm nameCompact catNorm
    descNorm : Str) : Int :=
  let score := qTokens.foldl
    (fun sc qt => sc + tokenScore qt nameNorm nameCompact catNorm descNorm) 0
  if !compactQuery.isEmpty then
    let lcs := longestCommonSubstringLength compactQuery nameCompact
    if 3 ≤ lcs then score + lcs else score
  else score

/-- The function `isGPUQuery`. -/
def isGPUQuery (lib : GoLib) (q : Str) : Bool :=
  let lower := toLower lib q
  let digits := extractDigits lower
  contains lower "rtx".toList ||
  contains lower "gtx".toList ||
  contains lower "rx ".toList ||
  contains lower "rx-".toList ||
  (contains lower "rx".toList && !digits.isEmpty) ||
  decide (3 ≤ byteLen digits) ||
  contains lower "gpu".toList ||
  contains lower "video".toList ||
  contains lower "videokarta".toList ||
  contains lower "karta".toList

/-- The function `isGPUProduct`. -/
def isGPUProduct (lib : GoLib) (p : Product) : Bool :=
  let name := toLower lib p.Name
  let cat := toLower lib p.Category
  if contains cat "gpu".toList || contains cat "video".toList ||
      contains cat "karta".toList || contains cat "videokarta".toList then true
  else if contains name "rtx".toList || contains name "gtx".toList ||
      contains name "rx ".toList || contains name "rx-".toList ||
      contains name "gpu".toList || contains name "video".toList then true
  else
    let digits := extractDigits name
    decide (3 ≤ byteLen digits) &&
      (contains name "nvidia".toList || contains name "amd".toList)

/-- The values `Search` computes from the query before its loop. -/
structure QueryForms where
  query : Str
  queryNorm : Str
  tokens : List Str
  tokensNorm : List Str
  compactQuery : Str
  queryDigits : Str
  gpuQuery : Bool

/-- The query forms of `Search`, from the trimmed and lower-cased query. -/
def queryForms (lib : GoLib) (query : Str) : QueryForms :=
  let tokens := filterTokens (queryTokens lib query)
  { query := query
    queryNorm := normalizeProductString lib query
    tokens := tokens
    tokensNorm := normalizeTokens lib tokens
    compactQuery := normalizeAlphaNum lib query
    queryDigits := extractDigits query
    gpuQuery := isGPUQuery lib query }

/-- The first condition of the loop of `Search` ("Name, category, description da
qidirish"). -/
def primaryMatch (lib : GoLib) (qf : QueryForms) (product : Product) : Bool :=
  let nameLower := toLower lib product.Name
  let catLower := toLower lib product.Category
  let descLower := toLower lib product.Description
  let nameNorm := normalizeProductString lib product.Name
  let nameCompact := normalizeAlphaNum lib product.Name
  let catNorm := normalizeAlphaNum lib product.Category
  let descNorm := normalizeAlphaNum lib product.Description
  contains nameLower qf.query ||
  contains catLower qf.query ||
  contains descLower qf.query ||
  (!qf.queryNorm.isEmpty && contains nameNorm qf.queryNorm) ||
  (!qf.compactQuery.isEmpty && contains nameCompact qf.compactQuery) ||
  matchTokens qf.tokens [nameLower, catLower, descLower, nameCompact, nameNorm] ||
  matchTokens qf.tokensNorm [nameNorm, nameCompact, catNorm, descNorm]

/-- The second condition of the loop ("Raqamga qat'iy moslik"). -/
def digitMatch (lib : GoLib) (qf : QueryForms) (product : Product) : Bool :=
  if !qf.queryDigits.isEmpty then
    let nameDigits := extractDigits (normalizeProductString lib product.Name)
    !nameDigits.isEmpty && contains nameDigits qf.queryDigits
  else false

/-- The search in the specs of a product ("Specs da qidirish"): some value of the
map contains the query. -/
def specsMatch (lib : GoLib) (qf : QueryForms) (product : Product) : Bool :=
  product.Specs.any (fun kv => contains (toLower lib kv.2) qf.query)

/-- The score the loop of `Search` gives a product. -/
def productScore (lib : GoLib) (qf : QueryForms) (product : Product) : Int :=
  similarityScore qf.tokensNorm qf.compactQuery
    (normalizeProductString lib product.Name) (normalizeAlphaNum lib product.Name)
    (normalizeAlphaNum lib product.Category) (normalizeAlphaNum lib product.Description)

/-- The three tests of the loop of `Search` that append a product to `results`. -/
def directMatch (lib : GoLib) (qf : QueryForms) (p : Product) : Bool :=
  primaryMatch lib qf p || digitMatch lib qf p || specsMatch lib qf p

/-- The two slices the loop of `Search` appends to. -/
structure SearchAcc where
  results : List Product
  scored : List scoredProduct

/-- One iteration of the loop of `Search`. -/
def searchStep (lib : GoLib) (qf : QueryForms) (acc : SearchAcc) (product : Product) :
    SearchAcc :=
  if primaryMatch lib qf product then
    { acc with results := acc.results ++ [product] }
  else if digitMatch lib qf product then
    { acc with results := acc.results ++ [product] }
  else
    let results := if specsMatch lib qf product then acc.results ++ [product] else acc.results
    let score := productScore lib qf product
    let scored := if 5 ≤ score then acc.scored ++ [⟨product, score⟩] else acc.scored
    { results := results, scored := scored }

/-- The order of the `sort.Slice` call of `Search`. -/
def scoredLess (a b : scoredProduct) : Bool :=
  if a.Score = b.Score then F64.lt a.Product.Price b.Product.Price
  else decide (b.Score < a.Score)

/-- Insertion of one element before the first element that is not less than
it. -/
def insertScored (x : scoredProduct) : List scoredProduct → List scoredProduct
  | [] => [x]
  | y :: t => if scoredLess y x then y :: insertScored x t else x :: y :: t

/-- The call `sort.Slice(scored, less)`.  The Go sort is not stable; the model
is an insertion sort, one of the admissible results when the prices are
comparable (no `NaN`). -/
def sortScored (l : List scoredProduct) : List scoredProduct :=
  l.foldr insertScored []

/-- The loop over the sorted candidates: keep those of score at least 8 while
fewer than 6 are kept. -/
def takeBest (results : List Product) : List scoredProduct → List Product
  | [] => results
  | sp :: t =>
    if 8 ≤ sp.Score ∧ results.length < 6 then takeBest (results ++ [sp.Product]) t
    else takeBest results t

/-- The result of `Search` before the GPU filter: the loop and the fallback. -/
def searchUnrefined (lib : GoLib) (qf : QueryForms) (products : List Product) :
    List Product :=
  let acc := products.foldl (searchStep lib qf) ⟨[], []⟩
  if acc.results.length = 0 ∧ 0 < acc.scored.length then
    takeBest acc.results (sortScored acc.scored)
  else acc.results

/-- The GPU filter at the end of `Search`. -/
def gpuRefine (lib : GoLib) (gpuQuery : Bool) (results : List Product) : List Product :=
  if gpuQuery ∧ 0 < results.length then
    let filtered := results.filter (isGPUProduct lib)
    if 0 < filtered.length then filtered else results
  else results

/-- The products returned by `memoryProductRepository.Search`; `products` are
the values of the map `m.products` in the order of the `range` loop. -/
def searchProducts (lib : GoLib) (products : List Product) (query : Str) : List Product :=
  let query := toLower lib (trimSpace query)
  if query.isEmpty then []
  else
    let qf := queryForms lib query
    gpuRefine lib qf.gpuQuery (searchUnrefined lib qf products)

/-- An error value (`fmt.Errorf`), by its message. -/
abbrev GoError := String

/-- The method `memoryProductRepository.Search`: the returned slice (`nil` is the
empty list) and the returned error, which is always `nil`. -/
def Search (lib : GoLib) (products : List Product) (query : Str) :
    List Product × Option GoError :=
  (searchProducts lib products query, none)

/-! ### Sample catalog -/

/-- A product with the given identifier, name, category, price and specs. -/
def mkProduct (id name category : String) (price : ℚ) (specs : List (String × String)) :
    Product :=
  { ID := id.toList, Name := name.toList, Category := category.toList,
    Price := F64.fin price, Description := [], Stock := 0,
    Specs := specs.map (fun kv => (kv.1.toList, kv.2.toList)),
    CreatedAt := 0, UpdatedAt := 0 }

/-- A storage product whose name contains `500` and two consecutive blanks. -/
def sampleSSD : Product := mkProduct "p1" "SSD 500GB  NVMe" "Storage" 50 []

/-- A GPU product whose name contains `500`. -/
def sampleGPU : Product := mkProduct "p2" "RTX 5000" "GPU" 1800 []

/-- A product that only its specs relate to the colour red. -/
def sampleWidget : Product := mkProduct "p3" "Widget" "Other" 10 [("Color", "Red")]

/-- A catalog of a storage product and a GPU product. -/
def sampleCatalog : List Product := [sampleSSD, sampleGPU]

/-! ## Catalog ingestion (`internal/infrastructure/parser/excel_parser.go`) -/

/-- The conversion `int(x)` of a `float64`: truncation toward zero; for `NaN`,
the infinities and values outside the range of `int` the result depends on the
platform, here that of amd64. -/
def F64.toInt : F64 → Int
  | F64.fin q =>
    let t := q.num.tdiv q.den
    if -(2 : Int) ^ 63 ≤ t ∧ t < (2 : Int) ^ 63 then t else -(2 : Int) ^ 63
  | _ => -(2 : Int) ^ 63

/-- A sheet as returned by `GetRows`: rows of cells. -/
abbrev Sheet := List (List Str)

/-- The cell `row[i]` of a row, read after its bound check. -/
def cell (row : List Str) (i : Int) : Str := row.getD i.toNat []

/-- A Go `map[string]int`. -/
abbrev ColumnMap := List (Str × Int)

/-- The lookup `idx, ok := m[key]`. -/
def ColumnMap.get (m : ColumnMap) (key : Str) : Option Int :=
  (m.find? (fun kv => decide (kv.1 = key))).map Prod.snd

/-- The assignment `m[key] = idx`. -/
def ColumnMap.set (m : ColumnMap) (key : Str) (idx : Int) : ColumnMap :=
  (key, idx) :: m.filter (fun kv => !decide (kv.1 = key))

/-- The helper `contains(str, keywords...)` of the parser. -/
def containsAny (str : Str) (keywords : List String) : Bool :=
  keywords.any (fun keyword => contains str keyword.toList)

/-- The function `isEmptyRow`. -/
def isEmptyRow (row : List Str) : Bool :=
  row.all (fun c => (trimSpace c).isEmpty)

/-- The method `parsePrice`; `none` stands for a returned error. -/
def parsePrice (lib : GoLib) (priceStr : Str) : Option F64 :=
  let priceStr := toLower lib (trimSpace priceStr)
  if priceStr.isEmpty then none
  else
    let removed : List String :=
      [",", " ", "$", "€", "£", "₽", "¥", "so'm", "soʻm", "soum", "som", "сум", "сом",
        "sum", "uzs", "usd", "eur", "руб", "р"]
    lib.parseFloat (removed.foldl (fun acc r => replaceAll acc r.toList []) priceStr)

/-- The method `detectCategory`. -/
def detectCategory (lib : GoLib) (name : Str) : Str :=
  let nameLower := toLower lib name
  let has (k : String) : Bool := contains nameLower k.toList
  if has "monitor" || has "монитор" || has "display" || has "screen" ||
      has "144hz" || has "165hz" || has "240hz" || has "300hz" ||
      has "ips" || has "va panel" || has "curved" || has "ultrawide" then "Monitor".toList
  else if has "ssd" || has "nvme" || has "hdd" || has "hard drive" then "Storage".toList
  else if has "ddr4" || has "ddr5" || has "ddr3" || has "ddr " then "RAM".toList
  else if has "intel" || has "amd" || has "ryzen" || has "core i" ||
      has "processor" || has "xeon" then "CPU".toList
  else if has "rtx" || has "gtx" || has "radeon" || has "rx " ||
      has "geforce" || has "nvidia" || has "arc" || has "inno3d" then "GPU".toList
  else if has "motherboard" || has "b450" || has "b550" || has "b650" || has "b760" ||
      has "x570" || has "x670" || has "x870" || has "z690" || has "z790" ||
      has "lga1700" || has "lga1851" || has "am4" || has "am5" then "Motherboard".toList
  else if has "psu" || has "power supply" || has "блок питания" || has "watt" ||
      (has "w " && (has "80+" || has "bronze" || has "gold")) then "PSU".toList
  else if has "case" || has "корпус" || has "chassis" || has "tower" then "Case".toList
  else if has "cooler" || has "cooling" || has "fan" || has "aio" ||
      has "liquid" || has "air cooler" then "Cooling".toList
  else if has "chair" || has "стул" || has "gaming chair" || has "office chair" then
    "Chair".toList
  else if has "desk" || has "стол" || has "table" || has "gaming desk" then "Desk".toList
  else if has "keyboard" || has "клавиатура" then "Keyboard".toList
  else if has "mouse" || has "мышь" then "Mouse".toList
  else if has "headset" || has "headphone" || has "наушники" then "Headset".toList
  else if has "ram" || has "memory" || has "corsair vengeance" || has "kingston fury" then
    "RAM".toList
  else "Boshqa".toList

/-- One iteration of the loop of `mapColumns` over the header cells. -/
def mapColumnsStep (lib : GoLib) (columnMap : ColumnMap) (ic : Nat × Str) : ColumnMap :=
  let i : Int := ic.1
  let colName := toLower lib (trimSpace ic.2)
  if containsAny colName ["name", "nom", "nomi", "название", "product", "mahsulot", "tovar"]
  then columnMap.set "name".toList i
  else if containsAny colName ["category", "kategoriya", "tur", "тип", "категория", "type"]
  then columnMap.set "category".toList i
  else if containsAny colName
      ["price", "narx", "summa", "цена", "сум", "som", "cost", "$", "usd", "uzs"]
  then columnMap.set "price".toList i
  else if containsAny colName ["description", "tavsif", "malumot", "описание", "info", "details"]
  then columnMap.set "description".toList i
  else if containsAny colName ["stock", "soni", "miqdor", "количество", "qty", "quantity"]
  then columnMap.set "stock".toList i
  else if !colName.isEmpty then columnMap.set colName i
  else columnMap

/-- The method `mapColumns`. -/
def mapColumns (lib : GoLib) (header : List Str) : ColumnMap :=
  let columnMap := header.enum.foldl (mapColumnsStep lib) []
  let columnMap :=
    if (columnMap.get "name".toList).isNone ∧ 0 < header.length
    then columnMap.set "name".toList 0 else columnMap
  let columnMap :=
    if (columnMap.get "price".toList).isNone ∧ 1 < header.length
    then columnMap.set "price".toList 1 else columnMap
  columnMap

/-- The inner loop of `detectPriceColumn`: the number of rows whose cell in
column `col` is non-empty and parses as a price. -/
def priceCount (lib : GoLib) (sample : Sheet) (col : Nat) : Nat :=
  (sample.filter (fun row =>
    if row.length ≤ col then false
    else
      let val := trimSpace (row.getD col [])
      if val.isEmpty then false else (parsePrice lib val).isSome)).length

/-- The method `detectPriceColumn`; the result `-1` means no column. -/
def detectPriceColumn (lib : GoLib) (rows : Sheet) (startRow : Nat) : Int :=
  let limitRows := if rows.length < startRow + 15 then rows.length else startRow + 15
  let sample := (rows.take limitRows).drop startRow
  let maxCols := sample.foldl (fun m row => if m < row.length then row.length else m) 0
  let best := (List.range maxCols).foldl
    (fun (b : Int × Nat) col =>
      let count := priceCount lib sample col
      if b.2 < count then ((col : Int), count) else b) ((-1 : Int), 0)
  if 2 ≤ best.2 then best.1 else -1

/-- The loop of `detectTableFormat`: the pair `(validPriceCount, totalChecked)`
after the rows. -/
def tableFormatCounts (lib : GoLib) (priceCol : Int) : Sheet → Nat × Nat → Nat × Nat
  | [], st => st
  | row :: t, (valid, total) =>
    if total < 5 then
      if (row.length : Int) ≤ priceCol || isEmptyRow row then
        tableFormatCounts lib priceCol t (valid, total)
      else
        let priceCandidate := trimSpace (cell row priceCol)
        tableFormatCounts lib priceCol t
          (if (parsePrice lib priceCandidate).isSome then valid + 1 else valid, total + 1)
    else (valid, total)

/-- The method `detectTableFormat`.  The float comparison `valid/total > 0.7` for
`total` at most 5 is the comparison `10 * valid > 7 * total` of integers. -/
def detectTableFormat (lib : GoLib) (rows : Sheet) (startRow : Nat) (priceCol : Int) : Bool :=
  if rows.length ≤ startRow then true
  else
    let priceCol := if priceCol < 0 then 1 else priceCol
    let st := tableFormatCounts lib priceCol (rows.drop startRow) (0, 0)
    if st.2 = 0 then true else decide (7 * st.2 < 10 * st.1)

/-- The assignment `product.Specs[key] = value` on the specs of a product. -/
def specsSet (specs : List (Str × Str)) (key value : Str) : List (Str × Str) :=
  if specs.any (fun kv => decide (kv.1 = key)) then
    specs.map (fun kv => if kv.1 = key then (key, value) else kv)
  else specs ++ [(key, value)]

/-- The text `fmt.Sprintf("Extra_%d", idx)`. -/
def extraKey (idx : Nat) : Str := "Extra_".toList ++ (Nat.repr idx).toList

/-- What `parseExcelFile` has fixed before its row loops. -/
structure SheetPlan where
  hasHeader : Bool
  startRow : Nat
  header : List Str
  columnMap : ColumnMap
  nameCol : Int
  priceCol : Int
  isTableFormat : Bool

/-- The header test of `parseExcelFile`: the second cell of the first row, trimmed
and without commas, is not read as a number by `strconv.ParseFloat`. -/
def detectHeader (lib : GoLib) (rows : Sheet) : Bool :=
  match rows with
  | [] => true
  | row0 :: _ =>
    if 1 < row0.length then
      let secondCol := trimSpace (row0.getD 1 [])
      !(lib.parseFloat (replaceAll secondCol [','] [])).isSome
    else true

/-- The part of `parseExcelFile` between the emptiness checks and the row loops,
for a sheet with first row `row0`. -/
def sheetPlan (lib : GoLib) (rows : Sheet) (row0 : List Str) : SheetPlan :=
  let hasHeader := detectHeader lib rows
  let startRow := if hasHeader then 1 else 0
  let header : List Str := if hasHeader then row0 else []
  let columnMap : ColumnMap :=
    if hasHeader then mapColumns lib header
    else
      let m : ColumnMap := (ColumnMap.set [] "name".toList 0).set "price".toList 1
      if 2 < row0.length then m.set "category".toList 2 else m
  let nameCol : Int := (columnMap.get "name".toList).getD 0
  let priceCol0 : Int := (columnMap.get "price".toList).getD (-1)
  let guessed := detectPriceColumn lib rows startRow
  let priceCol : Int :=
    if priceCol0 = -1 then
      if 0 ≤ guessed then guessed
      else if 1 < row0.length then 1
      else 0
    else priceCol0
  let columnMap : ColumnMap :=
    if priceCol0 = -1 ∧ 0 ≤ guessed then columnMap.set "price".toList guessed else columnMap
  let isTableFormat :=
    if !hasHeader then detectTableFormat lib rows startRow priceCol else true
  { hasHeader := hasHeader, startRow := startRow, header := header, columnMap := columnMap,
    nameCol := nameCol, priceCol := priceCol, isTableFormat := isTableFormat }

/-- The specs loop of a table row of a sheet with a header. -/
def headerSpecs (plan : SheetPlan) (usedCols : List Int) (row : List Str) : List (Str × Str) :=
  row.enum.foldl
    (fun specs (ic : Nat × Str) =>
      if usedCols.contains (ic.1 : Int) then specs
      else
        let value := trimSpace ic.2
        if value.isEmpty then specs
        else
          let key :=
            if ic.1 < plan.header.length ∧ !(trimSpace (plan.header.getD ic.1 [])).isEmpty
            then trimSpace (plan.header.getD ic.1 [])
            else extraKey ic.1
          specsSet specs key value) []

/-- The specs loop of a table row of a sheet without a header. -/
def headerlessSpecs (row : List Str) : List (Str × Str) :=
  if 2 < row.length then
    (row.enum.drop 2).foldl
      (fun specs (jc : Nat × Str) =>
        let value := trimSpace jc.2
        if !value.isEmpty then specsSet specs (extraKey jc.1) value else specs) []
  else []

/-- The body of the table-format loop of `parseExcelFile` for one row: the
product the row yields, if it is not skipped.  `id` is the fresh identifier
`uuid.New().String()` and `now` the time of the call. -/
def parseTableRow (lib : GoLib) (plan : SheetPlan) (id : Str) (now : Nat) (row : List Str) :
    Option Product :=
  if row.length = 0 || isEmptyRow row then none
  else if (row.length : Int) ≤ plan.nameCol || (row.length : Int) ≤ plan.priceCol then none
  else
    let nameStr := trimSpace (cell row plan.nameCol)
    let priceStr := trimSpace (cell row plan.priceCol)
    if nameStr.isEmpty || priceStr.isEmpty then none
    else
      match parsePrice lib priceStr with
      | none => none
      | some price =>
        if price.isZero then none
        else if byteLen nameStr < 3 then none
        else
          let categoryCol := plan.columnMap.get "category".toList
          let descriptionCol := plan.columnMap.get "description".toList
          let stockCol := plan.columnMap.get "stock".toList
          let category : Str :=
            match categoryCol with
            | some c =>
              if c < row.length then
                (if !(trimSpace (cell row c)).isEmpty then trimSpace (cell row c)
                 else detectCategory lib nameStr)
              else detectCategory lib nameStr
            | none => detectCategory lib nameStr
          let description : Str :=
            match descriptionCol with
            | some c => if c < row.length then trimSpace (cell row c) else []
            | none => []
          let stock : Int :=
            match stockCol with
            | some c =>
              if c < row.length then
                (if !(trimSpace (cell row c)).isEmpty then
                  (match parsePrice lib (trimSpace (cell row c)) with
                   | some st => st.toInt
                   | none => 0)
                 else 0)
              else 0
            | none => 0
          let usedCols : List Int :=
            [plan.nameCol, plan.priceCol] ++ categoryCol.toList ++ descriptionCol.toList ++
              stockCol.toList
          let specs :=
            if plan.hasHeader then headerSpecs plan usedCols row else headerlessSpecs row
          some { ID := id, Name := nameStr, Price := price, Category := category,
                 Description := description, Stock := stock, Specs := specs,
                 CreatedAt := now, UpdatedAt := now }

/-- The body of the inner loop of the side-by-side format for the cells
`row[colIdx]` and `row[colIdx+1]`. -/
def parsePair (lib : GoLib) (id : Str) (now : Nat) (nameCell priceCell : Str) :
    Option Product :=
  let nameStr := trimSpace nameCell
  let priceStr := trimSpace priceCell
  if nameStr.isEmpty && priceStr.isEmpty then none
  else
    match parsePrice lib priceStr with
    | none => none
    | some price =>
      if price.isZero then none
      else if byteLen nameStr < 3 then none
      else
        some { ID := id, Name := nameStr, Price := price, Category := detectCategory lib nameStr,
               Description := [], Stock := 0, Specs := [],
               CreatedAt := now, UpdatedAt := now }

/-- The inner loop of the side-by-side format over the cells of a row from column
`colIdx` on, two at a time; it stops when no price cell is left. -/
def parsePairs (lib : GoLib) (ids : Nat → Str) (now : Nat) :
    List Str → List Product → List Product
  | nameCell :: priceCell :: rest, products =>
    match parsePair lib (ids products.length) now nameCell priceCell with
    | some product => parsePairs lib ids now rest (products ++ [product])
    | none => parsePairs lib ids now rest products
  | _, products => products

/-- The row loop of the table format. -/
def parseTableRows (lib : GoLib) (plan : SheetPlan) (ids : Nat → Str) (now : Nat)
    (dataRows : Sheet) : List Product :=
  dataRows.foldl
    (fun products row =>
      match parseTableRow lib plan (ids products.length) now row with
      | some product => products ++ [product]
      | none => products) []

/-- The row loop of the side-by-side format. -/
def parseSideBySideRows (lib : GoLib) (ids : Nat → Str) (now : Nat) (dataRows : Sheet) :
    List Product :=
  dataRows.foldl
    (fun products row =>
      if row.length = 0 || isEmptyRow row then products
      else parsePairs lib ids now row products) []

/-- The row loop of `parseExcelFile` that the detected format selects, for a
sheet with first row `row0`. -/
def parseDataRows (lib : GoLib) (ids : Nat → Str) (now : Nat) (rows : Sheet)
    (row0 : List Str) : List Product :=
  let plan := sheetPlan lib rows row0
  if plan.isTableFormat then parseTableRows lib plan ids now (rows.drop plan.startRow)
  else parseSideBySideRows lib ids now (rows.drop plan.startRow)

/-- The part of `parseExcelFile` after `GetRows`: the products of the rows of the
first sheet.  `ids k` is the identifier `uuid.New().String()` gives the product
created when `k` products have been created, `now` the value of `time.Now()`. -/
def parseRows (lib : GoLib) (ids : Nat → Str) (now : Nat) (rows : Sheet) :
    Except GoError (List Product) :=
  match rows with
  | [] => Except.error "excel file is empty"
  | row0 :: _ =>
    let products := parseDataRows lib ids now rows row0
    if products.length = 0 then
      Except.error ("no valid products found in excel file (parsed " ++
        toString ((rows.length : Int) - 1) ++ " rows, but all were invalid)")
    else Except.ok products

/-- An opened workbook (`*excelize.File`) as the parser reads it: its sheets in
the order of `GetSheetList`, each with the result of `GetRows` for it. -/
abbrev ExcelFile := List (Str × Except GoError Sheet)

/-- The method `parseExcelFile`. -/
def parseExcelFile (lib : GoLib) (ids : Nat → Str) (now : Nat) (f : ExcelFile) :
    Except GoError (List Product) :=
  match f with
  | [] => Except.error "excel file has no sheets"
  | (_, Except.error err) :: _ => Except.error ("failed to get rows: " ++ err)
  | (_, Except.ok rows) :: _ => parseRows lib ids now rows

/-- A workbook with one sheet, whose rows are the given grid. -/
def ExcelFile.ofRows (rows : Sheet) : ExcelFile := [("Sheet1".toList, Except.ok rows)]

/-- The method `ParseProductsFromBytes`; `opened` is the result of
`excelize.OpenReader` on the bytes. -/
def ParseProductsFromBytes (lib : GoLib) (ids : Nat → Str) (now : Nat)
    (opened : Except GoError ExcelFile) : Except GoError (List Product) :=
  match opened with
  | Except.error err => Except.error ("failed to open excel from bytes: " ++ err)
  | Except.ok f => parseExcelFile lib ids now f

/-! ### The row scan as the specification describes it -/

/-- The (name, price) pairs of the products an ingestion returns; none when it
fails. -/
def ingestedPairs (r : Except GoError (List Product)) : List (Str × F64) :=
  match r with
  | Except.ok products => products.map (fun p => (p.Name, p.Price))
  | Except.error _ => []

/-- The cell of a row at a column, empty when the row has no such column. -/
def cellOrEmpty (row : List Str) (c : Int) : Str :=
  if (row.length : Int) ≤ c then [] else cell row c

/-- Specification of a valid record, lengths counted in bytes: the trimmed name
has at least 3 bytes and the trimmed price cell parses to a non-zero number. -/
def validRecord (lib : GoLib) (nameCell priceCell : Str) : Option (Str × F64) :=
  match parsePrice lib (trimSpace priceCell) with
  | some price =>
    if 3 ≤ byteLen (trimSpace nameCell) ∧ price.isZero = false
    then some (trimSpace nameCell, price) else none
  | none => none

/-- Specification of a valid record, lengths counted in characters: the trimmed
name has at least 3 characters and the trimmed price cell parses to a non-zero
number. -/
def validRecordChars (lib : GoLib) (nameCell priceCell : Str) : Option (Str × F64) :=
  match parsePrice lib (trimSpace priceCell) with
  | some price =>
    if 3 ≤ (trimSpace nameCell).length ∧ price.isZero = false
    then some (trimSpace nameCell, price) else none
  | none => none

/-- The column pairs `(2i, 2i+1)` of a row, left to right. -/
def pairsOf : List Str → List (Str × Str)
  | nameCell :: priceCell :: rest => (nameCell, priceCell) :: pairsOf rest
  | _ => []

/-- The reference row scan of a sheet for a way `valid` of telling valid records:
in table layout one record per data row at the mapped name and price columns, in
side-by-side layout one record per column pair, rows top to bottom. -/
def referenceScanWith (valid : Str → Str → Option (Str × F64)) (lib : GoLib) (rows : Sheet) :
    List (Str × F64) :=
  match rows with
  | [] => []
  | row0 :: _ =>
    let plan := sheetPlan lib rows row0
    if plan.isTableFormat then
      (rows.drop plan.startRow).filterMap
        (fun row => valid (cellOrEmpty row plan.nameCol) (cellOrEmpty row plan.priceCol))
    else
      (rows.drop plan.startRow).flatMap
        (fun row => (pairsOf row).filterMap (fun np => valid np.1 np.2))

/-- The reference row scan with name lengths counted in bytes. -/
def referenceScan (lib : GoLib) (rows : Sheet) : List (Str × F64) :=
  referenceScanWith (validRecord lib) lib rows

/-- The reference row scan with name lengths counted in characters. -/
def referenceScanChars (lib : GoLib) (rows : Sheet) : List (Str × F64) :=
  referenceScanWith (validRecordChars lib) lib rows

/-! ### Sample sheets -/

/-- A grid of cells from string literals. -/
def mkSheet (rows : List (List String)) : Sheet := rows.map (fun row => row.map String.toList)

/-- Sample identifiers: the `k`-th is `k + 1` letters long. -/
def sampleIds (k : Nat) : Str := List.replicate (k + 1) 'u'

/-- A sheet with a header and three data rows, the second with an unparseable
price. -/
def sampleSheet3 : Sheet :=
  mkSheet [["Name", "Price"], ["Widget", "10"], ["Gadget", "abc"], ["RTX 4090", "1800"]]

/-- The product the first data row of `sampleSheet3` yields with the sample
identifiers at time 0. -/
def sampleParsedWidget : Product :=
  { ID := sampleIds 0, Name := "Widget".toList, Category := "Boshqa".toList,
    Price := F64.fin 10, Description := [], Stock := 0, Specs := [],
    CreatedAt := 0, UpdatedAt := 0 }

/-- A sheet without header whose only row has a name of two Cyrillic letters. -/
def sampleSheetShortName : Sheet := mkSheet [["пк", "10"]]

/-- A side-by-side sheet with a repeated name. -/
def sampleSheetPairs : Sheet :=
  mkSheet [["Widget", "10", "Gadget", "20"], ["Foo", "x", "Widget", "10"],
    ["Bar", "y", "Bazzz", "5"]]

/-- A sheet with a header whose data rows are all invalid. -/
def sampleSheetInvalid : Sheet := mkSheet [["Name", "Price"], ["Widget", "abc"], ["ab", "10"]]

/-- The products of an ingestion result; none when it failed. -/
def productsOf (r : Except GoError (List Product)) : List Product :=
  match r with
  | Except.ok products => products
  | Except.error _ => []

/-- Did the ingestion return an error. -/
def isError (r : Except GoError (List Product)) : Bool :=
  match r with
  | Except.ok _ => false
  | Except.error _ => true

/-! ## Repositories (`memory_admin.go`, `memory_product.go`) and catalog upload
(`internal/usecase/admin_usecase.go`) -/

/-- The entity `AdminSession`. -/
structure AdminSession where
  UserID : Int
  IsAdmin : Bool
  LoginTime : Nat
  LastActivity : Nat
deriving DecidableEq

/-- The entity `AdminAction`. -/
structure AdminAction where
  ID : Str
  UserID : Int
  Action : Str
  Details : Str
  Timestamp : Nat
deriving DecidableEq

/-- The state of a `memoryAdminRepository`. -/
structure memoryAdminRepository where
  sessions : Int → Option AdminSession
  actions : List AdminAction

/-- The duration `24*time.Hour`, in nanoseconds. -/
def sessionTimeout : Int := 24 * 3600 * 1000000000

/-- The method `memoryAdminRepository.IsAdmin` at time `now`. -/
def memoryAdminRepository.IsAdmin (m : memoryAdminRepository) (now : Nat) (userID : Int) :
    Bool × Option GoError :=
  match m.sessions userID with
  | none => (false, none)
  | some session =>
    if sessionTimeout < (now : Int) - (session.LastActivity : Int) then (false, none)
    else (session.IsAdmin, none)

/-- The method `memoryAdminRepository.LogAction`. -/
def memoryAdminRepository.LogAction (m : memoryAdminRepository) (action : AdminAction) :
    memoryAdminRepository × Option GoError :=
  ({ m with actions := m.actions ++ [action] }, none)

/-- The state of a `memoryProductRepository`: the map `products` from identifier
to product, as the list of its entries, and the pointer `catalog`. -/
structure memoryProductRepository where
  products : List (Str × Product)
  catalog : Option ProductCatalog
deriving DecidableEq

/-- The assignment `m.products[id] = product`. -/
def productsSet (products : List (Str × Product)) (id : Str) (product : Product) :
    List (Str × Product) :=
  if products.any (fun kv => decide (kv.1 = id)) then
    products.map (fun kv => if kv.1 = id then (id, product) else kv)
  else products ++ [(id, product)]

/-- The method `memoryProductRepository.UpdateCatalog`. -/
def memoryProductRepository.UpdateCatalog (_m : memoryProductRepository)
    (catalog : ProductCatalog) : memoryProductRepository × Option GoError :=
  ({ products := catalog.Products.foldl (fun mp product => productsSet mp product.ID product) [],
     catalog := some catalog }, none)

/-- The method `memoryProductRepository.Search` on the state of the repository. -/
def memoryProductRepository.Search (lib : GoLib) (m : memoryProductRepository) (query : Str) :
    List Product × Option GoError :=
  UPG.Search lib (m.products.map Prod.snd) query

/-- The repositories an `adminUseCase` writes in `UploadCatalog`. -/
structure adminUseCase where
  adminRepo : memoryAdminRepository
  productRepo : memoryProductRepository

/-- The method `adminUseCase.UploadCatalog`: the new state of the repositories,
the returned count and the returned error.  `opened` is what
`excelize.OpenReader` makes of the bytes `fileData`, `ids` and `actionID` are the
identifiers `uuid.New()` returns, `now` is the time of the call. -/
def UploadCatalog (lib : GoLib) (ids : Nat → Str) (actionID : Str) (now : Nat)
    (u : adminUseCase) (userID : Int) (opened : Except GoError ExcelFile) (filename : Str) :
    adminUseCase × Int × Option GoError :=
  match u.adminRepo.IsAdmin now userID with
  | (_, some err) => (u, 0, some err)
  | (false, none) => (u, 0, some "user is not admin")
  | (true, none) =>
    match ParseProductsFromBytes lib ids now opened with
    | Except.error err => (u, 0, some ("failed to parse excel: " ++ err))
    | Except.ok products =>
      if products.length = 0 then (u, 0, some "no products found in excel file")
      else
        let catalog : ProductCatalog :=
          { Products := products, UpdatedAt := now, Source := filename }
        match u.productRepo.UpdateCatalog catalog with
        | (repo, some err) =>
          ({ u with productRepo := repo }, 0, some ("failed to update catalog: " ++ err))
        | (repo, none) =>
          let action : AdminAction :=
            { ID := actionID, UserID := userID, Action := "upload_catalog".toList,
              Details := "Uploaded ".toList ++ (Nat.repr products.length).toList ++
                " products from ".toList ++ filename,
              Timestamp := now }
          ({ adminRepo := (u.adminRepo.LogAction action).1, productRepo := repo },
            (products.length : Int), none)

/-! ### Sample repositories -/

/-- An admin repository in which user 7 logged in at time 0. -/
def sampleAdminRepo : memoryAdminRepository :=
  { sessions := fun userID =>
      if userID = 7 then some { UserID := 7, IsAdmin := true, LoginTime := 0, LastActivity := 0 }
      else none,
    actions := [] }

/-- A product repository that holds the sample catalog. -/
def sampleProductRepo : memoryProductRepository :=
  { products := sampleCatalog.map (fun p => (p.ID, p)),
    catalog := some { Products := sampleCatalog, UpdatedAt := 0, Source := "old.xlsx".toList } }

/-- The use case over the two sample repositories. -/
def sampleUseCase : adminUseCase :=
  { adminRepo := sampleAdminRepo, productRepo := sampleProductRepo }

/-- The identifiers of a list of products are the first identifiers of `ids`, in
order. -/
def IdsInOrder (ids : Nat → Str) (ps : List Product) : Prop :=
  ps.map (fun p => p.ID) = (List.range ps.length).map ids

/-! ## The Telegram handler (`internal/delivery/telegram/handler.go`)

The handler keeps one map per kind of conversation state.  A handler function
is modelled as a function from the state of the maps to the new state and the
list of calls it makes to its collaborators (`Effect`).  What a collaborator
answers during the handling of one update is an input (`Env`); the texts built
with `fmt.Sprintf` for users, staff and the generative backend belong to the
presentation layer and are inputs as well.  The text of a fixed message is
represented by its leading words. -/

/-- The constants of type `configStage`. -/
def configStageNeedType : Int := 0
def configStageNeedBudget : Int := 1
def configStageNeedCPU : Int := 2
def configStageNeedStorage : Int := 3
def configStageNeedGPU : Int := 4

/-- The type `configSession`. -/
structure configSession where
  Stage : Int
  PCType : Str
  Budget : Str
  CPUBrand : Str
  Storage : Str
  GPUBrand : Str
  StartedAt : Nat
  LastUpdate : Nat
deriving DecidableEq

/-- The type `configSpec`. -/
structure configSpec where
  PCType : Str
  Budget : Str
  CPU : Str
  Storage : Str
  GPU : Str
deriving DecidableEq

/-- The type `feedbackInfo`. -/
structure feedbackInfo where
  Summary : Str
  ConfigText : Str
  Username : Str
  ChatID : Int
  Spec : configSpec
deriving DecidableEq

/-- The type `groupThreadInfo`. -/
structure groupThreadInfo where
  UserID : Int
  UserChat : Int
  Username : Str
  Summary : Str
  Config : Str
  CreatedAt : Nat
  AllowOrder : Bool
deriving DecidableEq

/-- The type `pendingApproval`. -/
structure pendingApproval where
  UserID : Int
  UserChat : Int
  Summary : Str
  SentAt : Nat
  Config : Str
  Username : Str
deriving DecidableEq

/-- The type `changeRequest`. -/
structure changeRequest where
  Component : Str
  Spec : configSpec
deriving DecidableEq

/-- The constants of type `orderStage`. -/
def orderStageNeedName : Int := 0
def orderStageNeedPhone : Int := 1
def orderStageNeedLocation : Int := 2
def orderStageNeedDeliveryChoice : Int := 3
def orderStageNeedDeliveryConfirm : Int := 4

/-- The type `orderSession`. -/
structure orderSession where
  Stage : Int
  Name : Str
  Phone : Str
  Location : Str
  Delivery : Str
  Summary : Str
  ConfigTxt : Str
  Username : Str
deriving DecidableEq

/-- The type `adminApprovalRequest`. -/
structure adminApprovalRequest where
  Target : groupThreadInfo
  AdminMsg : Str
deriving DecidableEq

/-- The maps and constants of a `BotHandler`.  A map to pointers or structs is a
function to optional values, a `map[int64]bool` in which only `true` is stored
is a function to `Bool`. -/
structure BotHandler where
  group1ChatID : Int
  group2ChatID : Int
  configSessions : Int → Option configSession
  feedbacks : Int → Option feedbackInfo
  groupThreads : Int → Option groupThreadInfo
  pendingApprove : Int → Option pendingApproval
  adminApprovals : Int → Option adminApprovalRequest
  configReminded : Int → Bool
  pendingChange : Int → Option changeRequest
  orderSessions : Int → Option orderSession
  awaitingAdminMsg : Int → Bool
  shopMode : Int → Bool
  awaitingPassword : Int → Bool

/-- The handler `NewBotHandler` returns: all maps empty. -/
def NewBotHandler (group1ChatID group2ChatID : Int) : BotHandler :=
  { group1ChatID := group1ChatID, group2ChatID := group2ChatID,
    configSessions := fun _ => none, feedbacks := fun _ => none,
    groupThreads := fun _ => none, pendingApprove := fun _ => none,
    adminApprovals := fun _ => none, configReminded := fun _ => false,
    pendingChange := fun _ => none, orderSessions := fun _ => none,
    awaitingAdminMsg := fun _ => false, shopMode := fun _ => false,
    awaitingPassword := fun _ => false }

/-- The map assignment `m[key] = value` (with `none` or `false`: `delete`). -/
def setKey {α : Type} (m : Int → α) (key : Int) (value : α) : Int → α :=
  fun k => if k = key then value else m k

/-- A call the handler makes to a collaborator. -/
inductive Effect where
  /-- A text message sent to a chat (`sendMessage` or `bot.Send`), with or
  without buttons. -/
  | sendMessage (chatID : Int) (text : Str)
  /-- The "typing" chat action. -/
  | typing (chatID : Int)
  /-- The call `chatUseCase.ProcessMessage(ctx, userID, username, text)`. -/
  | processMessage (userID : Int) (username : Str) (text : Str)
  /-- The call `productUseCase.Search(ctx, query)`. -/
  | search (query : Str)
  /-- The order message `sendOrderToGroup2` sends to the second staff chat. -/
  | orderToGroup2 (userID : Int) (session : orderSession) (delivery : Str) (note : Str)
  /-- The sticker sent after an order. -/
  | sticker (chatID : Int)
  /-- A call to the admin or product use case, or to the transport, that
  neither reads nor writes the maps of the handler. -/
  | other (what : String)
deriving DecidableEq

/-- What the collaborators answer while one update is handled, and the texts
the presentation layer builds. -/
structure Env where
  /-- The value of `time.Now()`. -/
  now : Nat
  /-- The call `adminUseCase.IsAdmin` (its error is discarded). -/
  isAdmin : Int → Bool
  /-- The call `adminUseCase.Login`. -/
  login : Int → Str → Except GoError Bool
  /-- The call `productUseCase.Search`. -/
  search : Str → Except GoError (List Product)
  /-- The call `chatUseCase.ProcessMessage`. -/
  processMessage : Int → Str → Str → Except GoError Str
  /-- The identifier of the message `sendMessageWithResp` sent to a chat, or
  its error. -/
  sendMessageWithResp : Int → Str → Except GoError Int
  /-- Did `sendSticker` succeed. -/
  stickerOK : Bool
  /-- The summary text of `finishConfigSession`. -/
  configSummary : configSession → Str
  /-- The prompt of `finishConfigSession`. -/
  configPrompt : configSession → Str
  /-- The prompt of `handleChangeRequest`. -/
  changePrompt : configSpec → Str → Str
  /-- The feedback summary of `handleChangeRequest`. -/
  changeSummary : configSpec → Str
  /-- The text `buildProductPreview(products, 6)`. -/
  productPreview : List Product → Str
  /-- The text `fmt.Sprintf("Lat: %.5f, Lon: %.5f", lat, lon)`. -/
  locationText : F64 → F64 → Str
  /-- The staff message of the callback `cfg_fb_yes`. -/
  feedbackGroupText : Int → feedbackInfo → Str
  /-- The staff message of `handleUserMessageForAdmin`. -/
  userMessageGroupText : Int → Str → Str → Str

/-- The result of a handler function: the new state and the calls made. -/
abbrev Out := BotHandler × List Effect

/-- A fixed message text, by its leading words. -/
def msg (words : String) : Str := words.toList

/-- The function `nonEmpty`. -/
def nonEmpty (val fallback : Str) : Str :=
  if (trimSpace val).isEmpty then fallback else val

/-- The function `isConfigRequest`. -/
def isConfigRequest (lib : GoLib) (text : Str) : Bool :=
  let lower := toLower lib text
  let has (k : String) : Bool := contains lower k.toList
  let keywords : List String :=
    ["pc yig", "kompyuter yig", "pc build", "pc konfigur", "konfiguratsiya",
     "sborka", "sbor", "pc sbor", "pc sborka", "pc topla", "kompyuter topla",
     "pc kerak", "pc kera", "kompyuter kerak", "kompyuter kera",
     "gaming pc", "office pc", "montaj pc", "pc config", "pc setup",
     "kompyuter sborka", "kompyuter sbor", "pc yig'ib", "pc yigib", "pc yiqib",
     "$1k", "1k$", "1000$", "budjet", "byudjet", "budget"]
  if keywords.any has then true
  else
    let hasPC := has "pc" || has "kompyuter" || has "komp"
    let hasBuild := has "yig" || has "topla" || has "config" || has "setup" || has "sbor"
    let hasNeed := has "kerak" || has "kera"
    let hasBudget := has "$" || has "usd" || has "so'm" || has "soum" || has "sum" || has "uzs"
    hasPC && (hasBuild || hasNeed || hasBudget)

/-- The function `isLikelyConfigResponse`. -/
def isLikelyConfigResponse (lib : GoLib) (text : Str) : Bool :=
  let lower := toLower lib text
  let keys : List String :=
    ["protsessor", "ona plata", "motherboard", "gpu", "video karta", "ram", "ssd", "hdd",
     "jami", "konfiguratsiya"]
  decide (2 ≤ (keys.filter (fun k => contains lower k.toList)).length)

/-- The function `shouldOfferPurchase`. -/
def shouldOfferPurchase (lib : GoLib) (userText response : Str) : Bool :=
  let lt := toLower lib userText
  let lr := toLower lib response
  let queryIntent := contains lt "bormi".toList || contains lt "bormi?".toList ||
    contains lt "bor mi".toList || contains lt "olmoq".toList || contains lt "sotib".toList ||
    contains lt "narx".toList || contains lt "qancha".toList
  let responseSignals := contains lr "bizda bor".toList || contains lr "mavjud".toList ||
    contains lr "$".toList || contains lr "sotib ol".toList || contains lr "xarid".toList
  let negative := contains lr "mavjud emas".toList || contains lr "emas".toList ||
    contains lr "yo'q".toList || contains lr "yoq".toList || contains lr "afsus".toList ||
    contains lr "topilmadi".toList || contains lr "mavjud emas".toList
  queryIntent && responseSignals && !negative

/-- The function `isQuotaError`, for a returned error. -/
def isQuotaError (lib : GoLib) (err : GoError) : Bool :=
  let m := toLower lib err.toList
  contains m "quota".toList || contains m "retry in".toList || contains m "rate limit".toList

/-- The call `strconv.Atoi`: an optional sign and decimal digits, within the
range of `int`. -/
def atoi (s : Str) : Option Int :=
  let neg := s.head? == some '-'
  let body := if neg || s.head? == some '+' then s.drop 1 else s
  if body.isEmpty || !body.all isDigitRune then none
  else
    let v : Int := if neg then -(digitsValue body : Int) else (digitsValue body : Int)
    if -(2 : Int) ^ 63 ≤ v ∧ v < (2 : Int) ^ 63 then some v else none

/-! ### Accessors of the maps -/

def isAwaitingPassword (h : BotHandler) (userID : Int) : Bool := h.awaitingPassword userID

def setAwaitingPassword (h : BotHandler) (userID : Int) (awaiting : Bool) : BotHandler :=
  { h with awaitingPassword := setKey h.awaitingPassword userID awaiting }

def isAwaitingAdminMessage (h : BotHandler) (userID : Int) : Bool := h.awaitingAdminMsg userID

def setAwaitingAdminMessage (h : BotHandler) (userID : Int) (awaiting : Bool) : BotHandler :=
  { h with awaitingAdminMsg := setKey h.awaitingAdminMsg userID awaiting }

def setShopMode (h : BotHandler) (userID : Int) (enabled : Bool) : BotHandler :=
  { h with shopMode := setKey h.shopMode userID enabled }

def isInShopMode (h : BotHandler) (userID : Int) : Bool := h.shopMode userID

def saveFeedback (h : BotHandler) (userID : Int) (info : feedbackInfo) : BotHandler :=
  { h with feedbacks := setKey h.feedbacks userID (some info) }

def popFeedback (h : BotHandler) (userID : Int) : BotHandler × Option feedbackInfo :=
  match h.feedbacks userID with
  | some info => ({ h with feedbacks := setKey h.feedbacks userID none }, some info)
  | none => (h, none)

def getFeedback (h : BotHandler) (userID : Int) : Option feedbackInfo := h.feedbacks userID

def startConfigSession (env : Env) (h : BotHandler) (userID : Int) : BotHandler :=
  let session : configSession :=
    { Stage := configStageNeedType, PCType := [], Budget := [], CPUBrand := [],
      Storage := [], GPUBrand := [], StartedAt := env.now, LastUpdate := env.now }
  { h with configSessions := setKey h.configSessions userID (some session) }

def hasConfigSession (h : BotHandler) (userID : Int) : Bool := (h.configSessions userID).isSome

def setPendingChange (h : BotHandler) (userID : Int) (cr : changeRequest) : BotHandler :=
  { h with pendingChange := setKey h.pendingChange userID (some cr) }

def popPendingChange (h : BotHandler) (userID : Int) : BotHandler × Option changeRequest :=
  match h.pendingChange userID with
  | some cr => ({ h with pendingChange := setKey h.pendingChange userID none }, some cr)
  | none => (h, none)

def hasPendingChange (h : BotHandler) (userID : Int) : Bool := (h.pendingChange userID).isSome

def startOrderSession (h : BotHandler) (userID : Int) (info : pendingApproval) : BotHandler :=
  let session : orderSession :=
    { Stage := orderStageNeedName, Name := [], Phone := [], Location := [],
      Delivery := [], Summary := info.Summary, ConfigTxt := info.Config,
      Username := info.Username }
  { h with orderSessions := setKey h.orderSessions userID (some session) }

def clearOrderSession (h : BotHandler) (userID : Int) : BotHandler :=
  { h with orderSessions := setKey h.orderSessions userID none }

def hasOrderSession (h : BotHandler) (userID : Int) : Bool := (h.orderSessions userID).isSome

def wasConfigReminded (h : BotHandler) (chatID : Int) : Bool := h.configReminded chatID

def markConfigReminded (h : BotHandler) (chatID : Int) : BotHandler :=
  { h with configReminded := setKey h.configReminded chatID true }

def saveGroupThread (h : BotHandler) (messageID : Int) (info : groupThreadInfo) : BotHandler :=
  { h with groupThreads := setKey h.groupThreads messageID (some info) }

def getGroupThread (h : BotHandler) (messageID : Int) : Option groupThreadInfo :=
  h.groupThreads messageID

def savePendingApproval (h : BotHandler) (userID : Int) (info : pendingApproval) : BotHandler :=
  { h with pendingApprove := setKey h.pendingApprove userID (some info) }

def popPendingApproval (h : BotHandler) (userID : Int) : BotHandler × Option pendingApproval :=
  match h.pendingApprove userID with
  | some info => ({ h with pendingApprove := setKey h.pendingApprove userID none }, some info)
  | none => (h, none)

def saveAdminApproval (h : BotHandler) (messageID : Int) (req : adminApprovalRequest) :
    BotHandler :=
  { h with adminApprovals := setKey h.adminApprovals messageID (some req) }

def popAdminApproval (h : BotHandler) (messageID : Int) :
    BotHandler × Option adminApprovalRequest :=
  match h.adminApprovals messageID with
  | some req => ({ h with adminApprovals := setKey h.adminApprovals messageID none }, some req)
  | none => (h, none)

/-! ### Updates -/

/-- The fields of a `tgbotapi.Message` the handler reads.  `Command` is the
result of `message.Command()` when `message.IsCommand()` holds. -/
structure Message where
  MessageID : Int
  FromID : Int
  UserName : Str
  FirstName : Str
  ChatID : Int
  Text : Str
  Caption : Str
  Command : Option Str
  HasDocument : Bool
  Contact : Option Str
  Location : Option (F64 × F64)
  ReplyToMessage : Option Int

/-- The fields of a `tgbotapi.CallbackQuery` the handler reads. -/
structure CallbackQuery where
  FromID : Int
  Data : Str
  ChatID : Int
  MessageID : Int

/-- An update of the loop of `Start`. -/
inductive Update where
  | message (m : Message)
  | callback (cq : CallbackQuery)

/-! ### The config wizard -/

/-- The method `finishConfigSession`. -/
def finishConfigSession (env : Env) (h : BotHandler) (userID : Int) (username : Str)
    (chatID : Int) (session : configSession) : Out :=
  let summary := env.configSummary session
  let prompt := env.configPrompt session
  let calls := [Effect.sendMessage chatID summary, Effect.typing chatID,
    Effect.processMessage userID username prompt]
  match env.processMessage userID username prompt with
  | Except.error _ =>
    (h, calls ++ [Effect.sendMessage chatID
      (msg "Konfiguratsiya uchun javob tayyorlashda xatolik yuz berdi")])
  | Except.ok response =>
    (saveFeedback h userID
      { Summary := summary, ConfigText := response, Username := username, ChatID := chatID,
        Spec := { PCType := session.PCType, Budget := session.Budget, CPU := session.CPUBrand,
                  Storage := session.Storage, GPU := session.GPUBrand } },
     calls ++ [Effect.sendMessage chatID response,
       Effect.sendMessage chatID (msg "Konfiguratsiya yoqdimi?")])

/-- The method `handleConfigFlow`. -/
def handleConfigFlow (env : Env) (h : BotHandler) (userID : Int) (username text : Str)
    (chatID : Int) : Out :=
  let input := trimSpace text
  match h.configSessions userID with
  | none =>
    (h, [Effect.sendMessage chatID (msg "Konfiguratsiya sessiyasi topilmadi")])
  | some stored =>
    let session := { stored with LastUpdate := env.now }
    let store (s : configSession) : BotHandler :=
      { h with configSessions := setKey h.configSessions userID (some s) }
    let deleted : BotHandler := { h with configSessions := setKey h.configSessions userID none }
    if session.Stage = configStageNeedType then
      (store { session with PCType := input, Stage := configStageNeedBudget },
        [Effect.sendMessage chatID (msg "Budjetni kiriting")])
    else if session.Stage = configStageNeedBudget then
      (store { session with Budget := input, Stage := configStageNeedCPU },
        [Effect.sendMessage chatID (msg "Qaysi protsessor turini xohlaysiz?")])
    else if session.Stage = configStageNeedCPU then
      (store { session with CPUBrand := input, Stage := configStageNeedStorage },
        [Effect.sendMessage chatID (msg "Xotira turi?")])
    else if session.Stage = configStageNeedStorage then
      (store { session with Storage := input, Stage := configStageNeedGPU },
        [Effect.sendMessage chatID (msg "Grafik karta")])
    else if session.Stage = configStageNeedGPU then
      finishConfigSession env deleted userID username chatID { session with GPUBrand := input }
    else
      (deleted, [Effect.sendMessage chatID (msg "Sessiya qayta ishga tushirildi")])

/-- The method `handleConfigCommand`. -/
def handleConfigCommand (env : Env) (h : BotHandler) (message : Message) : Out :=
  (startConfigSession env h message.FromID,
    [Effect.sendMessage message.ChatID (msg "PC yig'ishni boshlaymiz! Qaysi turdagi PC kerak?")])

/-! ### Shop mode, purchase offers -/

/-- The method `handleShopMessage`; the Boolean is its result. -/
def handleShopMessage (env : Env) (h : BotHandler) (userID : Int) (username text : Str)
    (chatID : Int) : Out × Bool :=
  let query := trimSpace text
  if query.isEmpty then
    ((h, [Effect.sendMessage chatID (msg "Mahsulot nomi yoki talabi aniq emas")]), true)
  else
    match env.search query with
    | Except.error _ =>
      ((h, [Effect.search query,
        Effect.sendMessage chatID (msg "Mahsulotlarni qidirishda xatolik")]), true)
    | Except.ok products =>
      if products.length = 0 then
        ((h, [Effect.search query, Effect.sendMessage chatID (msg "Mahsulot topilmadi")]), true)
      else
        let preview := env.productPreview products
        let h1 := setShopMode h userID false
        let h2 := savePendingApproval h1 userID
          { UserID := userID, UserChat := chatID, Summary := msg "Shop so'rov: " ++ query,
            Config := preview, Username := username, SentAt := env.now }
        ((h2, [Effect.search query, Effect.sendMessage chatID (msg "Topdim!" ++ preview)]), true)

/-- The method `maybeAskToBuy`. -/
def maybeAskToBuy (lib : GoLib) (env : Env) (h : BotHandler) (chatID userID : Int)
    (username userText response : Str) : Out :=
  if !shouldOfferPurchase lib userText response then (h, [])
  else
    (savePendingApproval h userID
      { UserID := userID, UserChat := chatID, Summary := msg "Mahsulot so'rovi: " ++ userText,
        Config := response, Username := username, SentAt := env.now },
     [Effect.sendMessage chatID (msg "Ha, bizda bor! Sotib olishni istaysizmi?")])

/-- The method `handleShopCommand`. -/
def handleShopCommand (h : BotHandler) (message : Message) : Out :=
  (setShopMode h message.FromID true, [Effect.sendMessage message.ChatID (msg "Shop rejimi")])

/-! ### Component change and messages to the admin -/

/-- The method `handleChangeRequest`. -/
def handleChangeRequest (env : Env) (h : BotHandler) (userID : Int) (username text : Str)
    (chatID : Int) : Out :=
  match popPendingChange h userID with
  | (_, none) => (h, [])
  | (h1, some cr) =>
    let newValue := trimSpace text
    if newValue.isEmpty then
      (h1, [Effect.sendMessage chatID
        (msg "Iltimos, o'zgartirmoqchi bo'lgan komponent nomini yozing")])
    else
      let spec : configSpec :=
        if cr.Component = "cpu".toList then { cr.Spec with CPU := newValue }
        else if cr.Component = "gpu".toList then { cr.Spec with GPU := newValue }
        else if cr.Component = "ssd".toList then { cr.Spec with Storage := newValue }
        else cr.Spec
      let prompt := env.changePrompt spec newValue
      match env.processMessage userID username prompt with
      | Except.error _ =>
        (h1, [Effect.processMessage userID username prompt,
          Effect.sendMessage chatID (msg "Yangi konfiguratsiyani hisoblashda xatolik")])
      | Except.ok response =>
        (saveFeedback h1 userID
          { Summary := env.changeSummary spec, ConfigText := response, Username := username,
            ChatID := chatID, Spec := spec },
         [Effect.processMessage userID username prompt, Effect.sendMessage chatID response,
          Effect.sendMessage chatID (msg "Konfiguratsiya yoqdimi?")])

/-- The method `handleUserMessageForAdmin`. -/
def handleUserMessageForAdmin (env : Env) (h : BotHandler) (userID : Int)
    (username text : Str) (chatID : Int) : Out :=
  let trimmed := trimSpace text
  if trimmed.isEmpty then
    (h, [Effect.sendMessage chatID (msg "Adminga yuborish uchun xabar matnini yozing")])
  else
    let h1 := setAwaitingAdminMessage h userID false
    if h.group1ChatID = 0 then
      (h1, [Effect.sendMessage chatID (msg "Hozircha admin bilan bog'lanish ishlamayapti")])
    else
      let groupText := env.userMessageGroupText userID username trimmed
      match env.sendMessageWithResp h.group1ChatID groupText with
      | Except.error _ =>
        (h1, [Effect.sendMessage chatID (msg "Xabarni adminga yuborib bo'lmadi")])
      | Except.ok sentID =>
        (saveGroupThread h1 sentID
          { UserID := userID, UserChat := chatID, Username := username,
            Summary := msg "Foydalanuvchi xabari", Config := trimmed, CreatedAt := env.now,
            AllowOrder := false },
         [Effect.sendMessage h.group1ChatID groupText,
          Effect.sendMessage chatID (msg "Xabaringiz adminga yuborildi")])

/-! ### The order flow -/

/-- The method `sendOrderToGroup2`: the calls it makes. -/
def sendOrderToGroup2 (h : BotHandler) (userID : Int) (session : orderSession)
    (delivery note : Str) : List Effect :=
  if h.group2ChatID = 0 then [] else [Effect.orderToGroup2 userID session delivery note]

/-- The calls after an order is forwarded: the sticker, and a notice when it
fails. -/
def sendDoneSticker (env : Env) (chatID : Int) : List Effect :=
  if env.stickerOK then [Effect.sticker chatID]
  else [Effect.sticker chatID, Effect.sendMessage chatID (msg "Stiker yuborishda xatolik")]

/-- The method `handleOrderFlow`; `contact` and `location` are the payloads of
the message. -/
def handleOrderFlow (env : Env) (h : BotHandler) (userID : Int) (text : Str) (chatID : Int)
    (contact : Option Str) (location : Option (F64 × F64)) : Out :=
  match h.orderSessions userID with
  | none => (h, [])
  | some session =>
    let store (s : orderSession) : BotHandler :=
      { h with orderSessions := setKey h.orderSessions userID (some s) }
    if session.Stage = orderStageNeedName then
      let named := { session with Name := trimSpace text }
      if named.Name.isEmpty then
        (store named, [Effect.sendMessage chatID (msg "Iltimos, to'liq ismingizni yozing.")])
      else
        (store { named with Stage := orderStageNeedPhone },
          [Effect.sendMessage chatID (msg "Telefon raqamingizni yuboring")])
    else if session.Stage = orderStageNeedPhone then
      let phone :=
        match contact with
        | some number => if !number.isEmpty then number else trimSpace text
        | none => trimSpace text
      if phone.isEmpty then
        (h, [Effect.sendMessage chatID (msg "Telefon raqamingizni yuboring")])
      else
        (store { session with Phone := phone, Stage := orderStageNeedLocation },
          [Effect.sendMessage chatID (msg "Lokatsiyangizni yuboring")])
    else if session.Stage = orderStageNeedLocation then
      let locText :=
        match location with
        | some loc => env.locationText loc.1 loc.2
        | none => trimSpace text
      if locText.isEmpty then
        (h, [Effect.sendMessage chatID (msg "Lokatsiyangizni yuboring")])
      else
        (store { session with Location := locText, Stage := orderStageNeedDeliveryChoice },
          [Effect.sendMessage chatID (msg "Mahsulotni qanday olasiz?")])
    else if session.Stage = orderStageNeedDeliveryChoice then (store session, [])
    else if session.Stage = orderStageNeedDeliveryConfirm then (store session, [])
    else (h, [])

/-- The method `handleDeliveryChoice`. -/
def handleDeliveryChoice (env : Env) (h : BotHandler) (userID : Int) (choice : Str)
    (chatID : Int) : Out :=
  match h.orderSessions userID with
  | none => (h, [Effect.sendMessage chatID (msg "Buyurtma ma'lumotlari topilmadi")])
  | some stored =>
    let session : orderSession :=
      if choice = "pickup".toList then { stored with Delivery := "pickup".toList }
      else if choice = "courier".toList then
        { stored with Delivery := "courier".toList, Stage := orderStageNeedDeliveryConfirm }
      else stored
    let h1 : BotHandler :=
      { h with orderSessions := setKey h.orderSessions userID (some session) }
    if choice = "pickup".toList then
      (clearOrderSession h1 userID,
        [Effect.sendMessage chatID (msg "Rahmat! Buyurtmangiz 24 soat ichida tayyor bo'ladi")] ++
          sendOrderToGroup2 h1 userID session (msg "Olib ketish") [] ++
          sendDoneSticker env chatID)
    else
      (h1, [Effect.sendMessage chatID (msg "Yetkazib berish narxi")])

/-- The method `handleDeliveryConfirm`. -/
def handleDeliveryConfirm (env : Env) (h : BotHandler) (userID : Int) (agree : Bool)
    (chatID : Int) : Out :=
  match h.orderSessions userID with
  | none => (h, [Effect.sendMessage chatID (msg "Buyurtma ma'lumotlari topilmadi")])
  | some session =>
    if !agree then
      (clearOrderSession h userID,
        [Effect.sendMessage chatID (msg "Unda buyurtmani olib ketish punktidan olib keting.")] ++
          sendOrderToGroup2 h userID session (msg "Olib ketish")
            (msg "Dostavka narxiga rozilik bermadi") ++
          sendDoneSticker env chatID)
    else
      (clearOrderSession h userID,
        [Effect.sendMessage chatID (msg "Qabul qilindi. Buyurtmangiz rasmiylashtirilmoqda.")] ++
          (if h.group2ChatID ≠ 0 then
            sendOrderToGroup2 h userID session (msg "Dostavka (100k)") (msg "Rozilik berildi")
           else []) ++
          sendDoneSticker env chatID)

/-! ### Staff replies -/

/-- The method `handleGroupMessage`. -/
def handleGroupMessage (h : BotHandler) (message : Message) : Out :=
  match message.ReplyToMessage with
  | none => (h, [])
  | some repliedID =>
    match getGroupThread h repliedID with
    | none => (h, [])
    | some targetInfo =>
      let adminText := trimSpace message.Text
      let adminText :=
        if adminText.isEmpty ∧ !message.Caption.isEmpty then trimSpace message.Caption
        else adminText
      if adminText.isEmpty then (h, [])
      else
        (saveAdminApproval h message.MessageID { Target := targetInfo, AdminMsg := adminText },
          [Effect.sendMessage message.ChatID
            (msg "Foydalanuvchiga rasmiylashtirishni so'rashga ruxsat berasizmi?")])

/-- The method `sendAdminReplyToUser`. -/
def sendAdminReplyToUser (env : Env) (h : BotHandler) (target : groupThreadInfo)
    (adminMsg : Str) (askOrder : Bool) : Out :=
  let replyText := msg "Admindan javob: " ++ nonEmpty adminMsg (msg "javob matni yo'q")
  if askOrder then
    (savePendingApproval h target.UserID
      { UserID := target.UserID, UserChat := target.UserChat, Summary := target.Summary,
        Config := target.Config, Username := target.Username, SentAt := env.now },
     [Effect.sendMessage target.UserChat (replyText ++ msg " Rasmiylashtiramizmi?")])
  else (h, [Effect.sendMessage target.UserChat replyText])

/-- The method `handleAdminApprovalCallback`; the Boolean is its result. -/
def handleAdminApprovalCallback (env : Env) (h : BotHandler) (reqID : Int)
    (allowOrder : Bool) : Out × Bool :=
  match popAdminApproval h reqID with
  | (_, none) => ((h, []), false)
  | (h1, some req) =>
    let r := sendAdminReplyToUser env h1 req.Target req.AdminMsg allowOrder
    ((r.1, r.2 ++ [Effect.other "completeAdminApprovalPrompt"]), true)

/-! ### Buttons -/

/-- The cases `cfg_change_*` of `handleCallback`. -/
def handleChangeButton (h : BotHandler) (userID chatID : Int) (component : String)
    (question : String) : Out :=
  let h1 :=
    match getFeedback h userID with
    | some info => setPendingChange h userID { Component := component.toList, Spec := info.Spec }
    | none => h
  (h1, [Effect.sendMessage chatID (msg question)])

/-- The cases `order_yes`, `buy_yes` and `shop_yes` of `handleCallback`. -/
def handleOrderButton (h : BotHandler) (userID chatID : Int) (notFound : String)
    (staffNotice : Option String) : Out :=
  match popPendingApproval h userID with
  | (_, none) => (h, [Effect.sendMessage chatID (msg notFound)])
  | (h1, some info) =>
    (startOrderSession h1 userID info,
      [Effect.sendMessage chatID (msg "Iltimos, to'liq ismingizni yozing.")] ++
        (match staffNotice with
         | some notice =>
           if h.group1ChatID ≠ 0 then
             [Effect.sendMessage h.group1ChatID (msg notice ++ info.Summary ++ info.Config)]
           else []
         | none => []))

/-- The case `cfg_fb_yes` of `handleCallback`. -/
def handleFeedbackYes (env : Env) (h : BotHandler) (userID chatID : Int) : Out :=
  let thanks := Effect.sendMessage chatID (msg "Rahmat! Talabni qabul qildik")
  match popFeedback h userID with
  | (_, none) => (h, [thanks])
  | (h1, some info) =>
    if h.group1ChatID ≠ 0 then
      let groupMsg := env.feedbackGroupText userID info
      match env.sendMessageWithResp h.group1ChatID groupMsg with
      | Except.error _ => (h1, [thanks])
      | Except.ok sentID =>
        (saveGroupThread h1 sentID
          { UserID := userID, UserChat := info.ChatID, Username := info.Username,
            Summary := info.Summary, Config := info.ConfigText, CreatedAt := env.now,
            AllowOrder := true },
         [thanks, Effect.sendMessage h.group1ChatID groupMsg])
    else (h1, [thanks])

/-- The `switch data` of `handleCallback`. -/
def handleCallbackSwitch (env : Env) (h : BotHandler) (userID : Int) (data : Str)
    (chatID : Int) : Out :=
  if data = "cfg_fb_yes".toList then handleFeedbackYes env h userID chatID
  else if data = "cfg_fb_no".toList then
    ((popFeedback h userID).1,
      [Effect.sendMessage chatID (msg "Uzr, bu konfiguratsiya yoqmadi.")])
  else if data = "cfg_fb_change".toList then
    (h, [Effect.sendMessage chatID (msg "Qaysi komponentni almashtiraylik?")])
  else if data = "cfg_change_cpu".toList then
    handleChangeButton h userID chatID "cpu" "CPU o'rnida qanday modelni xohlaysiz?"
  else if data = "cfg_change_gpu".toList then
    handleChangeButton h userID chatID "gpu" "GPU o'rnida qanday modelni xohlaysiz?"
  else if data = "cfg_change_ram".toList then
    handleChangeButton h userID chatID "ram" "RAM uchun qanday hajm/tezlikni xohlaysiz?"
  else if data = "cfg_change_ssd".toList then
    handleChangeButton h userID chatID "ssd" "Qancha hajmdagi SSD xohlaysiz?"
  else if data = "cfg_change_other".toList then
    handleChangeButton h userID chatID "other" "Qaysi komponentni o'zgartirish kerakligini yozing."
  else if data = "admin_msgs".toList then
    (h, [Effect.other "admin_msgs"])
  else if data = "order_yes".toList then
    handleOrderButton h userID chatID "Buyurtma ma'lumotlari topilmadi." none
  else if data = "order_no".toList then
    ((popPendingApproval h userID).1, [Effect.sendMessage chatID (msg "Afsusdamiz.")])
  else if data = "delivery_pickup".toList then
    handleDeliveryChoice env h userID "pickup".toList chatID
  else if data = "delivery_courier".toList then
    handleDeliveryChoice env h userID "courier".toList chatID
  else if data = "delivery_confirm_yes".toList then
    handleDeliveryConfirm env h userID true chatID
  else if data = "delivery_confirm_no".toList then
    handleDeliveryConfirm env h userID false chatID
  else if data = "msg_admin_start".toList then
    (setAwaitingAdminMessage h userID true,
      [Effect.sendMessage chatID (msg "Adminga qoldirmoqchi bo'lgan xabaringizni yozib yuboring.")])
  else if data = "buy_yes".toList then
    handleOrderButton h userID chatID "Ma'lumot topilmadi." (some "Mahsulot so'rovi: ")
  else if data = "buy_no".toList then
    ((popPendingApproval h userID).1,
      [Effect.sendMessage chatID (msg "Yana savollar bo'lsa, bemalol yozing.")])
  else if data = "shop_yes".toList then
    handleOrderButton h userID chatID "Buyurtma ma'lumotlari topilmadi." (some "Shop so'rovi: ")
  else if data = "shop_no".toList then
    ((popPendingApproval h userID).1,
      [Effect.sendMessage chatID (msg "Yana biror mahsulot kerak bo'lsa, nomini yozing.")])
  else if data = "shop_more".toList then
    (setShopMode h userID true,
      [Effect.sendMessage chatID (msg "Qaysi variantni qidiramiz?")])
  else (h, [])

/-- The method `handleCallback` (its first call, the answer to the callback
query, is left out). -/
def handleCallback (env : Env) (h : BotHandler) (cq : CallbackQuery) : Out :=
  if "adm_approve_yes:".toList.isPrefixOf cq.Data || "adm_approve_no:".toList.isPrefixOf cq.Data
  then
    let allowOrder := "adm_approve_yes:".toList.isPrefixOf cq.Data
    let prefixLen := if allowOrder then "adm_approve_yes:".length else "adm_approve_no:".length
    match atoi (cq.Data.drop prefixLen) with
    | none => (h, [Effect.sendMessage cq.ChatID (msg "Tasdiq ma'lumotini o'qib bo'lmadi.")])
    | some reqID =>
      let r := handleAdminApprovalCallback env h reqID allowOrder
      if !r.2 then
        (r.1.1,
          r.1.2 ++ [Effect.sendMessage cq.ChatID (msg "Tasdiqlash topilmadi yoki eskirgan.")])
      else r.1
  else if "admin_msgs_user:".toList.isPrefixOf cq.Data then
    (h, [Effect.other "admin_msgs_user"])
  else handleCallbackSwitch env h cq.FromID cq.Data cq.ChatID

/-! ### Text messages and commands -/

/-- The end of `handleTextMessage`: the text goes to the generative backend. -/
def handleGenerativeBackend (lib : GoLib) (env : Env) (h : BotHandler) (userID : Int)
    (username text : Str) (chatID : Int) : Out :=
  let isCfgReq := isConfigRequest lib text
  match env.processMessage userID username text with
  | Except.error err =>
    (h, [Effect.typing chatID, Effect.processMessage userID username text,
      Effect.sendMessage chatID
        (if isQuotaError lib err then msg "AI xizmatida vaqtincha cheklov."
         else msg "Kechirasiz, xatolik yuz berdi.")])
  | Except.ok response =>
    let r := maybeAskToBuy lib env h chatID userID username text response
    let calls := [Effect.typing chatID, Effect.processMessage userID username text,
      Effect.sendMessage chatID response] ++ r.2
    if isCfgReq || isLikelyConfigResponse lib response then
      (saveFeedback r.1 userID
        { Summary := msg "So'rov: " ++ text, ConfigText := response, Username := username,
          ChatID := chatID, Spec := { PCType := [], Budget := [], CPU := [], Storage := [],
                                      GPU := [] } },
       calls ++ [Effect.sendMessage chatID (msg "Konfiguratsiya yoqdimi?")])
    else (r.1, calls)

/-- The redirect of `handleTextMessage` to the command `/configuratsiya`. -/
def remindConfigCommand (h : BotHandler) (chatID : Int) : Out :=
  (markConfigReminded h chatID,
    [Effect.sendMessage chatID (msg "PC yig'ishda yordam berish uchun /configuratsiya")])

/-- The part of `handleTextMessage` after the shop mode test: the order flow,
the component change, the config reminder and the generative backend. -/
def handleTextAfterShop (lib : GoLib) (env : Env) (h : BotHandler) (userID : Int)
    (username text : Str) (chatID : Int) (contact : Option Str)
    (location : Option (F64 × F64)) : Out :=
  if hasOrderSession h userID then
    handleOrderFlow env h userID text chatID contact location
  else if hasPendingChange h userID then
    handleChangeRequest env h userID username text chatID
  else if isConfigRequest lib text ∧ !wasConfigReminded h chatID then
    remindConfigCommand h chatID
  else handleGenerativeBackend lib env h userID username text chatID

/-- The method `handleTextMessage`; `contact` and `location` are the payloads of
the message. -/
def handleTextMessage (lib : GoLib) (env : Env) (h : BotHandler) (userID : Int)
    (username text : Str) (chatID : Int) (contact : Option Str)
    (location : Option (F64 × F64)) : Out :=
  if isAwaitingAdminMessage h userID then
    handleUserMessageForAdmin env h userID username text chatID
  else if hasConfigSession h userID then
    handleConfigFlow env h userID username text chatID
  else if isInShopMode h userID then
    let r := handleShopMessage env h userID username text chatID
    if r.2 then r.1
    else
      let t := handleTextAfterShop lib env r.1.1 userID username text chatID contact location
      (t.1, r.1.2 ++ t.2)
  else handleTextAfterShop lib env h userID username text chatID contact location

/-- The method `handleAdminCommand`. -/
def handleAdminCommand (env : Env) (h : BotHandler) (message : Message) : Out :=
  if env.isAdmin message.FromID then
    (h, [Effect.sendMessage message.ChatID
      (msg "Siz allaqachon admin sifatida tizimga kirgansiz!")])
  else
    (setAwaitingPassword h message.FromID true,
      [Effect.sendMessage message.ChatID (msg "Admin parolini kiriting:")])

/-- The method `handlePasswordInput`. -/
def handlePasswordInput (env : Env) (h : BotHandler) (message : Message) : Out :=
  let h1 := setAwaitingPassword h message.FromID false
  match env.login message.FromID message.Text with
  | Except.error _ =>
    (h1, [Effect.other "deleteMessage", Effect.other "Login",
      Effect.sendMessage message.ChatID (msg "Login xatosi yuz berdi.")])
  | Except.ok success =>
    (h1, [Effect.other "deleteMessage", Effect.other "Login",
      Effect.sendMessage message.ChatID
        (if success then msg "Admin panelga xush kelibsiz!" else msg "Noto'g'ri parol!")])

/-- The method `handleCommand`.  The commands `start`, `help`, `clear`,
`history`, `logout`, `catalog`, `products` and `clean` call the use cases and
send texts; they read and write none of the maps of the handler. -/
def handleCommand (env : Env) (h : BotHandler) (message : Message) (command : Str) : Out :=
  if command = "admin".toList then handleAdminCommand env h message
  else if command = "configuratsiya".toList then handleConfigCommand env h message
  else if command = "shop".toList then handleShopCommand h message
  else if command ∈ ["start".toList, "help".toList, "clear".toList, "history".toList,
      "logout".toList, "catalog".toList, "products".toList, "clean".toList] then
    (h, [Effect.other (String.mk command)])
  else (h, [Effect.sendMessage message.ChatID (msg "Noma'lum komanda. /help yordam uchun.")])

/-- The method `handleMessage`. -/
def handleMessage (lib : GoLib) (env : Env) (h : BotHandler) (message : Message) : Out :=
  let userID := message.FromID
  let username := if message.UserName.isEmpty then message.FirstName else message.UserName
  if h.group1ChatID ≠ 0 ∧ message.ChatID = h.group1ChatID then handleGroupMessage h message
  else if message.HasDocument then (h, [Effect.other "handleDocumentMessage"])
  else if isAwaitingPassword h userID then handlePasswordInput env h message
  else
    match message.Command with
    | some command => handleCommand env h message command
    | none =>
      if !message.Text.isEmpty ∨ message.Contact.isSome ∨ message.Location.isSome then
        handleTextMessage lib env h userID username message.Text message.ChatID
          message.Contact message.Location
      else (h, [])

/-- The body of the loop of `Start` for one update. -/
def handleUpdate (lib : GoLib) (env : Env) (h : BotHandler) : Update → Out
  | Update.callback cq => handleCallback env h cq
  | Update.message m => handleMessage lib env h m

/-- The handler after a sequence of updates, each with the answers of the
collaborators while it is handled. -/
def runUpdates (lib : GoLib) (h : BotHandler) : List (Env × Update) → BotHandler
  | [] => h
  | (env, u) :: rest => runUpdates lib (handleUpdate lib env h u).1 rest

/-! ### The routing of a text as the specification describes it -/

/-- The flows that can consume a text, in the order of precedence of the
specification. -/
inductive TextRoute where
  | adminMessage
  | configWizard
  | shopMode
  | orderFlow
  | changeRequest
  | configReminder
  | generativeBackend
deriving DecidableEq

/-- Is a flow applicable to a text of a user in a chat. -/
def TextRoute.applicable (lib : GoLib) (h : BotHandler) (userID chatID : Int) (text : Str) :
    TextRoute → Bool
  | TextRoute.adminMessage => h.awaitingAdminMsg userID
  | TextRoute.configWizard => (h.configSessions userID).isSome
  | TextRoute.shopMode => h.shopMode userID
  | TextRoute.orderFlow => (h.orderSessions userID).isSome
  | TextRoute.changeRequest => (h.pendingChange userID).isSome
  | TextRoute.configReminder => isConfigRequest lib text && !h.configReminded chatID
  | TextRoute.generativeBackend => true

/-- The first applicable flow in the order of precedence. -/
def firstApplicable (lib : GoLib) (h : BotHandler) (userID chatID : Int) (text : Str) :
    TextRoute :=
  ([TextRoute.adminMessage, TextRoute.configWizard, TextRoute.shopMode, TextRoute.orderFlow,
    TextRoute.changeRequest, TextRoute.configReminder].find?
      (TextRoute.applicable lib h userID chatID text)).getD TextRoute.generativeBackend

/-- The handler function of a flow. -/
def TextRoute.handler (lib : GoLib) (env : Env) (h : BotHandler) (userID : Int)
    (username text : Str) (chatID : Int) (contact : Option Str)
    (location : Option (F64 × F64)) : TextRoute → Out
  | TextRoute.adminMessage => handleUserMessageForAdmin env h userID username text chatID
  | TextRoute.configWizard => handleConfigFlow env h userID username text chatID
  | TextRoute.shopMode => (handleShopMessage env h userID username text chatID).1
  | TextRoute.orderFlow => handleOrderFlow env h userID text chatID contact location
  | TextRoute.changeRequest => handleChangeRequest env h userID username text chatID
  | TextRoute.configReminder => remindConfigCommand h chatID
  | TextRoute.generativeBackend => handleGenerativeBackend lib env h userID username text chatID

/-- The number of active flows of a user among the config wizard, the order
session, the pending change request and the capture of a message to the
admin. -/
def activeFlows (h : BotHandler) (userID : Int) : Nat :=
  (if (h.configSessions userID).isSome then 1 else 0) +
  (if (h.orderSessions userID).isSome then 1 else 0) +
  (if (h.pendingChange userID).isSome then 1 else 0) +
  (if h.awaitingAdminMsg userID then 1 else 0)

/-- The user an update comes from. -/
def Update.sender : Update → Int
  | Update.message m => m.FromID
  | Update.callback cq => cq.FromID

/-- The answers of a config session, in the order of the stages. -/
def configSession.answers (s : configSession) : List Str :=
  [s.PCType, s.Budget, s.CPUBrand, s.Storage, s.GPUBrand]

/-- The position of a flow in the order of precedence. -/
def TextRoute.rank : TextRoute → Nat
  | TextRoute.adminMessage => 0
  | TextRoute.configWizard => 1
  | TextRoute.shopMode => 2
  | TextRoute.orderFlow => 3
  | TextRoute.changeRequest => 4
  | TextRoute.configReminder => 5
  | TextRoute.generativeBackend => 6

/-- The state of a flow is the same in two states of the handler (the
generative backend keeps no state in the handler). -/
def TextRoute.untouched (h h' : BotHandler) : TextRoute → Prop
  | TextRoute.adminMessage => h'.awaitingAdminMsg = h.awaitingAdminMsg
  | TextRoute.configWizard => h'.configSessions = h.configSessions
  | TextRoute.shopMode => h'.shopMode = h.shopMode
  | TextRoute.orderFlow => h'.orderSessions = h.orderSessions
  | TextRoute.changeRequest => h'.pendingChange = h.pendingChange
  | TextRoute.configReminder => h'.configReminded = h.configReminded
  | TextRoute.generativeBackend => True

/-- Is an effect a call of the generative backend. -/
def Effect.isProcessMessage : Effect → Bool
  | Effect.processMessage _ _ _ => true
  | _ => false

/-- Two maps agree at every key but one. -/
def sameExceptAt {α : Type} (m m' : Int → α) (key : Int) : Prop :=
  ∀ k, k ≠ key → m' k = m k

/-- At most one of the four flow maps differs between two states of the handler,
and it differs at most at the entry of one user. -/
def FlowFrame (h h' : BotHandler) (userID : Int) : Prop :=
  (h'.orderSessions = h.orderSessions ∧ h'.pendingChange = h.pendingChange ∧
    h'.awaitingAdminMsg = h.awaitingAdminMsg ∧
    sameExceptAt h.configSessions h'.configSessions userID) ∨
  (h'.configSessions = h.configSessions ∧ h'.pendingChange = h.pendingChange ∧
    h'.awaitingAdminMsg = h.awaitingAdminMsg ∧
    sameExceptAt h.orderSessions h'.orderSessions userID) ∨
  (h'.configSessions = h.configSessions ∧ h'.orderSessions = h.orderSessions ∧
    h'.awaitingAdminMsg = h.awaitingAdminMsg ∧
    sameExceptAt h.pendingChange h'.pendingChange userID) ∨
  (h'.configSessions = h.configSessions ∧ h'.orderSessions = h.orderSessions ∧
    h'.pendingChange = h.pendingChange ∧
    sameExceptAt h.awaitingAdminMsg h'.awaitingAdminMsg userID)

/-! ### Sample updates -/

/-- Collaborators that always fail, with empty texts. -/
def sampleEnv : Env :=
  { now := 1, isAdmin := fun _ => false, login := fun _ _ => Except.ok false,
    search := fun _ => Except.ok [], processMessage := fun _ _ _ => Except.error "down",
    sendMessageWithResp := fun _ _ => Except.error "down", stickerOK := true,
    configSummary := fun _ => [], configPrompt := fun s => s.answers.flatten,
    changePrompt := fun _ v => v,
    changeSummary := fun _ => [], productPreview := fun _ => [],
    locationText := fun _ _ => [], feedbackGroupText := fun _ _ => [],
    userMessageGroupText := fun _ _ t => t }

/-- A text message of a user in the private chat of the same number. -/
def textMessage (userID : Int) (text : String) : Message :=
  { MessageID := 0, FromID := userID, UserName := "user".toList, FirstName := [],
    ChatID := userID, Text := text.toList, Caption := [], Command := none,
    HasDocument := false, Contact := none, Location := none, ReplyToMessage := none }

/-- A command of a user in the private chat of the same number. -/
def commandMessage (userID : Int) (command : String) : Message :=
  { textMessage userID ("/" ++ command) with Command := some command.toList }

/-- A button press of a user in the private chat of the same number. -/
def buttonPress (userID : Int) (data : String) : CallbackQuery :=
  { FromID := userID, Data := data.toList, ChatID := userID, MessageID := 0 }

/-- Two updates of user 1 on a new handler: the button that starts a message
to the admin, then the command that starts the config wizard. -/
def sampleTwoFlows : List (Env × Update) :=
  [(sampleEnv, Update.callback (buttonPress 1 "msg_admin_start")),
   (sampleEnv, Update.message (commandMessage 1 "configuratsiya"))]

/-! ### Sample conversations -/

/-- Collaborators as in `sampleEnv`, with a product search that finds the sample
GPU product. -/
def sampleShopEnv : Env := { sampleEnv with search := fun _ => Except.ok [sampleGPU] }

/-- Collaborators as in `sampleEnv`, with a staff chat where a sent message gets
the identifier 7. -/
def sampleStaffEnv : Env := { sampleEnv with sendMessageWithResp := fun _ _ => Except.ok 7 }

/-- Three updates of user 1: the command `/shop`, a query that finds a product,
and the button `shop_yes`, which starts an order session. -/
def sampleOrderStart : List (Env × Update) :=
  [(sampleEnv, Update.message (commandMessage 1 "shop")),
   (sampleShopEnv, Update.message (textMessage 1 "rtx")),
   (sampleEnv, Update.callback (buttonPress 1 "shop_yes"))]

/-- The order session `sampleOrderStart` leaves for user 1. -/
def sampleOrderSession : orderSession :=
  { Stage := orderStageNeedName, Name := [], Phone := [], Location := [], Delivery := [],
    Summary := msg "Shop so'rov: rtx", ConfigTxt := [], Username := "user".toList }

/-- The updates of `sampleOrderStart`, then the button that starts a message to
the admin and the command that starts the config wizard. -/
def sampleOrderThenWizard : List (Env × Update) :=
  sampleOrderStart ++
    [(sampleEnv, Update.callback (buttonPress 1 "msg_admin_start")),
     (sampleEnv, Update.message (commandMessage 1 "configuratsiya"))]

/-- Two updates of user 1: the button that starts a message to the admin and
the message, which is forwarded to the staff chat. -/
def sampleAdminThread : List (Env × Update) :=
  [(sampleEnv, Update.callback (buttonPress 1 "msg_admin_start")),
   (sampleStaffEnv, Update.message (textMessage 1 "hello"))]

/-- The thread `sampleAdminThread` saves under the message identifier 7. -/
def sampleThread : groupThreadInfo :=
  { UserID := 1, UserChat := 1, Username := "user".toList,
    Summary := msg "Foydalanuvchi xabari", Config := "hello".toList, CreatedAt := 1,
    AllowOrder := false }

/-- A reply of a staff member, in the staff chat 5, to the message 7. -/
def staffReply (messageID : Int) (text : String) : Message :=
  { textMessage 99 text with
    ChatID := 5, MessageID := messageID, ReplyToMessage := some 7 }

/-! ### The ranking of the fallback as the specification describes it -/

/-- The Go comparison `x <= y` of two `float64`. -/
def F64.le : F64 → F64 → Bool
  | F64.nan, _ => false
  | _, F64.nan => false
  | F64.inf a, F64.inf b => a || !b
  | F64.inf a, F64.fin _ => a
  | F64.fin _, F64.inf b => !b
  | F64.fin p, F64.fin q => decide (p ≤ q)

/-- The order of the sorted candidates: higher score, or equal score and a
price that is not higher. -/
def scoredBefore (a b : scoredProduct) : Prop :=
  b.Score < a.Score ∨ (a.Score = b.Score ∧ F64.le a.Product.Price b.Product.Price = true)

/-- The ranking of the fallback as the specification describes it: a product
comes before another when its score is higher, or the scores are equal and its
price is not higher. -/
def rankedBefore (lib : GoLib) (qf : QueryForms) (a b : Product) : Prop :=
  productScore lib qf b < productScore lib qf a ∨
  (productScore lib qf a = productScore lib qf b ∧ F64.le a.Price b.Price = true)

/-! ### More sample products -/

/-- The product of the GPU proximity example of the specification. -/
def sampleRTX4090 : Product := mkProduct "p4" "RTX 4090 24GB - $1800" "GPU" 1800 []

/-- Two GPU products with close model numbers, the second cheaper. -/
def sampleGeForce4090 : Product := mkProduct "p5" "GeForce 4090" "GPU" 1800 []
def sampleGeForce4095 : Product := mkProduct "p6" "GeForce 4095" "GPU" 1500 []

/-- Seven widgets that differ in their identifiers only. -/
def sampleWidgets7 : List Product :=
  (List.range 7).map (fun k => { sampleWidget with ID := sampleIds k })

/-! ### The strings `parsePrice` removes -/

/-- The strings `parsePrice` removes, in the order of its `ReplaceAll` calls. -/
def priceRemoved : List String :=
  [",", " ", "$", "€", "£", "₽", "¥", "so'm", "soʻm", "soum", "som", "сум", "сом",
    "sum", "uzs", "usd", "eur", "руб", "р"]

/-- The `ReplaceAll` calls of `parsePrice`, one after the other. -/
def stripPriceFormat (s : Str) : Str :=
  priceRemoved.foldl (fun acc r => replaceAll acc r.toList []) s

/-! ### Sample sheets with and without a header -/

/-- A sheet of one header row and one data row, and the same sheet without the
header row. -/
def sampleSheetHeader : Sheet := mkSheet [["Name", "Price"], ["Widget", "10"]]
def sampleSheetNoHeader : Sheet := mkSheet [["Widget", "10"]]

/-! ### The reminder of the config command -/

/-- The chats marked as reminded in a state of the handler are still marked in
another. -/
def RemindedKept (h h' : BotHandler) : Prop :=
  ∀ chatID, h.configReminded chatID = true → h'.configReminded chatID = true

/-- A user has no active flow: no message to the admin under way, no config
session, no shop mode, no order session and no pending change request. -/
def noActiveFlow (h : BotHandler) (userID : Int) : Prop :=
  h.awaitingAdminMsg userID = false ∧ h.configSessions userID = none ∧
  h.shopMode userID = false ∧ h.orderSessions userID = none ∧ h.pendingChange userID = none

/-- Two texts of user 1 with the intent of a PC build. -/
def sampleTwoConfigTexts : List (Env × Update) :=
  [(sampleEnv, Update.message (textMessage 1 "gaming pc kerak 800$")),
   (sampleEnv, Update.message (textMessage 1 "pc yig'ib bering"))]

/-! ### More sample sheets -/

/-- A sheet with a header, a negative price and a negative stock. -/
def sampleSheetNegative : Sheet := mkSheet [["Name", "Price", "Stock"], ["Widget", "-5", "-3"]]

/-- A sheet whose header has no price keyword and whose numbers are in the
third column. -/
def sampleSheetThirdColumn : Sheet :=
  mkSheet [["Name", "Color", "Val"], ["Widget", "red", "10"], ["Gadget", "blue", "20"]]

/-- A sheet without header with one full row and three rows of one cell. -/
def sampleSheetShortRows : Sheet := mkSheet [["Widget", "10"], ["Foo"], ["Bar"], ["Baz"]]

/-- The product of the data row of `sampleSheetNegative`. -/
def sampleNegativeWidget : Product :=
  { sampleParsedWidget with Price := F64.fin (-5), Stock := -3 }

/-! ### The layout test, as the specification words it and as a sample -/

/-- The rows the layout test samples: the first 5 rows that have the price
column and are not empty. -/
def layoutSample (priceCol : Nat) (rows : Sheet) : Sheet :=
  (rows.filter (fun row => decide (priceCol < row.length) && !isEmptyRow row)).take 5

/-- Does the price column of a row hold a number `parsePrice` reads. -/
def priceCellParses (lib : GoLib) (priceCol : Nat) (row : List Str) : Bool :=
  (parsePrice lib (trimSpace (row.getD priceCol []))).isSome

/-- The layout test in the words of the specification: among the first up to 5
non-empty rows strictly more than 70% have a parseable number in the price
column, a row lacking that column counting as not parseable; or no row is
sampled. -/
def tableLayoutAsStated (lib : GoLib) (priceCol : Nat) (rows : Sheet) : Bool :=
  let sample := (rows.filter (fun row => !isEmptyRow row)).take 5
  let valid := sample.filter
    (fun row => decide (priceCol < row.length) && priceCellParses lib priceCol row)
  sample.isEmpty || decide (7 * sample.length < 10 * valid.length)

/-! ### An invariant of the column map -/

/-- The indices of a column map are not negative. -/
def ColumnMap.Nonneg (m : ColumnMap) : Prop := ∀ kv ∈ m, 0 ≤ kv.2

/-! ### The category rules as an ordered list -/

/-- The rules of `detectCategory` in the order in which they are tested, each
with its category; `has k` tells whether the lower-cased name contains `k`. -/
def categoryRules (has : String → Bool) : List (Bool × String) :=
  [(has "monitor" || has "монитор" || has "display" || has "screen" ||
      has "144hz" || has "165hz" || has "240hz" || has "300hz" ||
      has "ips" || has "va panel" || has "curved" || has "ultrawide", "Monitor"),
   (has "ssd" || has "nvme" || has "hdd" || has "hard drive", "Storage"),
   (has "ddr4" || has "ddr5" || has "ddr3" || has "ddr ", "RAM"),
   (has "intel" || has "amd" || has "ryzen" || has "core i" ||
      has "processor" || has "xeon", "CPU"),
   (has "rtx" || has "gtx" || has "radeon" || has "rx " ||
      has "geforce" || has "nvidia" || has "arc" || has "inno3d", "GPU"),
   (has "motherboard" || has "b450" || has "b550" || has "b650" || has "b760" ||
      has "x570" || has "x670" || has "x870" || has "z690" || has "z790" ||
      has "lga1700" || has "lga1851" || has "am4" || has "am5", "Motherboard"),
   (has "psu" || has "power supply" || has "блок питания" || has "watt" ||
      (has "w " && (has "80+" || has "bronze" || has "gold")), "PSU"),
   (has "case" || has "корпус" || has "chassis" || has "tower", "Case"),
   (has "cooler" || has "cooling" || has "fan" || has "aio" ||
      has "liquid" || has "air cooler", "Cooling"),
   (has "chair" || has "стул" || has "gaming chair" || has "office chair", "Chair"),
   (has "desk" || has "стол" || has "table" || has "gaming desk", "Desk"),
   (has "keyboard" || has "клавиатура", "Keyboard"),
   (has "mouse" || has "мышь", "Mouse"),
   (has "headset" || has "headphone" || has "наушники", "Headset"),
   (has "ram" || has "memory" || has "corsair vengeance" || has "kingston fury", "RAM")]

/-- First match over the ordered rules, with the fallback category. -/
def firstMatchCategory (has : String → Bool) : Str :=
  (((categoryRules has).find? (fun rule => rule.1)).map (fun rule => rule.2.toList)).getD
    "Boshqa".toList

/-! ### The specs of a table row as a list of assignments -/

/-- The Go expression `specs[key]`: the value under a key, if any. -/
def specsLookup (specs : List (Str × Str)) (key : Str) : Option Str :=
  (specs.find? (fun kv => decide (kv.1 = key))).map Prod.snd

/-- The value the last assignment to a key gives it, if the key is assigned. -/
def lastAssigned (assignments : List (Str × Str)) (key : Str) : Option Str :=
  (assignments.reverse.find? (fun kv => decide (kv.1 = key))).map Prod.snd

/-- The columns of a table row that hold a field of the product: the name and
price columns and the mapped category, description and stock columns. -/
def usedColumns (plan : SheetPlan) : List Int :=
  [plan.nameCol, plan.priceCol] ++ (plan.columnMap.get "category".toList).toList ++
    (plan.columnMap.get "description".toList).toList ++
    (plan.columnMap.get "stock".toList).toList

/-- The key of a column in the specs of a sheet with a header: the trimmed
header cell, or `Extra_<index>` when that cell is blank or missing. -/
def specKey (plan : SheetPlan) (idx : Nat) : Str :=
  if idx < plan.header.length ∧ !(trimSpace (plan.header.getD idx [])).isEmpty
  then trimSpace (plan.header.getD idx [])
  else extraKey idx

/-- The assignments to the specs for a row of a sheet with a header, column by
column: one for every column that holds no field of the product and whose
trimmed cell is not empty. -/
def specAssignments (plan : SheetPlan) (row : List Str) : List (Str × Str) :=
  (row.enum.filter
    (fun ic => !(usedColumns plan).contains (ic.1 : Int) && !(trimSpace ic.2).isEmpty)).map
    (fun ic => (specKey plan ic.1, trimSpace ic.2))

/-- A sheet with a header in which two columns have the same header text, and a
sheet without header with a third and a fourth column. -/
def sampleSheetTwoColors : Sheet :=
  mkSheet [["Name", "Price", "Color", "Color"], ["Widget", "10", "Red", "Blue"]]
def sampleSheetFourColumns : Sheet := mkSheet [["Widget", "10", "Tools", "x"]]

/-- The product of the data row of `sampleSheetTwoColors`. -/
def sampleTwoColorsWidget : Product :=
  { sampleParsedWidget with Specs := [("Color".toList, "Blue".toList)] }

/-! ### The GPU-like test as the specification words it -/

/-- Loop of `hasDigitRun`; the counter is the length of the run of digits that
ends at the current position. -/
def digitRunAux (n : Nat) : Nat → Str → Bool
  | run, [] => decide (n ≤ run)
  | run, c :: t =>
    decide (n ≤ run) ||
      (if isDigitRune c then digitRunAux n (run + 1) t else digitRunAux n 0 t)

/-- Does the string contain `n` consecutive ASCII digits. -/
def hasDigitRun (n : Nat) (s : Str) : Bool := digitRunAux n 0 s

/-- The GPU-like test in the words of the specification: a keyword among `rtx`,
`gtx`, `rx`, `gpu`, `video`, whatever the case of the letters, or a numeral of
at least 3 consecutive digits. -/
def gpuLikeAsStated (lib : GoLib) (q : Str) : Bool :=
  let lower := toLower lib q
  contains lower "rtx".toList || contains lower "gtx".toList || contains lower "rx".toList ||
  contains lower "gpu".toList || contains lower "video".toList || hasDigitRun 3 lower

/-! ### More sample sheets and conversations -/

/-- A sheet whose first row is a valid record with a currency sign in its price
cell. -/
def sampleSheetDollar : Sheet := mkSheet [["Widget", "10$"], ["Gadget", "20"]]

/-- Two updates of user 1: the command `/shop`, then a query for which the
product search of `sampleEnv` finds nothing. -/
def sampleShopNothing : List (Env × Update) :=
  [(sampleEnv, Update.message (commandMessage 1 "shop")),
   (sampleEnv, Update.message (textMessage 1 "rtx"))]

/-! ### The fallback score as a count -/

/-- The numeric proximity of a query token and a product name: both have a
positive digits-number and the two differ by at most 200. -/
def proximityHit (qt nameNorm : Str) : Bool :=
  decide (0 < extractNumber qt ∧ 0 < extractNumber nameNorm ∧
    |extractNumber qt - extractNumber nameNorm| ≤ 200)

/-- The score of a product that failed the first condition of the loop, as a
count: 2 for every token in numeric proximity of the name, plus the length of
the longest common substring of compact query and compact name when it is at
least 3. -/
def fallbackScore (lib : GoLib) (qf : QueryForms) (p : Product) : Int :=
  2 * ((qf.tokensNorm.filter
      (fun qt => proximityHit qt (normalizeProductString lib p.Name))).length : Int) +
  (if 3 ≤ longestCommonSubstringLength qf.compactQuery (normalizeAlphaNum lib p.Name)
   then (longestCommonSubstringLength qf.compactQuery (normalizeAlphaNum lib p.Name) : Int)
   else 0)

end UPG

/-! # Theorems -/

set_option maxRecDepth 100000

namespace UPG

/-! ## Lemmas on strings -/

theorem contains_iff_isInfix (s sub : Str) : contains s sub = true ↔ sub <:+: s := by
  induction s with
  | nil =>
    cases sub with
    | nil => simp [contains]
    | cons a l => simp [contains]
  | cons c t ih =>
    rw [contains, Bool.or_eq_true, ih, List.isPrefixOf_iff_prefix, List.infix_cons_iff]

theorem toLower_isInfix (lib : GoLib) {a b : Str} (h : a <:+: b) :
    toLower lib a <:+: toLower lib b := by
  obtain ⟨s, t, rfl⟩ := h
  exact ⟨toLower lib s, toLower lib t, by simp [toLower]⟩

theorem dropRightWhile_isPrefix (p : Char → Bool) (s : Str) : dropRightWhile p s <+: s := by
  induction s with
  | nil => simp [dropRightWhile]
  | cons c t ih =>
    rw [dropRightWhile]
    split
    · split
      · exact List.nil_prefix
      · exact (List.prefix_cons_inj c).2 List.nil_prefix
    · exact (List.prefix_cons_inj c).2 ih

theorem trimSpace_isInfix (s : Str) : trimSpace s <:+: s :=
  ((dropRightWhile_isPrefix _ _).isInfix).trans (List.dropWhile_suffix _).isInfix

theorem trimSpace_eq_nil_of_all_space (s : Str) (h : ∀ c ∈ s, isSpace c = true) :
    trimSpace s = [] := by
  have : s.dropWhile isSpace = [] := by
    rw [List.dropWhile_eq_nil_iff]; exact h
  simp [trimSpace, this, dropRightWhile]

/-! ## Lemmas on the loop of `Search` -/

theorem searchStep_results (lib : GoLib) (qf : QueryForms) (acc : SearchAcc) (p : Product) :
    (searchStep lib qf acc p).results =
      if directMatch lib qf p then acc.results ++ [p] else acc.results := by
  unfold searchStep directMatch
  by_cases h1 : primaryMatch lib qf p = true
  · simp [h1]
  · by_cases h2 : digitMatch lib qf p = true
    · simp [h1, h2]
    · by_cases h3 : specsMatch lib qf p = true <;> simp [h1, h2, h3]

theorem searchStep_scored (lib : GoLib) (qf : QueryForms) (acc : SearchAcc) (p : Product) :
    (searchStep lib qf acc p).scored =
      if primaryMatch lib qf p = false ∧ digitMatch lib qf p = false ∧
          5 ≤ productScore lib qf p
      then acc.scored ++ [⟨p, productScore lib qf p⟩] else acc.scored := by
  unfold searchStep
  by_cases h1 : primaryMatch lib qf p = true
  · simp [h1]
  · by_cases h2 : digitMatch lib qf p = true
    · simp [h1, h2]
    · by_cases h3 : 5 ≤ productScore lib qf p <;> simp [h1, h2, h3]

theorem foldl_searchStep_results (lib : GoLib) (qf : QueryForms) (products : List Product)
    (acc : SearchAcc) :
    (products.foldl (searchStep lib qf) acc).results =
      acc.results ++ products.filter (directMatch lib qf) := by
  induction products generalizing acc with
  | nil => simp
  | cons p t ih =>
    rw [List.foldl_cons, ih, searchStep_results, List.filter_cons]
    by_cases h : directMatch lib qf p = true <;> simp [h]

theorem foldl_searchStep_scored (lib : GoLib) (qf : QueryForms) (products : List Product)
    (acc : SearchAcc) :
    (products.foldl (searchStep lib qf) acc).scored =
      acc.scored ++ (products.filter (fun p => primaryMatch lib qf p = false ∧
        digitMatch lib qf p = false ∧ 5 ≤ productScore lib qf p)).map
          (fun p => ⟨p, productScore lib qf p⟩) := by
  induction products generalizing acc with
  | nil => simp
  | cons p t ih =>
    rw [List.foldl_cons, ih, searchStep_scored, List.filter_cons]
    by_cases h : primaryMatch lib qf p = false ∧ digitMatch lib qf p = false ∧
        5 ≤ productScore lib qf p
    · simp [h]
    · simp [h]

theorem mem_insertScored (x y : scoredProduct) (l : List scoredProduct) :
    y ∈ insertScored x l ↔ y = x ∨ y ∈ l := by
  induction l with
  | nil => simp [insertScored]
  | cons z t ih =>
    rw [insertScored]
    split
    · simp only [List.mem_cons, ih]; tauto
    · simp only [List.mem_cons]

theorem mem_sortScored (y : scoredProduct) (l : List scoredProduct) :
    y ∈ sortScored l ↔ y ∈ l := by
  induction l with
  | nil => simp [sortScored]
  | cons z t ih =>
    have : sortScored (z :: t) = insertScored z (sortScored t) := rfl
    rw [this, mem_insertScored, ih, List.mem_cons]

theorem mem_takeBest (x : Product) (l : List scoredProduct) (results : List Product)
    (h : x ∈ takeBest results l) :
    x ∈ results ∨ ∃ sp ∈ l, sp.Product = x ∧ 8 ≤ sp.Score := by
  induction l generalizing results with
  | nil => exact Or.inl h
  | cons sp t ih =>
    rw [takeBest] at h
    split at h
    · rename_i hc
      rcases ih _ h with h1 | ⟨sp', hm, he, hs⟩
      · rcases List.mem_append.1 h1 with h2 | h2
        · exact Or.inl h2
        · refine Or.inr ⟨sp, List.mem_cons_self _ _, ?_, hc.1⟩
          exact (List.mem_singleton.1 h2).symm
      · exact Or.inr ⟨sp', List.mem_cons_of_mem _ hm, he, hs⟩
    · rcases ih _ h with h1 | ⟨sp', hm, he, hs⟩
      · exact Or.inl h1
      · exact Or.inr ⟨sp', List.mem_cons_of_mem _ hm, he, hs⟩

theorem gpuRefine_subset (lib : GoLib) (b : Bool) (l : List Product) (x : Product)
    (h : x ∈ gpuRefine lib b l) : x ∈ l := by
  unfold gpuRefine at h
  split at h
  · simp only at h
    split at h
    · exact (List.mem_filter.1 h).1
    · exact h
  · exact h

theorem mem_gpuRefine (lib : GoLib) (b : Bool) (l : List Product) (x : Product)
    (hx : x ∈ l)
    (h : b = false ∨ isGPUProduct lib x = true ∨ ∀ y ∈ l, isGPUProduct lib y = false) :
    x ∈ gpuRefine lib b l := by
  unfold gpuRefine
  split
  · rename_i hb
    simp only
    split
    · rename_i hf
      rcases h with h | h | h
      · simp [h] at hb
      · exact List.mem_filter.2 ⟨hx, h⟩
      · exfalso
        obtain ⟨y, hy⟩ := List.exists_mem_of_length_pos hf
        have := List.mem_filter.1 hy
        rw [h y this.1] at this
        exact absurd this.2 (by simp)
    · exact hx
  · exact hx

/-- What `searchUnrefined` returns, in closed form. -/
theorem searchUnrefined_eq (lib : GoLib) (qf : QueryForms) (products : List Product) :
    searchUnrefined lib qf products =
      if products.filter (directMatch lib qf) = [] then
        takeBest [] (sortScored ((products.filter (fun p => primaryMatch lib qf p = false ∧
          digitMatch lib qf p = false ∧ 5 ≤ productScore lib qf p)).map
            (fun p => ⟨p, productScore lib qf p⟩)))
      else products.filter (directMatch lib qf) := by
  unfold searchUnrefined
  simp only [foldl_searchStep_results, foldl_searchStep_scored, List.nil_append]
  by_cases h : products.filter (directMatch lib qf) = []
  · rw [h]
    simp only [List.length_nil, true_and, if_true]
    split
    · rfl
    · rename_i h0
      have : (products.filter (fun p => primaryMatch lib qf p = false ∧
          digitMatch lib qf p = false ∧ 5 ≤ productScore lib qf p)).map
            (fun p => (⟨p, productScore lib qf p⟩ : scoredProduct)) = [] := by
        rw [← List.length_eq_zero]; omega
      rw [this]; rfl
  · have hl : (products.filter (directMatch lib qf)).length ≠ 0 := by
      rw [Ne, List.length_eq_zero]; exact h
    simp [h, hl]

theorem dropRightWhile_eq_nil (p : Char → Bool) (s : Str) (h : dropRightWhile p s = []) :
    ∀ c ∈ s, p c = true := by
  induction s with
  | nil => simp
  | cons a t ih =>
    rw [dropRightWhile] at h
    split at h
    · rename_i hr
      split at h
      · rename_i hp
        intro c hc
        rcases List.mem_cons.1 hc with rfl | hc
        · exact hp
        · exact ih hr c hc
      · simp at h
    · simp at h

theorem trimSpace_ne_nil (s : Str) (h : ∃ c ∈ s, isSpace c = false) : trimSpace s ≠ [] := by
  intro hnil
  obtain ⟨c, hc, hsp⟩ := h
  have h1 := dropRightWhile_eq_nil _ _ hnil
  have h2 : ∀ x ∈ s, isSpace x = true := by
    intro x hx
    by_contra hx2
    have hx3 : x ∈ s.dropWhile isSpace := by
      clear hnil h1 hc
      induction s with
      | nil => simp at hx
      | cons a t ih =>
        rw [List.dropWhile_cons]
        split
        · rename_i ha
          rcases List.mem_cons.1 hx with rfl | hx
          · exact absurd ha hx2
          · exact ih hx
        · exact hx
    exact hx2 (h1 x hx3)
  rw [h2 c hc] at hsp
  exact absurd hsp (by simp)

/-! ## Product search: theorems -/

/-- C1 (as stated, refuted): in the sample catalog the string `500` and the
string of two blanks have length 2 or more and are case-insensitive substrings of
the name of the storage product, yet `Search` returns that product for
neither. -/
theorem C1_counterexample :
    (sampleSSD ∈ sampleCatalog ∧ 2 ≤ "500".toList.length ∧
      contains (toLower asciiLib sampleSSD.Name) (toLower asciiLib "500".toList) = true ∧
      sampleSSD ∉ (Search asciiLib sampleCatalog "500".toList).1) ∧
    (2 ≤ "  ".toList.length ∧
      contains (toLower asciiLib sampleSSD.Name) (toLower asciiLib "  ".toList) = true ∧
      sampleSSD ∉ (Search asciiLib sampleCatalog "  ".toList).1) := by
  decide

/-- C1 (amended): for every catalog, every product `P` in it and every string `S`
that is a case-insensitive substring of `P.Name` and has a non-blank character,
`P` is among the products `Search S` selects before its GPU filter; and `P` is in
the result of `Search S` when the query is not GPU-like, or `P` is a GPU product,
or no selected product is a GPU product. -/
theorem C1_search_substring (lib : GoLib) (products : List Product) (P : Product) (S : Str)
    (hP : P ∈ products)
    (hsub : contains (toLower lib P.Name) (toLower lib S) = true)
    (hS : ∃ c ∈ S, isSpace c = false) :
    P ∈ searchUnrefined lib (queryForms lib (toLower lib (trimSpace S))) products ∧
    ((isGPUQuery lib (toLower lib (trimSpace S)) = false ∨ isGPUProduct lib P = true ∨
        ∀ y ∈ searchUnrefined lib (queryForms lib (toLower lib (trimSpace S))) products,
          isGPUProduct lib y = false) →
      P ∈ (Search lib products S).1) := by
  have hne : toLower lib (trimSpace S) ≠ [] := by
    have := trimSpace_ne_nil S hS
    intro h
    exact this (List.map_eq_nil_iff.1 h)
  have hq : contains (toLower lib P.Name) (toLower lib (trimSpace S)) = true := by
    rw [contains_iff_isInfix] at hsub ⊢
    exact (toLower_isInfix lib (trimSpace_isInfix S)).trans hsub
  have hd : directMatch lib (queryForms lib (toLower lib (trimSpace S))) P = true := by
    have : (queryForms lib (toLower lib (trimSpace S))).query = toLower lib (trimSpace S) := rfl
    simp [directMatch, primaryMatch, this, hq]
  have hmem : P ∈ products.filter
      (directMatch lib (queryForms lib (toLower lib (trimSpace S)))) :=
    List.mem_filter.2 ⟨hP, hd⟩
  have hun : P ∈ searchUnrefined lib (queryForms lib (toLower lib (trimSpace S))) products := by
    rw [searchUnrefined_eq, if_neg (List.ne_nil_of_mem hmem)]
    exact hmem
  refine ⟨hun, fun hg => ?_⟩
  have hemp : (toLower lib (trimSpace S)).isEmpty = false := by
    cases h : toLower lib (trimSpace S) with
    | nil => exact absurd h hne
    | cons a l => rfl
  simp only [Search, searchProducts, hemp]
  exact mem_gpuRefine lib _ _ P hun hg

/-- A use of C1 (amended): in the sample catalog `Search` finds the storage
product from the part `ssd` of its name. -/
theorem C1_search_substring_witness :
    sampleSSD ∈ (Search asciiLib sampleCatalog "ssd".toList).1 :=
  (C1_search_substring asciiLib sampleCatalog sampleSSD "ssd".toList (by decide) (by decide)
    ⟨'s', by decide, by decide⟩).2 (Or.inl (by decide))

/-- C2 (as stated, refuted): `Search` returns the widget for the query `red`
although it meets no criterion of the name/category/description tier, does not
match by digits, and its fallback score is below 8. -/
theorem C2_counterexample :
    sampleWidget ∈ (Search asciiLib [sampleWidget] "red".toList).1 ∧
    primaryMatch asciiLib (queryForms asciiLib "red".toList) sampleWidget = false ∧
    digitMatch asciiLib (queryForms asciiLib "red".toList) sampleWidget = false ∧
    ¬ 8 ≤ productScore asciiLib (queryForms asciiLib "red".toList) sampleWidget := by
  decide

/-- C2 (amended): every product `Search` returns satisfies the first condition of
the loop (query or a token contained in name, category or description, in raw
or normalised form), or the digit condition, or has a spec value containing the
query; or else no product of the catalog satisfies any of the three and the
product has a fallback score of at least 8. -/
theorem C2_search_no_filler (lib : GoLib) (products : List Product) (query : Str)
    (p : Product) (hp : p ∈ (Search lib products query).1) :
    primaryMatch lib (queryForms lib (toLower lib (trimSpace query))) p = true ∨
    digitMatch lib (queryForms lib (toLower lib (trimSpace query))) p = true ∨
    specsMatch lib (queryForms lib (toLower lib (trimSpace query))) p = true ∨
    ((∀ x ∈ products,
        primaryMatch lib (queryForms lib (toLower lib (trimSpace query))) x = false ∧
        digitMatch lib (queryForms lib (toLower lib (trimSpace query))) x = false ∧
        specsMatch lib (queryForms lib (toLower lib (trimSpace query))) x = false) ∧
      8 ≤ productScore lib (queryForms lib (toLower lib (trimSpace query))) p) := by
  simp only [Search, searchProducts] at hp
  split at hp
  · simp at hp
  · have h1 := gpuRefine_subset lib _ _ p hp
    rw [searchUnrefined_eq] at h1
    split at h1
    · rename_i hnil
      right; right; right
      constructor
      · intro x hx
        have hx2 : directMatch lib (queryForms lib (toLower lib (trimSpace query))) x = false := by
          by_contra hc
          have : x ∈ products.filter
              (directMatch lib (queryForms lib (toLower lib (trimSpace query)))) :=
            List.mem_filter.2 ⟨hx, by simpa using hc⟩
          rw [hnil] at this
          simp at this
        simp only [directMatch, Bool.or_eq_false_iff] at hx2
        exact ⟨hx2.1.1, hx2.1.2, hx2.2⟩
      · rcases mem_takeBest p _ _ h1 with h2 | ⟨sp, hsp, he, h8⟩
        · simp at h2
        · rw [mem_sortScored, List.mem_map] at hsp
          obtain ⟨y, _, rfl⟩ := hsp
          simp only at he h8
          rw [← he]; exact h8
    · have h2 := (List.mem_filter.1 h1).2
      simp only [directMatch, Bool.or_eq_true] at h2
      tauto

/-- A use of C2 (amended): the widget returned for the query `red` satisfies one
of the four alternatives. -/
theorem C2_search_no_filler_witness :
    sampleWidget ∈ (Search asciiLib [sampleWidget] "red".toList).1 ∧
    (primaryMatch asciiLib (queryForms asciiLib (toLower asciiLib (trimSpace "red".toList)))
        sampleWidget = true ∨
      digitMatch asciiLib (queryForms asciiLib (toLower asciiLib (trimSpace "red".toList)))
        sampleWidget = true ∨
      specsMatch asciiLib (queryForms asciiLib (toLower asciiLib (trimSpace "red".toList)))
        sampleWidget = true ∨
      ((∀ x ∈ [sampleWidget],
          primaryMatch asciiLib
            (queryForms asciiLib (toLower asciiLib (trimSpace "red".toList))) x = false ∧
          digitMatch asciiLib
            (queryForms asciiLib (toLower asciiLib (trimSpace "red".toList))) x = false ∧
          specsMatch asciiLib
            (queryForms asciiLib (toLower asciiLib (trimSpace "red".toList))) x = false) ∧
        8 ≤ productScore asciiLib
          (queryForms asciiLib (toLower asciiLib (trimSpace "red".toList))) sampleWidget)) :=
  ⟨by decide, C2_search_no_filler asciiLib [sampleWidget] "red".toList sampleWidget (by decide)⟩

/-- C3: for every catalog and every query that is empty or made of whitespace
only, `Search` returns the empty result and no error. -/
theorem C3_search_blank_query (lib : GoLib) (products : List Product) (query : Str)
    (h : ∀ c ∈ query, isSpace c = true) :
    Search lib products query = ([], none) := by
  simp [Search, searchProducts, trimSpace_eq_nil_of_all_space query h, toLower]

/-- A use of C3: the empty query and the query of three blanks on the sample
catalog. -/
theorem C3_search_blank_query_witness :
    Search asciiLib sampleCatalog [] = ([], none) ∧
    Search asciiLib sampleCatalog "   ".toList = ([], none) :=
  ⟨C3_search_blank_query asciiLib sampleCatalog [] (by decide),
   C3_search_blank_query asciiLib sampleCatalog "   ".toList (by decide)⟩

/-! ## Lemmas on the row loops of the parser -/

theorem parsePrice_nil (lib : GoLib) : parsePrice lib (trimSpace []) = none := by
  simp [parsePrice, trimSpace, dropRightWhile, toLower]

theorem validRecord_price_none (lib : GoLib) (nameCell priceCell : Str)
    (h : parsePrice lib (trimSpace priceCell) = none) :
    validRecord lib nameCell priceCell = none := by
  simp [validRecord, h]

theorem validRecord_name_short (lib : GoLib) (nameCell priceCell : Str)
    (h : byteLen (trimSpace nameCell) < 3) :
    validRecord lib nameCell priceCell = none := by
  unfold validRecord
  split
  · rw [if_neg]; omega
  · rfl

theorem validRecord_some (lib : GoLib) (nameCell priceCell : Str) (price : F64)
    (hp : parsePrice lib (trimSpace priceCell) = some price) :
    validRecord lib nameCell priceCell =
      if 3 ≤ byteLen (trimSpace nameCell) ∧ price.isZero = false
      then some (trimSpace nameCell, price) else none := by
  simp [validRecord, hp]

theorem isEmptyRow_cell (row : List Str) (h : isEmptyRow row = true) (c : Int) :
    trimSpace (cellOrEmpty row c) = [] := by
  unfold cellOrEmpty cell
  split
  · rfl
  · rw [List.getD_eq_getElem?_getD]
    cases hg : row[c.toNat]? with
    | none => rfl
    | some x =>
      have hx : x ∈ row := List.getElem?_mem hg
      have := List.all_eq_true.1 h x hx
      simpa using this

theorem cellOrEmpty_nil (c : Int) : cellOrEmpty [] c = [] := by
  unfold cellOrEmpty cell
  split <;> simp

theorem byteLen_nil : byteLen [] = 0 := rfl

/-- A table row yields the valid record of its name and price cells. -/
theorem parseTableRow_pair (lib : GoLib) (plan : SheetPlan) (id : Str) (now : Nat)
    (row : List Str) :
    (parseTableRow lib plan id now row).map (fun p => (p.Name, p.Price)) =
      validRecord lib (cellOrEmpty row plan.nameCol) (cellOrEmpty row plan.priceCol) := by
  unfold parseTableRow
  by_cases h1 : (row.length = 0 || isEmptyRow row) = true
  · rw [if_pos h1]
    symm
    apply validRecord_price_none
    rcases Bool.or_eq_true_iff.1 h1 with h | h
    · have : row = [] := List.length_eq_zero.1 (by simpa using h)
      rw [this, cellOrEmpty_nil]; exact parsePrice_nil lib
    · rw [isEmptyRow_cell row h]; exact parsePrice_nil lib
  · rw [if_neg h1]
    by_cases h2 : (decide ((row.length : Int) ≤ plan.nameCol) ||
        decide ((row.length : Int) ≤ plan.priceCol)) = true
    · rw [if_pos h2]
      symm
      rcases Bool.or_eq_true_iff.1 h2 with h | h
      · apply validRecord_name_short
        have : cellOrEmpty row plan.nameCol = [] := by
          unfold cellOrEmpty; rw [if_pos (by simpa using h)]
        rw [this]; decide
      · apply validRecord_price_none
        have : cellOrEmpty row plan.priceCol = [] := by
          unfold cellOrEmpty; rw [if_pos (by simpa using h)]
        rw [this]; exact parsePrice_nil lib
    · rw [if_neg h2]
      have hn : ¬ (row.length : Int) ≤ plan.nameCol := by
        intro h; exact h2 (by simp [h])
      have hp : ¬ (row.length : Int) ≤ plan.priceCol := by
        intro h; exact h2 (by simp [h])
      have en : cellOrEmpty row plan.nameCol = cell row plan.nameCol := by
        unfold cellOrEmpty; rw [if_neg hn]
      have ep : cellOrEmpty row plan.priceCol = cell row plan.priceCol := by
        unfold cellOrEmpty; rw [if_neg hp]
      rw [en, ep]
      by_cases h3 : ((trimSpace (cell row plan.nameCol)).isEmpty ||
          (trimSpace (cell row plan.priceCol)).isEmpty) = true
      · simp only [h3, if_true, Option.map_none']
        symm
        rcases Bool.or_eq_true_iff.1 h3 with h | h
        · apply validRecord_name_short
          rw [List.isEmpty_iff.1 h]; decide
        · apply validRecord_price_none
          rw [List.isEmpty_iff.1 h]; exact parsePrice_nil lib
      · simp only [h3, Bool.false_eq_true, if_false]
        cases hpp : parsePrice lib (trimSpace (cell row plan.priceCol)) with
        | none =>
          simp only [Option.map_none']
          exact (validRecord_price_none lib _ _ hpp).symm
        | some price =>
          rw [validRecord_some lib _ _ price hpp]
          by_cases hz : price.isZero = true
          · simp [hz]
          · by_cases hl : byteLen (trimSpace (cell row plan.nameCol)) < 3
            · have hl2 : ¬ 3 ≤ byteLen (trimSpace (cell row plan.nameCol)) := by omega
              simp [hz, hl, hl2]
            · have hz2 : price.isZero = false := by simpa using hz
              have hl2 : 3 ≤ byteLen (trimSpace (cell row plan.nameCol)) := by omega
              simp [hz2, hl, hl2]

/-- A column pair yields the valid record of its two cells. -/
theorem parsePair_pair (lib : GoLib) (id : Str) (now : Nat) (nameCell priceCell : Str) :
    (parsePair lib id now nameCell priceCell).map (fun p => (p.Name, p.Price)) =
      validRecord lib nameCell priceCell := by
  unfold parsePair
  by_cases h1 : ((trimSpace nameCell).isEmpty && (trimSpace priceCell).isEmpty) = true
  · simp only [h1, if_true, Option.map_none']
    symm
    apply validRecord_price_none
    rw [List.isEmpty_iff.1 (Bool.and_eq_true_iff.1 h1).2]
    exact parsePrice_nil lib
  · simp only [h1, Bool.false_eq_true, if_false]
    cases hpp : parsePrice lib (trimSpace priceCell) with
    | none =>
      simp only [Option.map_none']
      exact (validRecord_price_none lib _ _ hpp).symm
    | some price =>
      rw [validRecord_some lib _ _ price hpp]
      by_cases hz : price.isZero = true
      · simp [hz]
      · by_cases hl : byteLen (trimSpace nameCell) < 3
        · have hl2 : ¬ 3 ≤ byteLen (trimSpace nameCell) := by omega
          simp [hz, hl, hl2]
        · have hz2 : price.isZero = false := by simpa using hz
          have hl2 : 3 ≤ byteLen (trimSpace nameCell) := by omega
          simp [hz2, hl, hl2]

/-- The pairs of a row, appended to the products found before. -/
theorem parsePairs_map (lib : GoLib) (ids : Nat → Str) (now : Nat) :
    ∀ (row : List Str) (acc : List Product),
      (parsePairs lib ids now row acc).map (fun p => (p.Name, p.Price)) =
        acc.map (fun p => (p.Name, p.Price)) ++
          (pairsOf row).filterMap (fun np => validRecord lib np.1 np.2)
  | [], acc => by simp [parsePairs, pairsOf]
  | [_], acc => by simp [parsePairs, pairsOf]
  | a :: b :: rest, acc => by
    have hp := parsePair_pair lib (ids acc.length) now a b
    rw [parsePairs, pairsOf, List.filterMap_cons]
    cases h : parsePair lib (ids acc.length) now a b with
    | none =>
      rw [h] at hp
      simp only [Option.map_none'] at hp
      simp only [← hp]
      exact parsePairs_map lib ids now rest acc
    | some product =>
      rw [h] at hp
      simp only [Option.map_some'] at hp
      simp only [← hp]
      rw [parsePairs_map lib ids now rest (acc ++ [product])]
      simp

theorem pairsOf_emptyRow (lib : GoLib) :
    ∀ (row : List Str), isEmptyRow row = true →
      (pairsOf row).filterMap (fun np => validRecord lib np.1 np.2) = []
  | [], _ => by simp [pairsOf]
  | [_], _ => by simp [pairsOf]
  | a :: b :: rest, h => by
    have hb : trimSpace b = [] := by
      have := List.all_eq_true.1 h b (by simp)
      simpa using this
    have hrest : isEmptyRow rest = true := by
      apply List.all_eq_true.2
      intro x hx
      exact List.all_eq_true.1 h x (by simp [hx])
    rw [pairsOf, List.filterMap_cons,
      validRecord_price_none lib a b (by rw [hb]; exact parsePrice_nil lib)]
    exact pairsOf_emptyRow lib rest hrest

theorem parseTableRows_foldl (lib : GoLib) (plan : SheetPlan) (ids : Nat → Str) (now : Nat)
    (dataRows : Sheet) (acc : List Product) :
    (dataRows.foldl
      (fun products row =>
        match parseTableRow lib plan (ids products.length) now row with
        | some product => products ++ [product]
        | none => products) acc).map (fun p => (p.Name, p.Price)) =
      acc.map (fun p => (p.Name, p.Price)) ++ dataRows.filterMap (fun row =>
        validRecord lib (cellOrEmpty row plan.nameCol) (cellOrEmpty row plan.priceCol)) := by
  induction dataRows generalizing acc with
  | nil => simp
  | cons row t ih =>
    rw [List.foldl_cons, ih, List.filterMap_cons]
    have hp := parseTableRow_pair lib plan (ids acc.length) now row
    cases h : parseTableRow lib plan (ids acc.length) now row with
    | none =>
      rw [h] at hp
      simp only [Option.map_none'] at hp
      simp only [← hp]
    | some product =>
      rw [h] at hp
      simp only [Option.map_some'] at hp
      simp only [← hp]
      simp

theorem parseSideBySideRows_foldl (lib : GoLib) (ids : Nat → Str) (now : Nat)
    (dataRows : Sheet) (acc : List Product) :
    (dataRows.foldl
      (fun products row =>
        if row.length = 0 || isEmptyRow row then products
        else parsePairs lib ids now row products) acc).map (fun p => (p.Name, p.Price)) =
      acc.map (fun p => (p.Name, p.Price)) ++ dataRows.flatMap (fun row =>
        (pairsOf row).filterMap (fun np => validRecord lib np.1 np.2)) := by
  induction dataRows generalizing acc with
  | nil => simp
  | cons row t ih =>
    rw [List.foldl_cons, ih, List.flatMap_cons]
    by_cases h1 : (row.length = 0 || isEmptyRow row) = true
    · rw [if_pos h1]
      have : (pairsOf row).filterMap (fun np => validRecord lib np.1 np.2) = [] := by
        rcases Bool.or_eq_true_iff.1 h1 with h | h
        · have : row = [] := List.length_eq_zero.1 (by simpa using h)
          rw [this]; rfl
        · exact pairsOf_emptyRow lib row h
      rw [this, List.nil_append]
    · rw [if_neg h1, parsePairs_map, List.append_assoc]

theorem parseDataRows_map (lib : GoLib) (ids : Nat → Str) (now : Nat) (row0 : List Str)
    (rest : Sheet) :
    (parseDataRows lib ids now (row0 :: rest) row0).map (fun p => (p.Name, p.Price)) =
      referenceScan lib (row0 :: rest) := by
  simp only [parseDataRows, referenceScan, referenceScanWith]
  by_cases ht : (sheetPlan lib (row0 :: rest) row0).isTableFormat = true
  · simp only [ht, if_true]
    have h := parseTableRows_foldl lib (sheetPlan lib (row0 :: rest) row0) ids now
      ((row0 :: rest).drop (sheetPlan lib (row0 :: rest) row0).startRow) []
    simp only [List.map_nil, List.nil_append] at h
    rw [← h]; rfl
  · simp only [ht, Bool.false_eq_true, if_false]
    have h := parseSideBySideRows_foldl lib ids now
      ((row0 :: rest).drop (sheetPlan lib (row0 :: rest) row0).startRow) []
    simp only [List.map_nil, List.nil_append] at h
    rw [← h]; rfl

/-- The two outcomes of the ingestion of a row grid. -/
theorem parseRows_cases (lib : GoLib) (ids : Nat → Str) (now : Nat) (rows : Sheet) :
    (∃ e, parseRows lib ids now rows = Except.error e ∧
      (rows = [] ∨ referenceScan lib rows = [])) ∨
    (∃ ps, parseRows lib ids now rows = Except.ok ps ∧ ps ≠ [] ∧ rows ≠ [] ∧
      referenceScan lib rows ≠ [] ∧
      ps.map (fun p => (p.Name, p.Price)) = referenceScan lib rows) := by
  cases rows with
  | nil => exact Or.inl ⟨_, rfl, Or.inl rfl⟩
  | cons row0 rest =>
    have h := parseDataRows_map lib ids now row0 rest
    simp only [parseRows]
    by_cases h0 : (parseDataRows lib ids now (row0 :: rest) row0).length = 0
    · rw [if_pos h0]
      refine Or.inl ⟨_, rfl, Or.inr ?_⟩
      rw [← h, List.length_eq_zero.1 h0]; rfl
    · rw [if_neg h0]
      have hne : parseDataRows lib ids now (row0 :: rest) row0 ≠ [] := by
        intro hnil; exact h0 (by rw [hnil]; rfl)
      refine Or.inr ⟨_, rfl, hne, by simp, ?_, h⟩
      rw [← h]
      intro hnil
      exact hne (List.map_eq_nil_iff.1 hnil)

/-- The names and prices of the ingested products are the reference row scan. -/
theorem ingestedPairs_parseRows (lib : GoLib) (ids : Nat → Str) (now : Nat) (rows : Sheet) :
    ingestedPairs (parseRows lib ids now rows) = referenceScan lib rows := by
  rcases parseRows_cases lib ids now rows with ⟨e, he, h⟩ | ⟨ps, hps, _, _, _, h⟩
  · rw [he]
    rcases h with h | h
    · rw [h]; rfl
    · rw [h]; rfl
  · rw [hps]; exact h

theorem validRecord_inv (lib : GoLib) (nameCell priceCell : Str) (x : Str × F64)
    (h : validRecord lib nameCell priceCell = some x) :
    3 ≤ byteLen x.1 ∧ x.2.isZero = false := by
  unfold validRecord at h
  split at h
  · split at h
    · rename_i hc
      cases h
      exact hc
    · cases h
  · cases h

theorem mem_referenceScan (lib : GoLib) (rows : Sheet) (x : Str × F64)
    (h : x ∈ referenceScan lib rows) : 3 ≤ byteLen x.1 ∧ x.2.isZero = false := by
  cases rows with
  | nil => simp [referenceScan, referenceScanWith] at h
  | cons row0 rest =>
    simp only [referenceScan, referenceScanWith] at h
    split at h
    · rw [List.mem_filterMap] at h
      obtain ⟨row, _, hv⟩ := h
      exact validRecord_inv lib _ _ x hv
    · rw [List.mem_flatMap] at h
      obtain ⟨row, _, hr⟩ := h
      rw [List.mem_filterMap] at hr
      obtain ⟨np, _, hv⟩ := hr
      exact validRecord_inv lib _ _ x hv

/-! ## Catalog ingestion: theorems -/

/-- C4: every product returned by the ingestion of a workbook, in either layout,
has a non-empty name and a non-zero price. -/
theorem C4_ingested_name_price (lib : GoLib) (ids : Nat → Str) (now : Nat) (f : ExcelFile)
    (p : Product) (hp : p ∈ productsOf (parseExcelFile lib ids now f)) :
    p.Name ≠ [] ∧ p.Price.isZero = false := by
  have key : ∀ rows, p ∈ productsOf (parseRows lib ids now rows) →
      p.Name ≠ [] ∧ p.Price.isZero = false := by
    intro rows h
    rcases parseRows_cases lib ids now rows with ⟨e, he, _⟩ | ⟨ps, hps, _, _, _, hm⟩
    · rw [he] at h; simp [productsOf] at h
    · rw [hps] at h
      simp only [productsOf] at h
      have hx : (p.Name, p.Price) ∈ referenceScan lib rows := by
        rw [← hm]; exact List.mem_map_of_mem _ h
      have := mem_referenceScan lib rows _ hx
      refine ⟨?_, this.2⟩
      intro hn
      have h3 : 3 ≤ byteLen p.Name := this.1
      rw [hn, byteLen_nil] at h3
      omega
  cases f with
  | nil => simp [parseExcelFile, productsOf] at hp
  | cons s rest =>
    obtain ⟨name, r⟩ := s
    cases r with
    | error e => simp [parseExcelFile, productsOf] at hp
    | ok rows => exact key rows hp

/-- A use of C4: the sample sheet of three data rows yields two products; the
first, the widget, has a non-empty name and a non-zero price. -/
theorem C4_ingested_name_price_witness :
    (productsOf (parseExcelFile asciiLib sampleIds 0 (ExcelFile.ofRows sampleSheet3))).length = 2 ∧
    sampleParsedWidget ∈
      productsOf (parseExcelFile asciiLib sampleIds 0 (ExcelFile.ofRows sampleSheet3)) ∧
    sampleParsedWidget.Name ≠ [] ∧ sampleParsedWidget.Price.isZero = false :=
  ⟨by decide, by decide,
    C4_ingested_name_price asciiLib sampleIds 0 (ExcelFile.ofRows sampleSheet3)
      sampleParsedWidget (by decide)⟩

/-- C5 (as stated, refuted): the only row of the sample sheet has a name of two
characters and yet it is ingested, so the result differs from the row scan that
asks for names of at least 3 characters. -/
theorem C5_counterexample :
    "пк".toList.length = 2 ∧
    ingestedPairs (parseExcelFile asciiLib sampleIds 0 (ExcelFile.ofRows sampleSheetShortName)) =
      [("пк".toList, F64.fin 10)] ∧
    referenceScanChars asciiLib sampleSheetShortName = [] := by
  decide

/-- C5 (amended): the (name, price) list returned by the ingestion of a row grid
is the reference row scan in which a valid record has a trimmed name of at least
3 bytes (not characters) and a trimmed price cell that parses to a non-zero
number: one record per data row at the name and price columns in table layout,
one per column pair `(2i, 2i+1)` in side-by-side layout, in order.  Invalid rows
are skipped: the sample sheet of three data rows, one with an unparseable price,
yields exactly 2 products. -/
theorem C5_ingestion_row_scan (lib : GoLib) (ids : Nat → Str) (now : Nat) (rows : Sheet) :
    ingestedPairs (parseExcelFile lib ids now (ExcelFile.ofRows rows)) = referenceScan lib rows ∧
    (productsOf (parseExcelFile asciiLib sampleIds 0 (ExcelFile.ofRows sampleSheet3))).length = 2 ∧
    ingestedPairs (parseExcelFile asciiLib sampleIds 0 (ExcelFile.ofRows sampleSheetPairs)) =
      [("Widget".toList, F64.fin 10), ("Gadget".toList, F64.fin 20),
       ("Widget".toList, F64.fin 10), ("Bazzz".toList, F64.fin 5)] :=
  ⟨ingestedPairs_parseRows lib ids now rows, by decide, by decide⟩

/-- C6: the ingestion of a row grid fails exactly when the grid has no row or
the row scan finds no valid record; otherwise it returns, without error, a
non-empty list with one product per valid record, in order (records with the
same name are all kept). -/
theorem C6_ingestion_error_iff (lib : GoLib) (ids : Nat → Str) (now : Nat) (rows : Sheet) :
    (isError (parseExcelFile lib ids now (ExcelFile.ofRows rows)) = true ↔
      (rows = [] ∨ referenceScan lib rows = [])) ∧
    (isError (parseExcelFile lib ids now (ExcelFile.ofRows rows)) = false →
      productsOf (parseExcelFile lib ids now (ExcelFile.ofRows rows)) ≠ [] ∧
      (productsOf (parseExcelFile lib ids now (ExcelFile.ofRows rows))).length =
        (referenceScan lib rows).length ∧
      (productsOf (parseExcelFile lib ids now (ExcelFile.ofRows rows))).map
        (fun p => (p.Name, p.Price)) = referenceScan lib rows) := by
  have hfile : parseExcelFile lib ids now (ExcelFile.ofRows rows) = parseRows lib ids now rows :=
    rfl
  rw [hfile]
  rcases parseRows_cases lib ids now rows with ⟨e, he, h⟩ | ⟨ps, hps, hne, hr, hs, hm⟩
  · rw [he]
    simp only [isError, true_iff]
    exact ⟨h, fun hc => absurd hc (by simp)⟩
  · rw [hps]
    simp only [isError, productsOf]
    refine ⟨⟨fun hc => absurd hc (by simp), ?_⟩, fun _ => ⟨hne, ?_, hm⟩⟩
    · rintro (h | h)
      · exact absurd h hr
      · exact absurd h hs
    · rw [← hm, List.length_map]

/-- A use of C6: the empty grid and a grid of invalid rows fail; the side-by-side
sample, where a name occurs twice, yields four products. -/
theorem C6_ingestion_error_iff_witness :
    isError (parseExcelFile asciiLib sampleIds 0 (ExcelFile.ofRows [])) = true ∧
    isError (parseExcelFile asciiLib sampleIds 0 (ExcelFile.ofRows sampleSheetInvalid)) = true ∧
    (productsOf (parseExcelFile asciiLib sampleIds 0 (ExcelFile.ofRows sampleSheetPairs))).length
      = 4 :=
  ⟨(C6_ingestion_error_iff asciiLib sampleIds 0 []).1.2 (Or.inl rfl),
   (C6_ingestion_error_iff asciiLib sampleIds 0 sampleSheetInvalid).1.2 (Or.inr (by decide)),
   ((C6_ingestion_error_iff asciiLib sampleIds 0 sampleSheetPairs).2 (by decide)).2.1.trans
     (by decide)⟩

/-! ## Lemmas on identifiers and on the product map -/

theorem parseTableRow_id (lib : GoLib) (plan : SheetPlan) (id : Str) (now : Nat)
    (row : List Str) (p : Product) (h : parseTableRow lib plan id now row = some p) :
    p.ID = id := by
  unfold parseTableRow at h
  split at h
  · cases h
  · split at h
    · cases h
    · simp only at h
      split at h
      · cases h
      · split at h
        · cases h
        · split at h
          · cases h
          · split at h
            · cases h
            · cases h; rfl

theorem parsePair_id (lib : GoLib) (id : Str) (now : Nat) (nameCell priceCell : Str)
    (p : Product) (h : parsePair lib id now nameCell priceCell = some p) : p.ID = id := by
  unfold parsePair at h
  simp only at h
  split at h
  · cases h
  · split at h
    · cases h
    · split at h
      · cases h
      · split at h
        · cases h
        · cases h; rfl

theorem IdsInOrder.snoc {ids : Nat → Str} {ps : List Product} {p : Product}
    (h : IdsInOrder ids ps) (hp : p.ID = ids ps.length) : IdsInOrder ids (ps ++ [p]) := by
  unfold IdsInOrder at h ⊢
  rw [List.map_append, h, List.length_append, List.length_singleton, List.range_succ,
    List.map_append]
  simp [hp]

theorem parsePairs_ids (lib : GoLib) (ids : Nat → Str) (now : Nat) :
    ∀ (row : List Str) (acc : List Product), IdsInOrder ids acc →
      IdsInOrder ids (parsePairs lib ids now row acc)
  | [], acc, h => by simpa [parsePairs] using h
  | [_], acc, h => by simpa [parsePairs] using h
  | a :: b :: rest, acc, h => by
    rw [parsePairs]
    cases hp : parsePair lib (ids acc.length) now a b with
    | none => exact parsePairs_ids lib ids now rest acc h
    | some product =>
      exact parsePairs_ids lib ids now rest _ (h.snoc (parsePair_id lib _ now a b product hp))

theorem parseTableRows_ids (lib : GoLib) (plan : SheetPlan) (ids : Nat → Str) (now : Nat)
    (dataRows : Sheet) (acc : List Product) (h : IdsInOrder ids acc) :
    IdsInOrder ids (dataRows.foldl
      (fun products row =>
        match parseTableRow lib plan (ids products.length) now row with
        | some product => products ++ [product]
        | none => products) acc) := by
  induction dataRows generalizing acc with
  | nil => exact h
  | cons row t ih =>
    rw [List.foldl_cons]
    apply ih
    cases hp : parseTableRow lib plan (ids acc.length) now row with
    | none => exact h
    | some product => exact h.snoc (parseTableRow_id lib plan _ now row product hp)

theorem parseSideBySideRows_ids (lib : GoLib) (ids : Nat → Str) (now : Nat)
    (dataRows : Sheet) (acc : List Product) (h : IdsInOrder ids acc) :
    IdsInOrder ids (dataRows.foldl
      (fun products row =>
        if row.length = 0 || isEmptyRow row then products
        else parsePairs lib ids now row products) acc) := by
  induction dataRows generalizing acc with
  | nil => exact h
  | cons row t ih =>
    rw [List.foldl_cons]
    apply ih
    split
    · exact h
    · exact parsePairs_ids lib ids now row acc h

theorem parseDataRows_ids (lib : GoLib) (ids : Nat → Str) (now : Nat) (rows : Sheet)
    (row0 : List Str) : IdsInOrder ids (parseDataRows lib ids now rows row0) := by
  unfold parseDataRows
  simp only
  split
  · exact parseTableRows_ids lib _ ids now _ [] rfl
  · exact parseSideBySideRows_ids lib ids now _ [] rfl

/-- The products of a successful ingestion carry the identifiers `ids 0`,
`ids 1`, and so on. -/
theorem ParseProductsFromBytes_ids (lib : GoLib) (ids : Nat → Str) (now : Nat)
    (opened : Except GoError ExcelFile) :
    IdsInOrder ids (productsOf (ParseProductsFromBytes lib ids now opened)) := by
  have key : ∀ rows, IdsInOrder ids (productsOf (parseRows lib ids now rows)) := by
    intro rows
    cases rows with
    | nil => rfl
    | cons row0 rest =>
      simp only [parseRows]
      split
      · rfl
      · exact parseDataRows_ids lib ids now _ row0
  cases opened with
  | error e => rfl
  | ok f =>
    cases f with
    | nil => rfl
    | cons s rest =>
      obtain ⟨name, r⟩ := s
      cases r with
      | error e => rfl
      | ok rows => exact key rows

theorem IdsInOrder.nodup {ids : Nat → Str} {ps : List Product} (hinj : Function.Injective ids)
    (h : IdsInOrder ids ps) : (ps.map (fun p => p.ID)).Nodup := by
  rw [h]
  exact (List.nodup_range _).map hinj

theorem productsSet_fresh (products : List (Str × Product)) (p : Product)
    (h : ∀ kv ∈ products, kv.1 ≠ p.ID) :
    productsSet products p.ID p = products ++ [(p.ID, p)] := by
  unfold productsSet
  rw [if_neg]
  simp only [List.any_eq_true, decide_eq_true_eq, not_exists, not_and]
  intro kv hkv
  exact h kv hkv

theorem foldl_productsSet (ps : List Product) :
    ∀ (acc : List (Str × Product)), (∀ p ∈ ps, ∀ kv ∈ acc, kv.1 ≠ p.ID) →
      (ps.map (fun p => p.ID)).Nodup →
      ps.foldl (fun mp product => productsSet mp product.ID product) acc =
        acc ++ ps.map (fun p => (p.ID, p)) := by
  induction ps with
  | nil => intro acc _ _; simp
  | cons p t ih =>
    intro acc hacc hnd
    rw [List.foldl_cons, productsSet_fresh acc p (hacc p (List.mem_cons_self _ _))]
    rw [List.map_cons, List.nodup_cons] at hnd
    rw [ih _ ?_ hnd.2]
    · simp
    · intro q hq kv hkv
      rcases List.mem_append.1 hkv with hkv | hkv
      · exact hacc q (List.mem_cons_of_mem _ hq) kv hkv
      · have : kv = (p.ID, p) := by simpa using hkv
        rw [this]
        intro heq
        have heq2 : p.ID = q.ID := heq
        exact hnd.1 (by rw [heq2]; exact List.mem_map_of_mem (fun p => p.ID) hq)

/-! ## Catalog upload: theorem -/

/-- The outcome of `UploadCatalog`, by cases. -/
theorem UploadCatalog_cases (lib : GoLib) (ids : Nat → Str) (actionID : Str) (now : Nat)
    (u : adminUseCase) (userID : Int) (opened : Except GoError ExcelFile) (filename : Str) :
    (((u.adminRepo.IsAdmin now userID).1 = false ∨
        isError (ParseProductsFromBytes lib ids now opened) = true) ∧
      ∃ e, UploadCatalog lib ids actionID now u userID opened filename = (u, 0, some e)) ∨
    ((u.adminRepo.IsAdmin now userID).1 = true ∧
      isError (ParseProductsFromBytes lib ids now opened) = false ∧
      ∃ ps a, ParseProductsFromBytes lib ids now opened = Except.ok ps ∧ ps ≠ [] ∧
        UploadCatalog lib ids actionID now u userID opened filename =
          ({ adminRepo := (u.adminRepo.LogAction a).1,
             productRepo :=
               { products := ps.foldl (fun mp product => productsSet mp product.ID product) [],
                 catalog := some { Products := ps, UpdatedAt := now, Source := filename } } },
            (ps.length : Int), none)) := by
  have hadm : (u.adminRepo.IsAdmin now userID).2 = none := by
    unfold memoryAdminRepository.IsAdmin
    split
    · rfl
    · split <;> rfl
  unfold UploadCatalog
  rcases hA : u.adminRepo.IsAdmin now userID with ⟨b, e⟩
  rw [hA] at hadm
  simp only at hadm
  subst hadm
  cases b with
  | false => exact Or.inl ⟨Or.inl rfl, _, rfl⟩
  | true =>
    simp only
    cases hP : ParseProductsFromBytes lib ids now opened with
    | error err => exact Or.inl ⟨Or.inr rfl, _, rfl⟩
    | ok ps =>
      simp only
      by_cases h0 : ps.length = 0
      · exfalso
        have hps : ps = [] := List.length_eq_zero.1 h0
        subst hps
        -- the parser never returns an empty list without an error
        cases opened with
        | error e => simp [ParseProductsFromBytes] at hP
        | ok f =>
          cases f with
          | nil => simp [ParseProductsFromBytes, parseExcelFile] at hP
          | cons s rest =>
            obtain ⟨name, r⟩ := s
            cases r with
            | error e => simp [ParseProductsFromBytes, parseExcelFile] at hP
            | ok rows =>
              simp only [ParseProductsFromBytes, parseExcelFile] at hP
              rcases parseRows_cases lib ids now rows with ⟨e, he, _⟩ | ⟨qs, hqs, hne, _⟩
              · rw [he] at hP; cases hP
              · rw [hqs] at hP; cases hP; exact hne rfl
      · rw [if_neg h0]
        refine Or.inr ⟨trivial, rfl, ps, _, rfl, ?_, rfl⟩
        intro hnil; exact h0 (by rw [hnil]; rfl)

/-- C7: `UploadCatalog` is all-or-nothing.  It fails exactly when the caller has
no valid admin session or the workbook cannot be ingested (unreadable, or no
valid product); then it returns an error with count 0 and leaves the
repositories, in particular the products and the catalog of the store,
unchanged.  When it succeeds the store holds exactly the parsed products, in
place of all previous ones, the catalog is the parsed list with the file name,
and the returned count is the number of parsed products.  The identifiers
`uuid.New()` hands out are taken to be pairwise distinct. -/
theorem C7_upload_all_or_nothing (lib : GoLib) (ids : Nat → Str) (actionID : Str) (now : Nat)
    (u : adminUseCase) (userID : Int) (opened : Except GoError ExcelFile) (filename : Str)
    (hinj : Function.Injective ids) :
    ((UploadCatalog lib ids actionID now u userID opened filename).2.2 ≠ none ↔
      ((u.adminRepo.IsAdmin now userID).1 = false ∨
        isError (ParseProductsFromBytes lib ids now opened) = true)) ∧
    ((UploadCatalog lib ids actionID now u userID opened filename).2.2 ≠ none →
      (UploadCatalog lib ids actionID now u userID opened filename).2.1 = 0 ∧
      (UploadCatalog lib ids actionID now u userID opened filename).1 = u) ∧
    ((UploadCatalog lib ids actionID now u userID opened filename).2.2 = none →
      (UploadCatalog lib ids actionID now u userID opened filename).2.1 =
        ((productsOf (ParseProductsFromBytes lib ids now opened)).length : Int) ∧
      productsOf (ParseProductsFromBytes lib ids now opened) ≠ [] ∧
      (UploadCatalog lib ids actionID now u userID opened filename).1.productRepo.products =
        (productsOf (ParseProductsFromBytes lib ids now opened)).map (fun p => (p.ID, p)) ∧
      (UploadCatalog lib ids actionID now u userID opened filename).1.productRepo.catalog =
        some { Products := productsOf (ParseProductsFromBytes lib ids now opened),
               UpdatedAt := now, Source := filename }) := by
  rcases UploadCatalog_cases lib ids actionID now u userID opened filename with
    ⟨hc, e, he⟩ | ⟨hadm, herr, ps, a, hps, hne, hu⟩
  · rw [he]
    refine ⟨⟨fun _ => hc, fun _ => by simp⟩, fun _ => ⟨rfl, rfl⟩, fun h => ?_⟩
    simp at h
  · rw [hu]
    refine ⟨⟨fun h => absurd rfl h, ?_⟩, fun h => absurd rfl h, fun _ => ?_⟩
    · rintro (h | h)
      · rw [hadm] at h; cases h
      · rw [herr] at h; cases h
    · have hids := ParseProductsFromBytes_ids lib ids now opened
      rw [hps] at hids ⊢
      simp only [productsOf] at hids
      refine ⟨rfl, hne, ?_, rfl⟩
      have := foldl_productsSet ps [] (by simp) (hids.nodup hinj)
      rw [List.nil_append] at this
      exact this

theorem sampleIds_injective : Function.Injective sampleIds := by
  intro a b h
  have := congrArg List.length h
  simpa [sampleIds] using this

/-- A use of C7 on the sample repositories: the upload by the admin replaces the
two old products by the two of the sheet; the upload by another user fails and
changes nothing. -/
theorem C7_upload_all_or_nothing_witness :
    ((UploadCatalog asciiLib sampleIds "a1".toList 5 sampleUseCase 7
        (Except.ok (ExcelFile.ofRows sampleSheet3)) "new.xlsx".toList).2.1 = 2 ∧
      (UploadCatalog asciiLib sampleIds "a1".toList 5 sampleUseCase 7
        (Except.ok (ExcelFile.ofRows sampleSheet3)) "new.xlsx".toList).1.productRepo.products.map
          (fun kv => kv.2.Name) = ["Widget".toList, "RTX 4090".toList]) ∧
    ((UploadCatalog asciiLib sampleIds "a1".toList 5 sampleUseCase 8
        (Except.ok (ExcelFile.ofRows sampleSheet3)) "new.xlsx".toList).2.1 = 0 ∧
      (UploadCatalog asciiLib sampleIds "a1".toList 5 sampleUseCase 8
        (Except.ok (ExcelFile.ofRows sampleSheet3)) "new.xlsx".toList).1 = sampleUseCase) :=
  ⟨by
    have h := (C7_upload_all_or_nothing asciiLib sampleIds "a1".toList 5 sampleUseCase 7
      (Except.ok (ExcelFile.ofRows sampleSheet3)) "new.xlsx".toList sampleIds_injective).2.2
      (by decide)
    refine ⟨h.1.trans (by decide), ?_⟩
    rw [h.2.2.1]
    decide,
   (C7_upload_all_or_nothing asciiLib sampleIds "a1".toList 5 sampleUseCase 8
      (Except.ok (ExcelFile.ofRows sampleSheet3)) "new.xlsx".toList sampleIds_injective).2.1
      (by decide)⟩

/-! ## The config wizard: theorem -/

theorem finishConfigSession_configSessions (env : Env) (h : BotHandler) (userID : Int)
    (username : Str) (chatID : Int) (session : configSession) :
    (finishConfigSession env h userID username chatID session).1.configSessions =
      h.configSessions := by
  unfold finishConfigSession
  simp only
  split <;> rfl

theorem finishConfigSession_prompt (env : Env) (h : BotHandler) (userID : Int)
    (username : Str) (chatID : Int) (session : configSession) :
    Effect.processMessage userID username (env.configPrompt session) ∈
      (finishConfigSession env h userID username chatID session).2 := by
  unfold finishConfigSession
  simp only
  split <;> simp

/-- The state of the wizard of a user after `startConfigSession` and four
answers. -/
theorem handleConfigFlow_four (e0 e1 e2 e3 e4 : Env) (h : BotHandler) (userID : Int)
    (username : Str) (chatID : Int) (t1 t2 t3 t4 : Str) :
    (handleConfigFlow e4
      (handleConfigFlow e3
        (handleConfigFlow e2
          (handleConfigFlow e1 (startConfigSession e0 h userID) userID username t1 chatID).1
          userID username t2 chatID).1
        userID username t3 chatID).1
      userID username t4 chatID).1.configSessions userID =
      some { Stage := configStageNeedGPU, PCType := trimSpace t1, Budget := trimSpace t2,
             CPUBrand := trimSpace t3, Storage := trimSpace t4, GPUBrand := [],
             StartedAt := e0.now, LastUpdate := e4.now } := by
  simp [handleConfigFlow, startConfigSession, setKey, configStageNeedType,
    configStageNeedBudget, configStageNeedCPU, configStageNeedStorage, configStageNeedGPU]

theorem handleConfigFlow_gpu (env : Env) (g : BotHandler) (userID : Int)
    (username text : Str) (chatID : Int) (c : configSession)
    (hc : g.configSessions userID = some c) (h4 : c.Stage = configStageNeedGPU) :
    handleConfigFlow env g userID username text chatID =
      finishConfigSession env
        { g with configSessions := setKey g.configSessions userID none } userID username chatID
        { c with LastUpdate := env.now, GPUBrand := trimSpace text } := by
  simp [handleConfigFlow, hc, h4, configStageNeedType, configStageNeedBudget,
    configStageNeedCPU, configStageNeedStorage, configStageNeedGPU]

/-- C10: one text in the config wizard.  At a stage from `NeedType` to
`NeedStorage` the trimmed text becomes the answer of that stage, the other
answers stay and the stage advances by one; at `NeedGPU` the text is stored, the
session is deleted and the completed session, with its five answers, is handed
to `finishConfigSession`, whose prompt for the generative backend is built from
it; at a stage outside the enum the session is deleted.  So after
`startConfigSession` five texts complete the wizard with the answers in the
order of the inputs. -/
theorem C10_config_wizard_step (env : Env) (h : BotHandler) (userID : Int)
    (username text : Str) (chatID : Int) (s : configSession)
    (hs : h.configSessions userID = some s) :
    ((configStageNeedType ≤ s.Stage ∧ s.Stage ≤ configStageNeedStorage) →
      ∃ s', (handleConfigFlow env h userID username text chatID).1.configSessions userID =
          some s' ∧
        s'.Stage = s.Stage + 1 ∧
        s'.answers = s.answers.set s.Stage.toNat (trimSpace text)) ∧
    (s.Stage = configStageNeedGPU →
      handleConfigFlow env h userID username text chatID =
        finishConfigSession env
          { h with configSessions := setKey h.configSessions userID none } userID username chatID
          { s with LastUpdate := env.now, GPUBrand := trimSpace text } ∧
      (handleConfigFlow env h userID username text chatID).1.configSessions userID = none ∧
      Effect.processMessage userID username
          (env.configPrompt { s with LastUpdate := env.now, GPUBrand := trimSpace text }) ∈
        (handleConfigFlow env h userID username text chatID).2) ∧
    ((s.Stage < configStageNeedType ∨ configStageNeedGPU < s.Stage) →
      (handleConfigFlow env h userID username text chatID).1.configSessions userID = none) ∧
    (∀ (e0 e1 e2 e3 e4 : Env) (g : BotHandler) (t1 t2 t3 t4 t5 : Str),
      let g4 := (handleConfigFlow e4
        (handleConfigFlow e3
          (handleConfigFlow e2
            (handleConfigFlow e1 (startConfigSession e0 g userID) userID username t1 chatID).1
            userID username t2 chatID).1
          userID username t3 chatID).1
        userID username t4 chatID).1
      handleConfigFlow env g4 userID username t5 chatID =
        finishConfigSession env
          { g4 with configSessions := setKey g4.configSessions userID none } userID username
          chatID
          { Stage := configStageNeedGPU, PCType := trimSpace t1, Budget := trimSpace t2,
            CPUBrand := trimSpace t3, Storage := trimSpace t4, GPUBrand := trimSpace t5,
            StartedAt := e0.now, LastUpdate := env.now } ∧
      (handleConfigFlow env g4 userID username t5 chatID).1.configSessions userID = none) := by
  refine ⟨?_, ?_, ?_, ?_⟩
  · rintro ⟨hlo, hhi⟩
    simp only [configStageNeedType, configStageNeedStorage] at hlo hhi
    have hcases : s.Stage = 0 ∨ s.Stage = 1 ∨ s.Stage = 2 ∨ s.Stage = 3 := by omega
    rcases hcases with h0 | h0 | h0 | h0
    all_goals
      simp [handleConfigFlow, hs, h0, setKey, configSession.answers, configStageNeedType,
        configStageNeedBudget, configStageNeedCPU, configStageNeedStorage, configStageNeedGPU]
  · intro h4
    have heq := handleConfigFlow_gpu env h userID username text chatID s hs h4
    refine ⟨heq, ?_, ?_⟩
    · rw [heq, finishConfigSession_configSessions]
      simp [setKey]
    · rw [heq]
      exact finishConfigSession_prompt env _ userID username chatID _
  · intro hout
    simp only [configStageNeedType, configStageNeedGPU] at hout
    have h0 : s.Stage ≠ 0 := by omega
    have h1 : s.Stage ≠ 1 := by omega
    have h2 : s.Stage ≠ 2 := by omega
    have h3 : s.Stage ≠ 3 := by omega
    have h4 : s.Stage ≠ 4 := by omega
    simp [handleConfigFlow, hs, h0, h1, h2, h3, h4, setKey, configStageNeedType,
      configStageNeedBudget, configStageNeedCPU, configStageNeedStorage, configStageNeedGPU]
  · intro e0 e1 e2 e3 e4 g t1 t2 t3 t4 t5
    have h4 := handleConfigFlow_four e0 e1 e2 e3 e4 g userID username chatID t1 t2 t3 t4
    simp only
    generalize (handleConfigFlow e4
        (handleConfigFlow e3
          (handleConfigFlow e2
            (handleConfigFlow e1 (startConfigSession e0 g userID) userID username t1 chatID).1
            userID username t2 chatID).1
          userID username t3 chatID).1
        userID username t4 chatID).1 = g4 at h4 ⊢
    have heq := handleConfigFlow_gpu env g4 userID username t5 chatID _ h4 rfl
    refine ⟨heq, ?_⟩
    rw [heq, finishConfigSession_configSessions]
    simp [setKey]

/-- A use of C10: the first answer of user 5 after the start of the wizard is
stored, trimmed, as the type of PC and the wizard moves to the budget stage. -/
theorem C10_config_wizard_step_witness :
    ∃ s', (handleConfigFlow sampleEnv (startConfigSession sampleEnv (NewBotHandler 0 0) 5) 5
        "user".toList " Gaming ".toList 5).1.configSessions 5 = some s' ∧
      s'.Stage = configStageNeedBudget ∧
      s'.answers = ["Gaming".toList, [], [], [], []] := by
  obtain ⟨s', h1, h2, h3⟩ :=
    (C10_config_wizard_step sampleEnv (startConfigSession sampleEnv (NewBotHandler 0 0) 5) 5
      "user".toList " Gaming ".toList 5
      { Stage := configStageNeedType, PCType := [], Budget := [], CPUBrand := [],
        Storage := [], GPUBrand := [], StartedAt := 1, LastUpdate := 1 } (by decide)).1
      ⟨by decide, by decide⟩
  exact ⟨s', h1, h2.trans (by decide), h3.trans (by decide)⟩


/-! ## The routing of texts: theorem -/

theorem handleShopMessage_handled (env : Env) (h : BotHandler) (userID : Int)
    (username text : Str) (chatID : Int) :
    (handleShopMessage env h userID username text chatID).2 = true := by
  unfold handleShopMessage
  simp only
  split
  · rfl
  · split
    · rfl
    · split <;> rfl

/-- The maps `handleUserMessageForAdmin` leaves as they are. -/
theorem handleUserMessageForAdmin_frame (env : Env) (h : BotHandler) (userID : Int)
    (username text : Str) (chatID : Int) :
    (handleUserMessageForAdmin env h userID username text chatID).1.configSessions =
      h.configSessions ∧
    (handleUserMessageForAdmin env h userID username text chatID).1.shopMode = h.shopMode ∧
    (handleUserMessageForAdmin env h userID username text chatID).1.orderSessions =
      h.orderSessions ∧
    (handleUserMessageForAdmin env h userID username text chatID).1.pendingChange =
      h.pendingChange ∧
    (handleUserMessageForAdmin env h userID username text chatID).1.configReminded =
      h.configReminded ∧
    sameExceptAt h.awaitingAdminMsg
      (handleUserMessageForAdmin env h userID username text chatID).1.awaitingAdminMsg
      userID := by
  unfold handleUserMessageForAdmin
  simp only
  split
  · exact ⟨rfl, rfl, rfl, rfl, rfl, fun _ _ => rfl⟩
  · split
    · exact ⟨rfl, rfl, rfl, rfl, rfl, fun k hk => by simp [setAwaitingAdminMessage, setKey, hk]⟩
    · split
      · exact ⟨rfl, rfl, rfl, rfl, rfl,
          fun k hk => by simp [setAwaitingAdminMessage, setKey, hk]⟩
      · exact ⟨rfl, rfl, rfl, rfl, rfl,
          fun k hk => by simp [saveGroupThread, setAwaitingAdminMessage, setKey, hk]⟩

theorem finishConfigSession_frame (env : Env) (h : BotHandler) (userID : Int)
    (username : Str) (chatID : Int) (session : configSession) :
    (finishConfigSession env h userID username chatID session).1.shopMode = h.shopMode ∧
    (finishConfigSession env h userID username chatID session).1.orderSessions =
      h.orderSessions ∧
    (finishConfigSession env h userID username chatID session).1.pendingChange =
      h.pendingChange ∧
    (finishConfigSession env h userID username chatID session).1.configReminded =
      h.configReminded ∧
    (finishConfigSession env h userID username chatID session).1.awaitingAdminMsg =
      h.awaitingAdminMsg := by
  unfold finishConfigSession
  simp only
  split <;> exact ⟨rfl, rfl, rfl, rfl, rfl⟩

/-- The maps `handleConfigFlow` leaves as they are. -/
theorem handleConfigFlow_frame (env : Env) (h : BotHandler) (userID : Int)
    (username text : Str) (chatID : Int) :
    (handleConfigFlow env h userID username text chatID).1.shopMode = h.shopMode ∧
    (handleConfigFlow env h userID username text chatID).1.orderSessions = h.orderSessions ∧
    (handleConfigFlow env h userID username text chatID).1.pendingChange = h.pendingChange ∧
    (handleConfigFlow env h userID username text chatID).1.configReminded = h.configReminded ∧
    (handleConfigFlow env h userID username text chatID).1.awaitingAdminMsg =
      h.awaitingAdminMsg ∧
    sameExceptAt h.configSessions
      (handleConfigFlow env h userID username text chatID).1.configSessions userID := by
  unfold handleConfigFlow
  simp only
  split
  · exact ⟨rfl, rfl, rfl, rfl, rfl, fun _ _ => rfl⟩
  · split
    · exact ⟨rfl, rfl, rfl, rfl, rfl, fun k hk => by simp [setKey, hk]⟩
    · split
      · exact ⟨rfl, rfl, rfl, rfl, rfl, fun k hk => by simp [setKey, hk]⟩
      · split
        · exact ⟨rfl, rfl, rfl, rfl, rfl, fun k hk => by simp [setKey, hk]⟩
        · split
          · exact ⟨rfl, rfl, rfl, rfl, rfl, fun k hk => by simp [setKey, hk]⟩
          · split
            · have hf := finishConfigSession_frame env
                { h with configSessions := setKey h.configSessions userID none } userID username
                chatID
              refine ⟨(hf _).1, (hf _).2.1, (hf _).2.2.1, (hf _).2.2.2.1, (hf _).2.2.2.2, ?_⟩
              intro k hk
              rw [finishConfigSession_configSessions]
              simp [setKey, hk]
            · exact ⟨rfl, rfl, rfl, rfl, rfl, fun k hk => by simp [setKey, hk]⟩

/-- The maps `handleShopMessage` leaves as they are. -/
theorem handleShopMessage_frame (env : Env) (h : BotHandler) (userID : Int)
    (username text : Str) (chatID : Int) :
    (handleShopMessage env h userID username text chatID).1.1.configSessions =
      h.configSessions ∧
    (handleShopMessage env h userID username text chatID).1.1.orderSessions =
      h.orderSessions ∧
    (handleShopMessage env h userID username text chatID).1.1.pendingChange =
      h.pendingChange ∧
    (handleShopMessage env h userID username text chatID).1.1.configReminded =
      h.configReminded ∧
    (handleShopMessage env h userID username text chatID).1.1.awaitingAdminMsg =
      h.awaitingAdminMsg := by
  unfold handleShopMessage
  simp only
  split
  · exact ⟨rfl, rfl, rfl, rfl, rfl⟩
  · split
    · exact ⟨rfl, rfl, rfl, rfl, rfl⟩
    · split <;> exact ⟨rfl, rfl, rfl, rfl, rfl⟩

/-- The maps `handleOrderFlow` leaves as they are. -/
theorem handleOrderFlow_frame (env : Env) (h : BotHandler) (userID : Int) (text : Str)
    (chatID : Int) (contact : Option Str) (location : Option (F64 × F64)) :
    (handleOrderFlow env h userID text chatID contact location).1.configSessions =
      h.configSessions ∧
    (handleOrderFlow env h userID text chatID contact location).1.pendingChange =
      h.pendingChange ∧
    (handleOrderFlow env h userID text chatID contact location).1.configReminded =
      h.configReminded ∧
    (handleOrderFlow env h userID text chatID contact location).1.awaitingAdminMsg =
      h.awaitingAdminMsg ∧
    (handleOrderFlow env h userID text chatID contact location).1.shopMode = h.shopMode ∧
    sameExceptAt h.orderSessions
      (handleOrderFlow env h userID text chatID contact location).1.orderSessions userID := by
  unfold handleOrderFlow
  simp only
  have key : ∀ s : orderSession, sameExceptAt h.orderSessions
      (setKey h.orderSessions userID (some s)) userID :=
    fun s k hk => by simp [setKey, hk]
  split
  · exact ⟨rfl, rfl, rfl, rfl, rfl, fun _ _ => rfl⟩
  · repeat' split
    all_goals first
      | exact ⟨rfl, rfl, rfl, rfl, rfl, fun _ _ => rfl⟩
      | exact ⟨rfl, rfl, rfl, rfl, rfl, key _⟩

/-- The maps `handleChangeRequest` leaves as they are. -/
theorem handleChangeRequest_frame (env : Env) (h : BotHandler) (userID : Int)
    (username text : Str) (chatID : Int) :
    (handleChangeRequest env h userID username text chatID).1.configSessions =
      h.configSessions ∧
    (handleChangeRequest env h userID username text chatID).1.orderSessions =
      h.orderSessions ∧
    (handleChangeRequest env h userID username text chatID).1.configReminded =
      h.configReminded ∧
    (handleChangeRequest env h userID username text chatID).1.awaitingAdminMsg =
      h.awaitingAdminMsg ∧
    (handleChangeRequest env h userID username text chatID).1.shopMode = h.shopMode ∧
    sameExceptAt h.pendingChange
      (handleChangeRequest env h userID username text chatID).1.pendingChange userID := by
  unfold handleChangeRequest popPendingChange
  cases hp : h.pendingChange userID with
  | none => exact ⟨rfl, rfl, rfl, rfl, rfl, fun _ _ => rfl⟩
  | some cr =>
    simp only
    have key : sameExceptAt h.pendingChange (setKey h.pendingChange userID none) userID :=
      fun k hk => by simp [setKey, hk]
    split
    · exact ⟨rfl, rfl, rfl, rfl, rfl, key⟩
    · split <;> exact ⟨rfl, rfl, rfl, rfl, rfl, key⟩

/-- The maps `handleGenerativeBackend` leaves as they are. -/
theorem handleGenerativeBackend_frame (lib : GoLib) (env : Env) (h : BotHandler) (userID : Int)
    (username text : Str) (chatID : Int) :
    (handleGenerativeBackend lib env h userID username text chatID).1.configSessions =
      h.configSessions ∧
    (handleGenerativeBackend lib env h userID username text chatID).1.orderSessions =
      h.orderSessions ∧
    (handleGenerativeBackend lib env h userID username text chatID).1.pendingChange =
      h.pendingChange ∧
    (handleGenerativeBackend lib env h userID username text chatID).1.awaitingAdminMsg =
      h.awaitingAdminMsg := by
  unfold handleGenerativeBackend maybeAskToBuy
  simp only
  split
  · exact ⟨rfl, rfl, rfl, rfl⟩
  · split <;> split <;> exact ⟨rfl, rfl, rfl, rfl⟩

/-- The text router runs the handler of the first applicable flow. -/
theorem handleTextMessage_eq_handler (lib : GoLib) (env : Env) (h : BotHandler) (userID : Int)
    (username text : Str) (chatID : Int) (contact : Option Str)
    (location : Option (F64 × F64)) :
    handleTextMessage lib env h userID username text chatID contact location =
      (firstApplicable lib h userID chatID text).handler lib env h userID username text chatID
        contact location := by
  unfold handleTextMessage firstApplicable handleTextAfterShop
  simp only [isAwaitingAdminMessage, hasConfigSession, isInShopMode, hasOrderSession,
    hasPendingChange, wasConfigReminded, handleShopMessage_handled, if_true]
  by_cases h1 : h.awaitingAdminMsg userID = true
  · simp [List.find?, TextRoute.applicable, TextRoute.handler, h1]
  · by_cases h2 : (h.configSessions userID).isSome = true
    · simp [List.find?, TextRoute.applicable, TextRoute.handler, h1, h2]
    · by_cases h3 : h.shopMode userID = true
      · simp [List.find?, TextRoute.applicable, TextRoute.handler, h1, h2, h3]
      · by_cases h4 : (h.orderSessions userID).isSome = true
        · simp [List.find?, TextRoute.applicable, TextRoute.handler, h1, h2, h3, h4]
        · by_cases h5 : (h.pendingChange userID).isSome = true
          · simp [List.find?, TextRoute.applicable, TextRoute.handler, h1, h2, h3, h4, h5]
          · by_cases h6 : (isConfigRequest lib text && !h.configReminded chatID) = true
            · have h6' := h6
              simp only [Bool.and_eq_true, Bool.not_eq_true'] at h6'
              simp [List.find?, TextRoute.applicable, TextRoute.handler, h1, h2, h3, h4, h5,
                h6'.1, h6'.2]
            · have h6' : ¬ (isConfigRequest lib text = true ∧
                  (!h.configReminded chatID) = true) := by
                simpa using h6
              simp only [List.find?, TextRoute.applicable, TextRoute.handler, h1, h2, h3, h4,
                h5, h6, h6', if_false, Option.getD_none, Bool.false_eq_true]

/-- The first applicable flow is applicable and no flow before it is. -/
theorem firstApplicable_spec (lib : GoLib) (h : BotHandler) (userID chatID : Int) (text : Str) :
    (firstApplicable lib h userID chatID text).applicable lib h userID chatID text = true ∧
    ∀ r : TextRoute, r.rank < (firstApplicable lib h userID chatID text).rank →
      r.applicable lib h userID chatID text = false := by
  unfold firstApplicable
  by_cases h1 : TextRoute.adminMessage.applicable lib h userID chatID text = true
  · simp only [List.find?, h1, Option.getD_some, true_and]
    intro r hr; cases r <;> simp [TextRoute.rank] at hr
  · by_cases h2 : TextRoute.configWizard.applicable lib h userID chatID text = true
    · simp only [List.find?, h1, h2, Option.getD_some, true_and]
      intro r hr; cases r <;> simp_all [TextRoute.rank]
    · by_cases h3 : TextRoute.shopMode.applicable lib h userID chatID text = true
      · simp only [List.find?, h1, h2, h3, Option.getD_some, true_and]
        intro r hr; cases r <;> simp_all [TextRoute.rank]
      · by_cases h4 : TextRoute.orderFlow.applicable lib h userID chatID text = true
        · simp only [List.find?, h1, h2, h3, h4, Option.getD_some, true_and]
          intro r hr; cases r <;> simp_all [TextRoute.rank]
        · by_cases h5 : TextRoute.changeRequest.applicable lib h userID chatID text = true
          · simp only [List.find?, h1, h2, h3, h4, h5, Option.getD_some, true_and]
            intro r hr; cases r <;> simp_all [TextRoute.rank]
          · by_cases h6 : TextRoute.configReminder.applicable lib h userID chatID text = true
            · simp only [List.find?, h1, h2, h3, h4, h5, h6, Option.getD_some, true_and]
              intro r hr; cases r <;> simp_all [TextRoute.rank]
            · simp only [List.find?, h1, h2, h3, h4, h5, h6, Option.getD_none]
              refine ⟨rfl, ?_⟩
              intro r hr; cases r <;> simp_all [TextRoute.rank]

/-- C9: a text that reaches the text router is handled by the handler of the
first applicable flow in the order admin-message capture, config wizard, shop
mode, order session, pending change request, config reminder (a config request
in a chat not yet reminded), generative backend; the state of every flow of
lower precedence is left as it was, and the reminder does not call the
generative backend.  A message reaches the text router when it is outside the
staff chat, carries no document, is no command, has a text, a contact or a
location, and its sender is not typing the admin password. -/
theorem C9_text_routing (lib : GoLib) (env : Env) (h : BotHandler) (userID : Int)
    (username text : Str) (chatID : Int) (contact : Option Str)
    (location : Option (F64 × F64)) :
    handleTextMessage lib env h userID username text chatID contact location =
      (firstApplicable lib h userID chatID text).handler lib env h userID username text chatID
        contact location ∧
    ((firstApplicable lib h userID chatID text).applicable lib h userID chatID text = true ∧
      ∀ r : TextRoute, r.rank < (firstApplicable lib h userID chatID text).rank →
        r.applicable lib h userID chatID text = false) ∧
    (∀ r : TextRoute, (firstApplicable lib h userID chatID text).rank < r.rank →
      r.untouched h
        (handleTextMessage lib env h userID username text chatID contact location).1) ∧
    (firstApplicable lib h userID chatID text = TextRoute.configReminder →
      ∀ e ∈ (handleTextMessage lib env h userID username text chatID contact location).2,
        e.isProcessMessage = false) ∧
    (∀ m : Message, ¬ (h.group1ChatID ≠ 0 ∧ m.ChatID = h.group1ChatID) →
      m.HasDocument = false → h.awaitingPassword m.FromID = false → m.Command = none →
      (m.Text ≠ [] ∨ m.Contact.isSome ∨ m.Location.isSome) →
      handleMessage lib env h m =
        handleTextMessage lib env h m.FromID
          (if m.UserName.isEmpty then m.FirstName else m.UserName) m.Text m.ChatID m.Contact
          m.Location) := by
  refine ⟨handleTextMessage_eq_handler lib env h userID username text chatID contact location,
    firstApplicable_spec lib h userID chatID text, ?_, ?_, ?_⟩
  · intro r hr
    rw [handleTextMessage_eq_handler]
    have hA := handleUserMessageForAdmin_frame env h userID username text chatID
    have hC := handleConfigFlow_frame env h userID username text chatID
    have hS := handleShopMessage_frame env h userID username text chatID
    have hO := handleOrderFlow_frame env h userID text chatID contact location
    have hG := handleChangeRequest_frame env h userID username text chatID
    cases hf : firstApplicable lib h userID chatID text <;> rw [hf] at hr <;>
      cases r <;> simp only [TextRoute.rank, Nat.lt_irrefl] at hr <;>
      first
        | omega
        | trivial
        | (simp only [TextRoute.untouched, TextRoute.handler]
           first
             | exact hA.1 | exact hA.2.1 | exact hA.2.2.1 | exact hA.2.2.2.1 | exact hA.2.2.2.2.1
             | exact hC.1 | exact hC.2.1 | exact hC.2.2.1 | exact hC.2.2.2.1
             | exact hS.2.1 | exact hS.2.2.1 | exact hS.2.2.2.1
             | exact hO.2.1 | exact hO.2.2.1
             | exact hG.2.2.1)
  · intro hf e he
    rw [handleTextMessage_eq_handler, hf] at he
    simp only [TextRoute.handler, remindConfigCommand, List.mem_singleton] at he
    rw [he]; rfl
  · intro m hg hd hp hc ht
    unfold handleMessage
    have ht2 : (!m.Text.isEmpty) = true ∨ m.Contact.isSome = true ∨ m.Location.isSome = true := by
      rcases ht with ht | ht | ht
      · left
        cases hm : m.Text with
        | nil => exact absurd hm ht
        | cons a l => rfl
      · exact Or.inr (Or.inl ht)
      · exact Or.inr (Or.inr ht)
    simp only [hg, hd, isAwaitingPassword, hp, hc, ht2, if_true, if_false, Bool.false_eq_true]

/-! ## Active flows: theorem -/

theorem FlowFrame.of_eq {h h' : BotHandler} (userID : Int)
    (h1 : h'.configSessions = h.configSessions) (h2 : h'.orderSessions = h.orderSessions)
    (h3 : h'.pendingChange = h.pendingChange) (h4 : h'.awaitingAdminMsg = h.awaitingAdminMsg) :
    FlowFrame h h' userID :=
  Or.inl ⟨h2, h3, h4, fun k _ => by rw [h1]⟩

theorem sameExceptAt_setKey {α : Type} (m : Int → α) (key : Int) (v : α) :
    sameExceptAt m (setKey m key v) key :=
  fun k hk => by simp [setKey, hk]

theorem handleAdminApprovalCallback_frame (env : Env) (h : BotHandler) (reqID : Int)
    (allowOrder : Bool) (userID : Int) :
    FlowFrame h (handleAdminApprovalCallback env h reqID allowOrder).1.1 userID := by
  unfold handleAdminApprovalCallback popAdminApproval sendAdminReplyToUser
  cases h.adminApprovals reqID with
  | none => exact FlowFrame.of_eq userID rfl rfl rfl rfl
  | some req =>
    simp only
    split <;> exact FlowFrame.of_eq userID rfl rfl rfl rfl

theorem popFeedback_frame (h : BotHandler) (key userID : Int) :
    FlowFrame h (popFeedback h key).1 userID := by
  unfold popFeedback
  split <;> exact FlowFrame.of_eq userID rfl rfl rfl rfl

theorem popPendingApproval_frame (h : BotHandler) (key userID : Int) :
    FlowFrame h (popPendingApproval h key).1 userID := by
  unfold popPendingApproval
  split <;> exact FlowFrame.of_eq userID rfl rfl rfl rfl

theorem handleChangeButton_frame (h : BotHandler) (userID chatID : Int)
    (component question : String) :
    FlowFrame h (handleChangeButton h userID chatID component question).1 userID := by
  unfold handleChangeButton getFeedback
  simp only
  split
  · exact Or.inr (Or.inr (Or.inl ⟨rfl, rfl, rfl, sameExceptAt_setKey _ _ _⟩))
  · exact FlowFrame.of_eq userID rfl rfl rfl rfl

theorem handleOrderButton_frame (h : BotHandler) (userID chatID : Int) (notFound : String)
    (staffNotice : Option String) :
    FlowFrame h (handleOrderButton h userID chatID notFound staffNotice).1 userID := by
  unfold handleOrderButton popPendingApproval
  cases h.pendingApprove userID with
  | none => exact FlowFrame.of_eq userID rfl rfl rfl rfl
  | some info => exact Or.inr (Or.inl ⟨rfl, rfl, rfl, sameExceptAt_setKey _ _ _⟩)

theorem handleDeliveryChoice_frame (env : Env) (h : BotHandler) (userID : Int) (choice : Str)
    (chatID : Int) :
    FlowFrame h (handleDeliveryChoice env h userID choice chatID).1 userID := by
  unfold handleDeliveryChoice
  split
  · exact FlowFrame.of_eq userID rfl rfl rfl rfl
  · simp only
    split
    · refine Or.inr (Or.inl ⟨rfl, rfl, rfl, ?_⟩)
      intro k hk
      simp [clearOrderSession, setKey, hk]
    · exact Or.inr (Or.inl ⟨rfl, rfl, rfl, sameExceptAt_setKey _ _ _⟩)

theorem handleDeliveryConfirm_frame (env : Env) (h : BotHandler) (userID : Int) (agree : Bool)
    (chatID : Int) :
    FlowFrame h (handleDeliveryConfirm env h userID agree chatID).1 userID := by
  unfold handleDeliveryConfirm
  split
  · exact FlowFrame.of_eq userID rfl rfl rfl rfl
  · split <;> exact Or.inr (Or.inl ⟨rfl, rfl, rfl, sameExceptAt_setKey _ _ _⟩)

theorem handleFeedbackYes_frame (env : Env) (h : BotHandler) (userID chatID : Int) :
    FlowFrame h (handleFeedbackYes env h userID chatID).1 userID := by
  unfold handleFeedbackYes popFeedback
  cases h.feedbacks userID with
  | none => exact FlowFrame.of_eq userID rfl rfl rfl rfl
  | some info =>
    simp only
    split
    · split <;> exact FlowFrame.of_eq userID rfl rfl rfl rfl
    · exact FlowFrame.of_eq userID rfl rfl rfl rfl

theorem FlowFrame.ite {h : BotHandler} {userID : Int} {c : Prop} [Decidable c] {a b : Out}
    (ha : FlowFrame h a.1 userID) (hb : FlowFrame h b.1 userID) :
    FlowFrame h (if c then a else b).1 userID := by
  split <;> assumption

theorem handleCallbackSwitch_frame (env : Env) (h : BotHandler) (userID : Int) (data : Str)
    (chatID : Int) :
    FlowFrame h (handleCallbackSwitch env h userID data chatID).1 userID := by
  unfold handleCallbackSwitch
  repeat' apply FlowFrame.ite
  all_goals first
    | exact FlowFrame.of_eq _ rfl rfl rfl rfl
    | exact handleFeedbackYes_frame env h _ _
    | exact popFeedback_frame h _ _
    | exact popPendingApproval_frame h _ _
    | exact handleChangeButton_frame h _ _ _ _
    | exact handleOrderButton_frame h _ _ _ _
    | exact handleDeliveryChoice_frame env h _ _ _
    | exact handleDeliveryConfirm_frame env h _ _ _
    | exact Or.inr (Or.inr (Or.inr ⟨rfl, rfl, rfl, sameExceptAt_setKey _ _ _⟩))

theorem handleCallback_frame (env : Env) (h : BotHandler) (cq : CallbackQuery) :
    FlowFrame h (handleCallback env h cq).1 cq.FromID := by
  unfold handleCallback
  apply FlowFrame.ite
  · dsimp only
    split
    · exact FlowFrame.of_eq _ rfl rfl rfl rfl
    · apply FlowFrame.ite <;> exact handleAdminApprovalCallback_frame env h _ _ _
  · apply FlowFrame.ite
    · exact FlowFrame.of_eq _ rfl rfl rfl rfl
    · exact handleCallbackSwitch_frame env h _ _ _

/-- The flows of a user after a text that reaches the text router. -/
theorem handleTextMessage_frame (lib : GoLib) (env : Env) (h : BotHandler) (userID : Int)
    (username text : Str) (chatID : Int) (contact : Option Str)
    (location : Option (F64 × F64)) :
    FlowFrame h (handleTextMessage lib env h userID username text chatID contact location).1
      userID := by
  rw [handleTextMessage_eq_handler]
  have hA := handleUserMessageForAdmin_frame env h userID username text chatID
  have hC := handleConfigFlow_frame env h userID username text chatID
  have hS := handleShopMessage_frame env h userID username text chatID
  have hO := handleOrderFlow_frame env h userID text chatID contact location
  have hG := handleChangeRequest_frame env h userID username text chatID
  have hB := handleGenerativeBackend_frame lib env h userID username text chatID
  cases firstApplicable lib h userID chatID text <;> simp only [TextRoute.handler]
  · exact Or.inr (Or.inr (Or.inr ⟨hA.1, hA.2.2.1, hA.2.2.2.1, hA.2.2.2.2.2⟩))
  · exact Or.inl ⟨hC.2.1, hC.2.2.1, hC.2.2.2.2.1, hC.2.2.2.2.2⟩
  · exact FlowFrame.of_eq _ hS.1 hS.2.1 hS.2.2.1 hS.2.2.2.2
  · exact Or.inr (Or.inl ⟨hO.1, hO.2.1, hO.2.2.2.1, hO.2.2.2.2.2⟩)
  · exact Or.inr (Or.inr (Or.inl ⟨hG.1, hG.2.1, hG.2.2.2.1, hG.2.2.2.2.2⟩))
  · exact FlowFrame.of_eq _ rfl rfl rfl rfl
  · exact FlowFrame.of_eq _ hB.1 hB.2.1 hB.2.2.1 hB.2.2.2

theorem handleMessage_frame (lib : GoLib) (env : Env) (h : BotHandler) (m : Message) :
    FlowFrame h (handleMessage lib env h m).1 m.FromID := by
  unfold handleMessage
  dsimp only
  apply FlowFrame.ite
  · unfold handleGroupMessage getGroupThread
    split
    · exact FlowFrame.of_eq _ rfl rfl rfl rfl
    · split
      · exact FlowFrame.of_eq _ rfl rfl rfl rfl
      · dsimp only
        apply FlowFrame.ite <;> exact FlowFrame.of_eq _ rfl rfl rfl rfl
  · apply FlowFrame.ite
    · exact FlowFrame.of_eq _ rfl rfl rfl rfl
    · apply FlowFrame.ite
      · unfold handlePasswordInput
        dsimp only
        split <;> exact FlowFrame.of_eq _ rfl rfl rfl rfl
      · split
        · unfold handleCommand
          apply FlowFrame.ite
          · unfold handleAdminCommand
            apply FlowFrame.ite <;> exact FlowFrame.of_eq _ rfl rfl rfl rfl
          · apply FlowFrame.ite
            · exact Or.inl ⟨rfl, rfl, rfl, sameExceptAt_setKey _ _ _⟩
            · apply FlowFrame.ite
              · exact FlowFrame.of_eq _ rfl rfl rfl rfl
              · apply FlowFrame.ite <;> exact FlowFrame.of_eq _ rfl rfl rfl rfl
        · apply FlowFrame.ite
          · exact handleTextMessage_frame lib env h _ _ _ _ _ _
          · exact FlowFrame.of_eq _ rfl rfl rfl rfl

/-- An update changes at most one of the four flow maps, at the entry of its
sender. -/
theorem handleUpdate_frame (lib : GoLib) (env : Env) (h : BotHandler) (u : Update) :
    FlowFrame h (handleUpdate lib env h u).1 u.sender := by
  cases u with
  | message m => exact handleMessage_frame lib env h m
  | callback cq => exact handleCallback_frame env h cq

theorem activeFlows_le_of_frame {h h' : BotHandler} {userID : Int}
    (hf : FlowFrame h h' userID) (v : Int) :
    activeFlows h' v ≤ activeFlows h v + 1 ∧ (v ≠ userID → activeFlows h' v = activeFlows h v) := by
  unfold activeFlows
  rcases hf with ⟨h1, h2, h3, h4⟩ | ⟨h1, h2, h3, h4⟩ | ⟨h1, h2, h3, h4⟩ | ⟨h1, h2, h3, h4⟩
  all_goals
    rw [h1, h2, h3]
    constructor
    · split_ifs <;> omega
    · intro hv
      rw [h4 v hv]

theorem activeFlows_runUpdates (lib : GoLib) (updates : List (Env × Update)) :
    ∀ (h : BotHandler) (v : Int),
      activeFlows (runUpdates lib h updates) v ≤
        activeFlows h v + (updates.filter (fun eu => decide (eu.2.sender = v))).length := by
  induction updates with
  | nil => intro h v; simp [runUpdates]
  | cons eu rest ih =>
    intro h v
    obtain ⟨env, u⟩ := eu
    have hstep := activeFlows_le_of_frame (handleUpdate_frame lib env h u) v
    have hrest := ih (handleUpdate lib env h u).1 v
    rw [runUpdates, List.filter_cons]
    by_cases hv : u.sender = v
    · simp only [hv, decide_True, if_true, List.length_cons]
      omega
    · have hv2 : v ≠ u.sender := fun hc => hv hc.symm
      simp only [hv, decide_False, Bool.false_eq_true, if_false]
      rw [hstep.2 hv2] at hrest
      exact hrest

/-- C8 (as stated, refuted): after the button `msg_admin_start` and the command
`/configuratsiya`, both of user 1 on a new handler, user 1 has two active flows:
the capture of a message to the admin and a config wizard session. -/
theorem C8_counterexample :
    activeFlows (runUpdates asciiLib (NewBotHandler 0 0) sampleTwoFlows) 1 = 2 ∧
    (runUpdates asciiLib (NewBotHandler 0 0) sampleTwoFlows).awaitingAdminMsg 1 = true ∧
    ((runUpdates asciiLib (NewBotHandler 0 0) sampleTwoFlows).configSessions 1).isSome = true := by
  decide

/-- C8 (amended): the handler does not keep the four flows (config wizard, order
session, pending change request, message to the admin) exclusive.  What holds
for every update is that it changes at most one of the four flow maps, and only
at the entry of its sender; so the number of active flows of a user grows by at
most one with an update of that user, is not changed by the updates of other
users, and after a run of updates from a new handler is at most the number of
updates of that user. -/
theorem C8_flows_per_update (lib : GoLib) (env : Env) (h : BotHandler) (u : Update) :
    FlowFrame h (handleUpdate lib env h u).1 u.sender ∧
    (∀ v : Int, activeFlows (handleUpdate lib env h u).1 v ≤ activeFlows h v + 1 ∧
      (v ≠ u.sender → activeFlows (handleUpdate lib env h u).1 v = activeFlows h v)) ∧
    (∀ (g1 g2 : Int) (updates : List (Env × Update)) (v : Int),
      activeFlows (runUpdates lib (NewBotHandler g1 g2) updates) v ≤
        (updates.filter (fun eu => decide (eu.2.sender = v))).length) := by
  refine ⟨handleUpdate_frame lib env h u,
    fun v => activeFlows_le_of_frame (handleUpdate_frame lib env h u) v, ?_⟩
  intro g1 g2 updates v
  have := activeFlows_runUpdates lib updates (NewBotHandler g1 g2) v
  have h0 : activeFlows (NewBotHandler g1 g2) v = 0 := rfl
  omega

/-! ## The order flow: theorems -/

/-- C11: one text step of `handleOrderFlow` for a user with an order
session.  At the stages for the name, the phone and the location an input
that is empty after trimming, with no contact number or location in the
message, leaves the stage as it is (at the phone and location stages the whole
session); a non-empty input is recorded, trimmed, in the field of the stage, a
non-empty contact number or a location text is recorded instead of the text,
and the stage advances by exactly one.  At the stages of the delivery choice
and of the delivery confirmation a text changes no field and no stage.  The
sessions of other users are not touched. -/
theorem C11_order_text_step (env : Env) (h : BotHandler) (userID chatID : Int) (text : Str)
    (contact : Option Str) (location : Option (F64 × F64)) (session : orderSession)
    (hs : h.orderSessions userID = some session) :
    (session.Stage = orderStageNeedName →
      (trimSpace text = [] →
        (handleOrderFlow env h userID text chatID contact location).1.orderSessions userID =
          some { session with Name := [] }) ∧
      (trimSpace text ≠ [] →
        (handleOrderFlow env h userID text chatID contact location).1.orderSessions userID =
          some { session with Name := trimSpace text, Stage := session.Stage + 1 })) ∧
    (session.Stage = orderStageNeedPhone →
      (∀ number, contact = some number → number ≠ [] →
        (handleOrderFlow env h userID text chatID contact location).1.orderSessions userID =
          some { session with Phone := number, Stage := session.Stage + 1 }) ∧
      ((contact = none ∨ contact = some []) →
        (trimSpace text = [] →
          (handleOrderFlow env h userID text chatID contact location).1.orderSessions userID =
            some session) ∧
        (trimSpace text ≠ [] →
          (handleOrderFlow env h userID text chatID contact location).1.orderSessions userID =
            some { session with Phone := trimSpace text, Stage := session.Stage + 1 }))) ∧
    (session.Stage = orderStageNeedLocation →
      (∀ loc, location = some loc → env.locationText loc.1 loc.2 ≠ [] →
        (handleOrderFlow env h userID text chatID contact location).1.orderSessions userID =
          some { session with Location := env.locationText loc.1 loc.2,
                              Stage := session.Stage + 1 }) ∧
      (location = none →
        (trimSpace text = [] →
          (handleOrderFlow env h userID text chatID contact location).1.orderSessions userID =
            some session) ∧
        (trimSpace text ≠ [] →
          (handleOrderFlow env h userID text chatID contact location).1.orderSessions userID =
            some { session with Location := trimSpace text, Stage := session.Stage + 1 }))) ∧
    ((session.Stage = orderStageNeedDeliveryChoice ∨
        session.Stage = orderStageNeedDeliveryConfirm) →
      (handleOrderFlow env h userID text chatID contact location).1.orderSessions userID =
        some session) ∧
    (∀ other, other ≠ userID →
      (handleOrderFlow env h userID text chatID contact location).1.orderSessions other =
        h.orderSessions other) := by
  refine ⟨?_, ?_, ?_, ?_, ?_⟩
  · intro h0
    constructor
    · intro ht
      simp [handleOrderFlow, hs, h0, ht, setKey]
    · intro ht
      simp [handleOrderFlow, hs, h0, ht, setKey, orderStageNeedName, orderStageNeedPhone]
  · intro h1
    have h0 : session.Stage ≠ orderStageNeedName := by rw [h1]; decide
    refine ⟨?_, ?_⟩
    · intro number hc hn
      subst hc
      simp [handleOrderFlow, hs, h1, hn, setKey, orderStageNeedName, orderStageNeedPhone,
        orderStageNeedLocation]
    · intro hc
      constructor
      · intro ht
        rcases hc with hc | hc <;> subst hc <;>
          simp [handleOrderFlow, hs, h1, ht, setKey, orderStageNeedName, orderStageNeedPhone]
      · intro ht
        rcases hc with hc | hc <;> subst hc <;>
          simp [handleOrderFlow, hs, h1, ht, setKey, orderStageNeedName, orderStageNeedPhone,
            orderStageNeedLocation]
  · intro h2
    refine ⟨?_, ?_⟩
    · intro loc hl hn
      subst hl
      simp [handleOrderFlow, hs, h2, hn, setKey, orderStageNeedName, orderStageNeedPhone,
        orderStageNeedLocation, orderStageNeedDeliveryChoice]
    · intro hl
      subst hl
      constructor
      · intro ht
        simp [handleOrderFlow, hs, h2, ht, setKey, orderStageNeedName, orderStageNeedPhone,
          orderStageNeedLocation]
      · intro ht
        simp [handleOrderFlow, hs, h2, ht, setKey, orderStageNeedName, orderStageNeedPhone,
          orderStageNeedLocation, orderStageNeedDeliveryChoice]
  · intro h34
    rcases h34 with h3 | h3 <;>
      simp [handleOrderFlow, hs, h3, setKey, orderStageNeedName, orderStageNeedPhone,
        orderStageNeedLocation, orderStageNeedDeliveryChoice, orderStageNeedDeliveryConfirm]
  · intro other ho
    have hf := handleOrderFlow_frame env h userID text chatID contact location
    exact hf.2.2.2.2.2 other ho

/-- A use of C11: user 1 has the order session of `sampleOrderStart`, at the
stage of the name.  The text ` Ali ` is recorded, trimmed, as the name and the
session moves to the stage of the phone; a text of two blanks leaves the
session at the stage of the name. -/
theorem C11_order_text_step_witness :
    (handleOrderFlow sampleEnv (runUpdates asciiLib (NewBotHandler 0 9) sampleOrderStart) 1
      " Ali ".toList 1 none none).1.orderSessions 1 =
      some { sampleOrderSession with Name := "Ali".toList, Stage := orderStageNeedPhone } ∧
    (handleOrderFlow sampleEnv (runUpdates asciiLib (NewBotHandler 0 9) sampleOrderStart) 1
      "  ".toList 1 none none).1.orderSessions 1 = some sampleOrderSession :=
  ⟨(((C11_order_text_step sampleEnv (runUpdates asciiLib (NewBotHandler 0 9) sampleOrderStart)
        1 1 " Ali ".toList none none sampleOrderSession (by decide)).1 (by decide)).2
      (by decide)).trans (by decide),
   (((C11_order_text_step sampleEnv (runUpdates asciiLib (NewBotHandler 0 9) sampleOrderStart)
        1 1 "  ".toList none none sampleOrderSession (by decide)).1 (by decide)).1
      (by decide)).trans (by decide)⟩

/-- C12 (refuted by the code): neither `handleDeliveryChoice` nor
`handleDeliveryConfirm` looks at the stage of the session.  After `/shop`, a
query and the button `shop_yes` user 1 has an order session at the stage of the
name, with no name, phone or location; the button `delivery_pickup` then
forwards this order to the staff chat and deletes the session. -/
theorem C12_order_forwarded_without_name :
    (runUpdates asciiLib (NewBotHandler 0 9) sampleOrderStart).orderSessions 1 =
      some sampleOrderSession ∧
    sampleOrderSession.Stage = orderStageNeedName ∧
    sampleOrderSession.Name = [] ∧ sampleOrderSession.Phone = [] ∧
    sampleOrderSession.Location = [] ∧
    (handleUpdate asciiLib sampleEnv (runUpdates asciiLib (NewBotHandler 0 9) sampleOrderStart)
      (Update.callback (buttonPress 1 "delivery_pickup"))).1.orderSessions 1 = none ∧
    Effect.orderToGroup2 1 { sampleOrderSession with Delivery := "pickup".toList }
        (msg "Olib ketish") [] ∈
      (handleUpdate asciiLib sampleEnv (runUpdates asciiLib (NewBotHandler 0 9) sampleOrderStart)
        (Update.callback (buttonPress 1 "delivery_pickup"))).2 ∧
    (handleUpdate asciiLib sampleEnv (runUpdates asciiLib (NewBotHandler 0 9) sampleOrderStart)
      (Update.callback (buttonPress 1 "delivery_confirm_yes"))).1.orderSessions 1 = none ∧
    Effect.orderToGroup2 1 sampleOrderSession (msg "Dostavka (100k)") (msg "Rozilik berildi") ∈
      (handleUpdate asciiLib sampleEnv (runUpdates asciiLib (NewBotHandler 0 9) sampleOrderStart)
        (Update.callback (buttonPress 1 "delivery_confirm_yes"))).2 := by
  decide

/-- C13 (as stated, refuted): user 1 has an order session and has pressed the
button for a message to the admin; the command `/configuratsiya` starts the
wizard and leaves the order session alone, but the following text is consumed
by the capture of the message to the admin, not by the wizard: the wizard stays
at its first stage with no answer. -/
theorem C13_counterexample :
    (runUpdates asciiLib (NewBotHandler 0 9) sampleOrderStart).orderSessions 1 =
      some sampleOrderSession ∧
    (runUpdates asciiLib (NewBotHandler 0 9) sampleOrderThenWizard).orderSessions 1 =
      some sampleOrderSession ∧
    (runUpdates asciiLib (NewBotHandler 0 9) sampleOrderThenWizard).awaitingAdminMsg 1 = true ∧
    (runUpdates asciiLib (NewBotHandler 0 9) sampleOrderThenWizard).configSessions 1 =
      some { Stage := configStageNeedType, PCType := [], Budget := [], CPUBrand := [],
             Storage := [], GPUBrand := [], StartedAt := 1, LastUpdate := 1 } ∧
    (handleUpdate asciiLib sampleEnv (runUpdates asciiLib (NewBotHandler 0 9) sampleOrderThenWizard)
      (Update.message (textMessage 1 "gaming"))).1.configSessions 1 =
      some { Stage := configStageNeedType, PCType := [], Budget := [], CPUBrand := [],
             Storage := [], GPUBrand := [], StartedAt := 1, LastUpdate := 1 } ∧
    (handleUpdate asciiLib sampleEnv (runUpdates asciiLib (NewBotHandler 0 9) sampleOrderThenWizard)
      (Update.message (textMessage 1 "gaming"))).1.awaitingAdminMsg 1 = false ∧
    (handleUpdate asciiLib sampleEnv (runUpdates asciiLib (NewBotHandler 0 9) sampleOrderThenWizard)
      (Update.message (textMessage 1 "gaming"))).2 =
      [Effect.sendMessage 1 (msg "Hozircha admin bilan bog'lanish ishlamayapti")] := by
  decide

/-- C13 (amended): the command `/configuratsiya` of a user with an order session
leaves the order session of the user unchanged.  The following text of the user
is consumed by the config wizard alone, which records it as the first answer,
unless the user is also in the capture of a message to the admin: that flow
comes first in the router and consumes the text instead, and the wizard keeps
waiting.  In both cases the order session is unchanged. -/
theorem C13_wizard_start_keeps_order (lib : GoLib) (env env2 : Env) (h : BotHandler)
    (message : Message) (session : orderSession) (username text : Str) (chatID : Int)
    (contact : Option Str) (location : Option (F64 × F64))
    (hs : h.orderSessions message.FromID = some session) :
    (handleConfigCommand env h message).1 = startConfigSession env h message.FromID ∧
    (startConfigSession env h message.FromID).orderSessions message.FromID = some session ∧
    (h.awaitingAdminMsg message.FromID = false →
      handleTextMessage lib env2 (startConfigSession env h message.FromID) message.FromID
          username text chatID contact location =
        handleConfigFlow env2 (startConfigSession env h message.FromID) message.FromID
          username text chatID ∧
      (handleTextMessage lib env2 (startConfigSession env h message.FromID) message.FromID
          username text chatID contact location).1.configSessions message.FromID =
        some { Stage := configStageNeedBudget, PCType := trimSpace text, Budget := [],
               CPUBrand := [], Storage := [], GPUBrand := [], StartedAt := env.now,
               LastUpdate := env2.now }) ∧
    (h.awaitingAdminMsg message.FromID = true →
      handleTextMessage lib env2 (startConfigSession env h message.FromID) message.FromID
          username text chatID contact location =
        handleUserMessageForAdmin env2 (startConfigSession env h message.FromID) message.FromID
          username text chatID ∧
      (handleTextMessage lib env2 (startConfigSession env h message.FromID) message.FromID
          username text chatID contact location).1.configSessions =
        (startConfigSession env h message.FromID).configSessions) ∧
    (handleTextMessage lib env2 (startConfigSession env h message.FromID) message.FromID
        username text chatID contact location).1.orderSessions message.FromID = some session := by
  have hcfg : hasConfigSession (startConfigSession env h message.FromID) message.FromID = true := by
    simp [hasConfigSession, startConfigSession, setKey]
  have hA := handleUserMessageForAdmin_frame env2 (startConfigSession env h message.FromID)
    message.FromID username text chatID
  have hC := handleConfigFlow_frame env2 (startConfigSession env h message.FromID)
    message.FromID username text chatID
  have hw : ∀ b, h.awaitingAdminMsg message.FromID = b →
      isAwaitingAdminMessage (startConfigSession env h message.FromID) message.FromID = b :=
    fun b hb => hb
  have e0 : h.awaitingAdminMsg message.FromID = false →
      handleTextMessage lib env2 (startConfigSession env h message.FromID) message.FromID
          username text chatID contact location =
        handleConfigFlow env2 (startConfigSession env h message.FromID) message.FromID
          username text chatID := by
    intro hb
    unfold handleTextMessage
    rw [hw false hb, hcfg]
    simp
  have e1 : h.awaitingAdminMsg message.FromID = true →
      handleTextMessage lib env2 (startConfigSession env h message.FromID) message.FromID
          username text chatID contact location =
        handleUserMessageForAdmin env2 (startConfigSession env h message.FromID) message.FromID
          username text chatID := by
    intro hb
    unfold handleTextMessage
    rw [hw true hb]
    simp
  refine ⟨rfl, hs, ?_, ?_, ?_⟩
  · intro hb
    refine ⟨e0 hb, ?_⟩
    rw [e0 hb]
    simp [handleConfigFlow, startConfigSession, setKey, configStageNeedType,
      configStageNeedBudget]
  · intro hb
    refine ⟨e1 hb, ?_⟩
    rw [e1 hb]
    exact hA.1
  · cases hb : h.awaitingAdminMsg message.FromID with
    | false =>
      rw [e0 hb, hC.2.1]
      exact hs
    | true =>
      rw [e1 hb, hA.2.2.1]
      exact hs

/-- A use of C13 (amended): user 1, with the order session of `sampleOrderStart`
and no message to the admin under way, starts the wizard and answers `gaming`:
the answer is recorded by the wizard and the order session is as before. -/
theorem C13_wizard_start_keeps_order_witness :
    (runUpdates asciiLib (NewBotHandler 0 9) sampleOrderStart).orderSessions 1 =
      some sampleOrderSession ∧
    (handleTextMessage asciiLib sampleEnv
      (startConfigSession sampleEnv (runUpdates asciiLib (NewBotHandler 0 9) sampleOrderStart) 1)
      1 "user".toList "gaming".toList 1 none none).1.configSessions 1 =
      some { Stage := configStageNeedBudget, PCType := "gaming".toList, Budget := [],
             CPUBrand := [], Storage := [], GPUBrand := [], StartedAt := 1, LastUpdate := 1 } ∧
    (handleTextMessage asciiLib sampleEnv
      (startConfigSession sampleEnv (runUpdates asciiLib (NewBotHandler 0 9) sampleOrderStart) 1)
      1 "user".toList "gaming".toList 1 none none).1.orderSessions 1 =
      some sampleOrderSession :=
  have h := C13_wizard_start_keeps_order asciiLib sampleEnv sampleEnv
    (runUpdates asciiLib (NewBotHandler 0 9) sampleOrderStart)
    (commandMessage 1 "configuratsiya") sampleOrderSession "user".toList "gaming".toList 1
    none none (by decide)
  ⟨by decide, ((h.2.2.1 (by decide)).2).trans (by decide), h.2.2.2.2⟩

/-- C14 (as stated, refuted): a group thread link is read, not popped.  The
message of user 1 to the admin is saved under the identifier 7; the first reply
of the staff to it finds the link and leaves it in place, and so does the
second. -/
theorem C14_counterexample :
    getGroupThread (runUpdates asciiLib (NewBotHandler 5 0) sampleAdminThread) 7 =
      some sampleThread ∧
    (handleUpdate asciiLib sampleEnv (runUpdates asciiLib (NewBotHandler 5 0) sampleAdminThread)
      (Update.message (staffReply 8 "ok"))).1.adminApprovals 8 =
      some { Target := sampleThread, AdminMsg := "ok".toList } ∧
    getGroupThread
      (handleUpdate asciiLib sampleEnv (runUpdates asciiLib (NewBotHandler 5 0) sampleAdminThread)
        (Update.message (staffReply 8 "ok"))).1 7 = some sampleThread ∧
    (handleUpdate asciiLib sampleEnv
      (handleUpdate asciiLib sampleEnv (runUpdates asciiLib (NewBotHandler 5 0) sampleAdminThread)
        (Update.message (staffReply 8 "ok"))).1
      (Update.message (staffReply 9 "again"))).1.adminApprovals 9 =
      some { Target := sampleThread, AdminMsg := "again".toList } ∧
    getGroupThread
      (handleUpdate asciiLib sampleEnv
        (handleUpdate asciiLib sampleEnv (runUpdates asciiLib (NewBotHandler 5 0) sampleAdminThread)
          (Update.message (staffReply 8 "ok"))).1
        (Update.message (staffReply 9 "again"))).1 7 = some sampleThread := by
  decide

/-- C14 (amended): pending approvals and admin approval requests have pop
semantics: after an entry is saved under a key, the first pop under that key
returns it and removes it, a second pop reports that nothing is found and
changes nothing, and the entries under other keys are those from before the
save.  Group thread links have no pop: the lookup returns the saved link every
time, and the handling of a staff reply leaves the table of links as it is. -/
theorem C14_pop_semantics (h : BotHandler) (key : Int) :
    (∀ info : pendingApproval,
      (popPendingApproval (savePendingApproval h key info) key).2 = some info ∧
      (popPendingApproval (savePendingApproval h key info) key).1.pendingApprove key = none ∧
      popPendingApproval (popPendingApproval (savePendingApproval h key info) key).1 key =
        ((popPendingApproval (savePendingApproval h key info) key).1, none) ∧
      (∀ other, other ≠ key →
        (popPendingApproval (savePendingApproval h key info) key).1.pendingApprove other =
          h.pendingApprove other)) ∧
    (∀ req : adminApprovalRequest,
      (popAdminApproval (saveAdminApproval h key req) key).2 = some req ∧
      (popAdminApproval (saveAdminApproval h key req) key).1.adminApprovals key = none ∧
      popAdminApproval (popAdminApproval (saveAdminApproval h key req) key).1 key =
        ((popAdminApproval (saveAdminApproval h key req) key).1, none) ∧
      (∀ other, other ≠ key →
        (popAdminApproval (saveAdminApproval h key req) key).1.adminApprovals other =
          h.adminApprovals other)) ∧
    (∀ info : groupThreadInfo,
      getGroupThread (saveGroupThread h key info) key = some info ∧
      (∀ other, other ≠ key →
        getGroupThread (saveGroupThread h key info) other = getGroupThread h other) ∧
      (∀ m : Message,
        (handleGroupMessage (saveGroupThread h key info) m).1.groupThreads =
          (saveGroupThread h key info).groupThreads)) := by
  refine ⟨?_, ?_, ?_⟩
  · intro info
    have e : popPendingApproval (savePendingApproval h key info) key =
        ({ savePendingApproval h key info with
            pendingApprove := setKey (savePendingApproval h key info).pendingApprove key none },
          some info) := by
      simp [popPendingApproval, savePendingApproval, setKey]
    rw [e]
    refine ⟨rfl, by simp [setKey], by simp [popPendingApproval, setKey], ?_⟩
    intro other ho
    simp [savePendingApproval, setKey, ho]
  · intro req
    have e : popAdminApproval (saveAdminApproval h key req) key =
        ({ saveAdminApproval h key req with
            adminApprovals := setKey (saveAdminApproval h key req).adminApprovals key none },
          some req) := by
      simp [popAdminApproval, saveAdminApproval, setKey]
    rw [e]
    refine ⟨rfl, by simp [setKey], by simp [popAdminApproval, setKey], ?_⟩
    intro other ho
    simp [saveAdminApproval, setKey, ho]
  · intro info
    refine ⟨by simp [getGroupThread, saveGroupThread, setKey], ?_, ?_⟩
    · intro other ho
      simp [getGroupThread, saveGroupThread, setKey, ho]
    · intro m
      unfold handleGroupMessage
      split
      · rfl
      · split
        · rfl
        · dsimp only
          split <;> split <;> rfl

/-! ## Lemmas on the fallback of `Search` -/

theorem takeBest_eq (l : List scoredProduct) (results : List Product) :
    takeBest results l =
      results ++ ((l.filter (fun sp => decide (8 ≤ sp.Score))).take (6 - results.length)).map
        (fun sp => sp.Product) := by
  induction l generalizing results with
  | nil => simp [takeBest]
  | cons sp t ih =>
    rw [takeBest]
    by_cases h8 : 8 ≤ sp.Score
    · by_cases hl : results.length < 6
      · rw [if_pos ⟨h8, hl⟩, ih, List.filter_cons_of_pos (by simpa using h8)]
        obtain ⟨k, hk⟩ : ∃ k, 6 - results.length = k + 1 := ⟨5 - results.length, by omega⟩
        have hk2 : 6 - (results ++ [sp.Product]).length = k := by
          rw [List.length_append, List.length_singleton]; omega
        rw [hk, hk2, List.take_succ_cons, List.map_cons, List.append_assoc]
        rfl
      · rw [if_neg (fun hc => hl hc.2), ih]
        have h0 : 6 - results.length = 0 := by omega
        rw [h0, List.take_zero, List.take_zero]
    · rw [if_neg (fun hc => h8 hc.1), ih, List.filter_cons_of_neg (by simpa using h8)]

theorem insertScored_perm (x : scoredProduct) (l : List scoredProduct) :
    (insertScored x l).Perm (x :: l) := by
  induction l with
  | nil => exact List.Perm.refl _
  | cons y t ih =>
    rw [insertScored]
    split
    · exact (List.Perm.cons y ih).trans (List.Perm.swap x y t)
    · exact List.Perm.refl _

theorem sortScored_perm (l : List scoredProduct) : (sortScored l).Perm l := by
  induction l with
  | nil => exact List.Perm.refl _
  | cons z t ih =>
    have : sortScored (z :: t) = insertScored z (sortScored t) := rfl
    rw [this]
    exact (insertScored_perm z _).trans (List.Perm.cons z ih)

theorem F64.le_trans {a b c : F64} (h1 : F64.le a b = true) (h2 : F64.le b c = true) :
    F64.le a c = true := by
  cases a <;> cases b <;> cases c <;> simp_all [F64.le]
  · rename_i x y z
    cases x <;> cases y <;> cases z <;> simp_all
  · exact h1.trans h2

theorem F64.le_of_not_lt {a b : F64} (ha : a ≠ F64.nan) (hb : b ≠ F64.nan)
    (h : F64.lt b a = false) : F64.le a b = true := by
  cases a <;> cases b <;> simp_all [F64.le, F64.lt]
  · rename_i x y
    cases x <;> cases y <;> simp_all

theorem F64.le_of_lt {a b : F64} (h : F64.lt a b = true) : F64.le a b = true := by
  cases a <;> cases b <;> simp_all [F64.le, F64.lt]
  exact h.le

theorem scoredBefore_trans {a b c : scoredProduct} (h1 : scoredBefore a b)
    (h2 : scoredBefore b c) : scoredBefore a c := by
  unfold scoredBefore at *
  rcases h1 with h1 | ⟨e1, p1⟩ <;> rcases h2 with h2 | ⟨e2, p2⟩
  · left; omega
  · left; omega
  · left; omega
  · right; exact ⟨e1.trans e2, F64.le_trans p1 p2⟩

theorem scoredBefore_of_less {a b : scoredProduct} (h : scoredLess a b = true) :
    scoredBefore a b := by
  unfold scoredLess at h
  unfold scoredBefore
  split at h
  · rename_i he
    exact Or.inr ⟨he, F64.le_of_lt h⟩
  · exact Or.inl (by simpa using h)

theorem scoredBefore_of_not_less {a b : scoredProduct} (ha : a.Product.Price ≠ F64.nan)
    (hb : b.Product.Price ≠ F64.nan) (h : scoredLess b a = false) : scoredBefore a b := by
  unfold scoredLess at h
  unfold scoredBefore
  split at h
  · rename_i he
    exact Or.inr ⟨he.symm, F64.le_of_not_lt ha hb h⟩
  · rename_i he
    have : ¬ a.Score < b.Score := by simpa using h
    left; omega

theorem insertScored_sorted (x : scoredProduct) (l : List scoredProduct)
    (hx : x.Product.Price ≠ F64.nan) (hl : ∀ y ∈ l, y.Product.Price ≠ F64.nan)
    (hs : l.Pairwise scoredBefore) : (insertScored x l).Pairwise scoredBefore := by
  induction l with
  | nil => simp [insertScored]
  | cons y t ih =>
    rw [insertScored]
    have hy := hl y (List.mem_cons_self _ _)
    have ht : ∀ z ∈ t, z.Product.Price ≠ F64.nan := fun z hz => hl z (List.mem_cons_of_mem _ hz)
    rw [List.pairwise_cons] at hs
    split
    · rename_i hless
      rw [List.pairwise_cons]
      refine ⟨?_, ih ht hs.2⟩
      intro z hz
      rcases (mem_insertScored x z t).1 hz with rfl | hz
      · exact scoredBefore_of_less hless
      · exact hs.1 z hz
    · rename_i hless
      have hxy : scoredBefore x y := scoredBefore_of_not_less hx hy (by simpa using hless)
      rw [List.pairwise_cons]
      refine ⟨?_, List.pairwise_cons.2 hs⟩
      intro z hz
      rcases List.mem_cons.1 hz with rfl | hz
      · exact hxy
      · exact scoredBefore_trans hxy (hs.1 z hz)

theorem sortScored_sorted (l : List scoredProduct) (hl : ∀ y ∈ l, y.Product.Price ≠ F64.nan) :
    (sortScored l).Pairwise scoredBefore := by
  induction l with
  | nil => simp [sortScored]
  | cons z t ih =>
    have : sortScored (z :: t) = insertScored z (sortScored t) := rfl
    rw [this]
    have ht : ∀ y ∈ t, y.Product.Price ≠ F64.nan := fun y hy => hl y (List.mem_cons_of_mem _ hy)
    exact insertScored_sorted z _ (hl z (List.mem_cons_self _ _))
      (fun y hy => ht y ((mem_sortScored y t).1 hy)) (ih ht)

theorem gpuRefine_sublist (lib : GoLib) (b : Bool) (l : List Product) :
    (gpuRefine lib b l).Sublist l := by
  unfold gpuRefine
  split
  · simp only
    split
    · exact List.filter_sublist l
    · exact List.Sublist.refl l
  · exact List.Sublist.refl l

theorem Search_sublist_unrefined (lib : GoLib) (products : List Product) (query : Str) :
    (Search lib products query).1.Sublist
      (searchUnrefined lib (queryForms lib (toLower lib (trimSpace query))) products) := by
  simp only [Search, searchProducts]
  split
  · exact List.nil_sublist _
  · exact gpuRefine_sublist lib _ _

/-- The candidates of the fallback, sorted, with a score of at least 8. -/
theorem searchUnrefined_fallback (lib : GoLib) (qf : QueryForms) (products : List Product)
    (hdirect : ∀ p ∈ products, directMatch lib qf p = false) :
    searchUnrefined lib qf products =
      (((sortScored ((products.filter (fun p => decide (5 ≤ productScore lib qf p))).map
          (fun p => (⟨p, productScore lib qf p⟩ : scoredProduct)))).filter
        (fun sp => decide (8 ≤ sp.Score))).map (fun sp => sp.Product)).take 6 := by
  have hnil : products.filter (directMatch lib qf) = [] := by
    rw [List.filter_eq_nil_iff]
    intro p hp
    rw [hdirect p hp]
    simp
  have hcand : products.filter (fun p => primaryMatch lib qf p = false ∧
      digitMatch lib qf p = false ∧ 5 ≤ productScore lib qf p) =
      products.filter (fun p => decide (5 ≤ productScore lib qf p)) := by
    apply List.filter_congr
    intro p hp
    have hd := hdirect p hp
    simp only [directMatch, Bool.or_eq_false_iff] at hd
    simp [hd.1.1, hd.1.2]
  rw [searchUnrefined_eq, if_pos hnil, takeBest_eq, hcand]
  simp [List.map_take]

theorem sortScored_candidates_score (lib : GoLib) (qf : QueryForms) (l : List Product)
    (sp : scoredProduct)
    (h : sp ∈ sortScored (l.map (fun p => (⟨p, productScore lib qf p⟩ : scoredProduct)))) :
    sp.Product ∈ l ∧ sp.Score = productScore lib qf sp.Product := by
  rw [mem_sortScored, List.mem_map] at h
  obtain ⟨p, hp, rfl⟩ := h
  exact ⟨hp, rfl⟩

/-- The sorted candidates with a score of at least 8, as products: a ranking of
all products of the catalog with such a score. -/
theorem fallback_ranked (lib : GoLib) (qf : QueryForms) (products : List Product)
    (hprice : ∀ p ∈ products, p.Price ≠ F64.nan) :
    (((sortScored ((products.filter (fun p => decide (5 ≤ productScore lib qf p))).map
          (fun p => (⟨p, productScore lib qf p⟩ : scoredProduct)))).filter
        (fun sp => decide (8 ≤ sp.Score))).map (fun sp => sp.Product)).Perm
      (products.filter (fun p => decide (8 ≤ productScore lib qf p))) ∧
    (((sortScored ((products.filter (fun p => decide (5 ≤ productScore lib qf p))).map
          (fun p => (⟨p, productScore lib qf p⟩ : scoredProduct)))).filter
        (fun sp => decide (8 ≤ sp.Score))).map (fun sp => sp.Product)).Pairwise
      (rankedBefore lib qf) := by
  constructor
  · have h1 := ((sortScored_perm ((products.filter
      (fun p => decide (5 ≤ productScore lib qf p))).map
        (fun p => (⟨p, productScore lib qf p⟩ : scoredProduct)))).filter
          (fun sp => decide (8 ≤ sp.Score))).map (fun sp => sp.Product)
    refine h1.trans ?_
    rw [List.filter_map, List.map_map, List.filter_filter]
    have hid : ((fun sp : scoredProduct => sp.Product) ∘
        (fun p => (⟨p, productScore lib qf p⟩ : scoredProduct))) = id := rfl
    rw [hid, List.map_id]
    have : products.filter (fun p => decide (8 ≤ productScore lib qf p)) =
        products.filter (fun a => ((fun sp : scoredProduct => decide (8 ≤ sp.Score)) ∘
          (fun p => (⟨p, productScore lib qf p⟩ : scoredProduct))) a &&
            decide (5 ≤ productScore lib qf a)) := by
      apply List.filter_congr
      intro p _
      simp only [Function.comp]
      by_cases h8 : 8 ≤ productScore lib qf p
      · have h5 : 5 ≤ productScore lib qf p := by omega
        simp [h8, h5]
      · simp [h8]
    rw [this]
  · rw [List.pairwise_map]
    have hs := sortScored_sorted ((products.filter
      (fun p => decide (5 ≤ productScore lib qf p))).map
        (fun p => (⟨p, productScore lib qf p⟩ : scoredProduct))) (by
          intro y hy
          rw [List.mem_map] at hy
          obtain ⟨p, hp, rfl⟩ := hy
          exact hprice p (List.mem_filter.1 hp).1)
    have hs2 := hs.filter (fun sp => decide (8 ≤ sp.Score))
    refine List.Pairwise.imp_of_mem ?_ hs2
    intro a b ha hb hab
    have ea := (sortScored_candidates_score lib qf _ a (List.mem_filter.1 ha).1).2
    have eb := (sortScored_candidates_score lib qf _ b (List.mem_filter.1 hb).1).2
    unfold rankedBefore
    unfold scoredBefore at hab
    rw [← ea, ← eb]
    exact hab

theorem searchUnrefined_shape (lib : GoLib) (qf : QueryForms) (products : List Product) :
    ∃ cands : List Product, cands.Sublist products ∧
      (searchUnrefined lib qf products = products.filter (directMatch lib qf) ∨
       searchUnrefined lib qf products =
        takeBest [] (sortScored (cands.map
          (fun p => (⟨p, productScore lib qf p⟩ : scoredProduct))))) := by
  rw [searchUnrefined_eq]
  split
  · exact ⟨_, List.filter_sublist products, Or.inr rfl⟩
  · exact ⟨[], List.nil_sublist _, Or.inl rfl⟩

/-! ## The fallback, the GPU filter and the result of `Search`: theorems -/

/-- C15 (as stated, refuted): for the query `red` no product of the catalog of
seven widgets meets a criterion of the exact/substring tier of the
specification, the first condition of the loop or the digit condition; yet the
result of `Search` has 7 products, and the score of each is below 8: the loop
adds them because a value of their specs contains the query. -/
theorem C15_counterexample :
    (∀ p ∈ sampleWidgets7,
      primaryMatch asciiLib (queryForms asciiLib "red".toList) p = false ∧
      digitMatch asciiLib (queryForms asciiLib "red".toList) p = false ∧
      productScore asciiLib (queryForms asciiLib "red".toList) p < 8) ∧
    (Search asciiLib sampleWidgets7 "red".toList).1 = sampleWidgets7 ∧
    sampleWidgets7.length = 7 := by
  decide

/-- C15 (amended): when the loop of `Search` adds no product, that is no
product of the catalog meets the first condition, the digit condition or has a
spec value containing the query, and no price is `NaN`: the result before the
GPU filter is the first 6 products of a ranking of all products of the catalog
with a score of at least 8, by non-increasing score and, for equal scores,
non-decreasing price.  So the result of `Search`, a sublist of it, has at most
6 products, all of the catalog with a score of at least 8, in that order. -/
theorem C15_fallback_ranking (lib : GoLib) (products : List Product) (query : Str)
    (hdirect : ∀ p ∈ products,
      directMatch lib (queryForms lib (toLower lib (trimSpace query))) p = false)
    (hprice : ∀ p ∈ products, p.Price ≠ F64.nan) :
    (∃ ranked : List Product,
      ranked.Perm (products.filter (fun p =>
        decide (8 ≤ productScore lib (queryForms lib (toLower lib (trimSpace query))) p))) ∧
      ranked.Pairwise (rankedBefore lib (queryForms lib (toLower lib (trimSpace query)))) ∧
      searchUnrefined lib (queryForms lib (toLower lib (trimSpace query))) products =
        ranked.take 6) ∧
    (Search lib products query).1.Sublist
      (searchUnrefined lib (queryForms lib (toLower lib (trimSpace query))) products) ∧
    (Search lib products query).1.length ≤ 6 ∧
    (∀ p ∈ (Search lib products query).1, p ∈ products ∧
      8 ≤ productScore lib (queryForms lib (toLower lib (trimSpace query))) p) ∧
    (Search lib products query).1.Pairwise
      (rankedBefore lib (queryForms lib (toLower lib (trimSpace query)))) := by
  have hu := searchUnrefined_fallback lib _ products hdirect
  have hr := fallback_ranked lib (queryForms lib (toLower lib (trimSpace query))) products hprice
  have hsub := Search_sublist_unrefined lib products query
  refine ⟨⟨_, hr.1, hr.2, hu⟩, hsub, ?_, ?_, ?_⟩
  · have h1 := hsub.length_le
    rw [hu, List.length_take] at h1
    omega
  · intro p hp
    have h1 := hsub.subset hp
    rw [hu] at h1
    have h2 := hr.1.subset (List.mem_of_mem_take h1)
    have h3 := List.mem_filter.1 h2
    exact ⟨h3.1, by simpa using h3.2⟩
  · refine List.Pairwise.sublist hsub ?_
    rw [hu]
    exact hr.2.sublist (List.take_sublist _ _)

/-- A use of C15 (amended): the query `geforce4091` meets no condition of the
loop for the two GeForce products, whose scores are both 12; the result is the
cheaper one, then the other. -/
theorem C15_fallback_ranking_witness :
    (Search asciiLib [sampleGeForce4090, sampleGeForce4095] "geforce4091".toList).1 =
      [sampleGeForce4095, sampleGeForce4090] ∧
    (Search asciiLib [sampleGeForce4090, sampleGeForce4095] "geforce4091".toList).1.length ≤ 6 ∧
    (Search asciiLib [sampleGeForce4090, sampleGeForce4095] "geforce4091".toList).1.Pairwise
      (rankedBefore asciiLib
        (queryForms asciiLib (toLower asciiLib (trimSpace "geforce4091".toList)))) :=
  have h := C15_fallback_ranking asciiLib [sampleGeForce4090, sampleGeForce4095]
    "geforce4091".toList (by decide) (by decide)
  ⟨by decide, h.2.2.1, h.2.2.2.2⟩

/-- C16: for a query that is not blank, the result of `Search` is the sublist of
the GPU products of the result before the GPU filter, in the same order, when
the query is GPU-like and that sublist is not empty, and the result before the
filter otherwise; the filter never makes a non-empty result empty. -/
theorem C16_gpu_refinement (lib : GoLib) (products : List Product) (query : Str)
    (hq : toLower lib (trimSpace query) ≠ []) :
    (Search lib products query).1 =
      (if isGPUQuery lib (toLower lib (trimSpace query)) = true ∧
          (searchUnrefined lib (queryForms lib (toLower lib (trimSpace query))) products).filter
            (isGPUProduct lib) ≠ []
       then
        (searchUnrefined lib (queryForms lib (toLower lib (trimSpace query))) products).filter
          (isGPUProduct lib)
       else searchUnrefined lib (queryForms lib (toLower lib (trimSpace query))) products) ∧
    (searchUnrefined lib (queryForms lib (toLower lib (trimSpace query))) products ≠ [] →
      (Search lib products query).1 ≠ []) := by
  have hemp : (toLower lib (trimSpace query)).isEmpty = false := by
    cases h : toLower lib (trimSpace query) with
    | nil => exact absurd h hq
    | cons a l => rfl
  have hg : (queryForms lib (toLower lib (trimSpace query))).gpuQuery =
      isGPUQuery lib (toLower lib (trimSpace query)) := rfl
  have key : (Search lib products query).1 =
      (if isGPUQuery lib (toLower lib (trimSpace query)) = true ∧
          (searchUnrefined lib (queryForms lib (toLower lib (trimSpace query))) products).filter
            (isGPUProduct lib) ≠ []
       then
        (searchUnrefined lib (queryForms lib (toLower lib (trimSpace query))) products).filter
          (isGPUProduct lib)
       else searchUnrefined lib (queryForms lib (toLower lib (trimSpace query))) products) := by
    simp only [Search, searchProducts, hemp, hg, gpuRefine]
    generalize searchUnrefined lib (queryForms lib (toLower lib (trimSpace query))) products = u
    by_cases hb : isGPUQuery lib (toLower lib (trimSpace query)) = true
    · by_cases hf : u.filter (isGPUProduct lib) = []
      · have h0 : ¬ 0 < (u.filter (isGPUProduct lib)).length := by rw [hf]; simp
        simp [hb, hf]
      · have hpos : 0 < (u.filter (isGPUProduct lib)).length := List.length_pos.2 hf
        have hu : 0 < u.length :=
          lt_of_lt_of_le hpos (List.length_filter_le _ _)
        simp [hb, hf, hpos, hu]
    · simp [hb]
  refine ⟨key, ?_⟩
  intro hne
  rw [key]
  split
  · rename_i hc
    exact hc.2
  · exact hne

/-- A use of C16: the query `500` is GPU-like; before the filter the result is
the storage product and the GPU product, after it the GPU product alone.  The
query `ssd` is not GPU-like and its result is not filtered. -/
theorem C16_gpu_refinement_witness :
    searchUnrefined asciiLib (queryForms asciiLib (toLower asciiLib (trimSpace "500".toList)))
      sampleCatalog = [sampleSSD, sampleGPU] ∧
    (Search asciiLib sampleCatalog "500".toList).1 = [sampleGPU] ∧
    (Search asciiLib sampleCatalog "ssd".toList).1 = [sampleSSD] :=
  ⟨by decide,
   ((C16_gpu_refinement asciiLib sampleCatalog "500".toList (by decide)).1).trans (by decide),
   ((C16_gpu_refinement asciiLib sampleCatalog "ssd".toList (by decide)).1).trans (by decide)⟩

/-- C17: for a catalog store, a map keyed by the identifier of the product, so
with distinct identifiers, and every query: every product `Search` returns is a
product of the catalog, and no identifier occurs twice in the result. -/
theorem C17_search_from_catalog_nodup (lib : GoLib) (products : List Product) (query : Str)
    (hids : (products.map (fun p => p.ID)).Nodup) :
    (∀ p ∈ (Search lib products query).1, p ∈ products) ∧
    ((Search lib products query).1.map (fun p => p.ID)).Nodup := by
  have hsub := Search_sublist_unrefined lib products query
  have hun : ∃ l : List Product,
      (searchUnrefined lib (queryForms lib (toLower lib (trimSpace query))) products).Sublist l ∧
      ∃ l2 : List Product, l.Perm l2 ∧ l2.Sublist products := by
    obtain ⟨cands, hc, h | h⟩ :=
      searchUnrefined_shape lib (queryForms lib (toLower lib (trimSpace query))) products
    · rw [h]
      exact ⟨_, List.filter_sublist products, _, List.Perm.refl _, List.Sublist.refl _⟩
    · rw [h, takeBest_eq, List.nil_append]
      refine ⟨(sortScored (cands.map (fun p => (⟨p,
          productScore lib (queryForms lib (toLower lib (trimSpace query))) p⟩ :
            scoredProduct)))).map (fun sp => sp.Product), ?_, cands, ?_, hc⟩
      · exact (((List.take_sublist _ _).trans (List.filter_sublist _)).map _)
      · refine ((sortScored_perm _).map _).trans ?_
        rw [List.map_map]
        have hid : ((fun sp : scoredProduct => sp.Product) ∘
            (fun p => (⟨p,
              productScore lib (queryForms lib (toLower lib (trimSpace query))) p⟩ :
                scoredProduct))) = id := rfl
        rw [hid, List.map_id]
  obtain ⟨l, h1, l2, h2, h3⟩ := hun
  constructor
  · intro p hp
    exact h3.subset (h2.subset (h1.subset (hsub.subset hp)))
  · have n2 : (l2.map (fun p => p.ID)).Nodup := hids.sublist (h3.map _)
    have n1 : (l.map (fun p => p.ID)).Nodup := ((h2.map _).nodup_iff).2 n2
    exact n1.sublist ((hsub.trans h1).map _)

/-- A use of C17: the identifiers of the sample catalog are distinct; the result
for `ssd` is the storage product, once. -/
theorem C17_search_from_catalog_nodup_witness :
    (Search asciiLib sampleCatalog "ssd".toList).1 = [sampleSSD] ∧
    (∀ p ∈ (Search asciiLib sampleCatalog "ssd".toList).1, p ∈ sampleCatalog) ∧
    ((Search asciiLib sampleCatalog "ssd".toList).1.map (fun p => p.ID)).Nodup :=
  ⟨by decide, C17_search_from_catalog_nodup asciiLib sampleCatalog "ssd".toList (by decide)⟩

/-- C20 (as stated, refuted): with a catalog of the only product
`RTX 4090 24GB - $1800`, the result of `Search` for `rtx 5090` is not empty. -/
theorem C20_counterexample :
    sampleRTX4090.Name = "RTX 4090 24GB - $1800".toList ∧
    (Search asciiLib [sampleRTX4090] "rtx 5090".toList).1 ≠ [] := by
  decide

/-- C20 (amended): with a catalog of one product named `RTX 4090 24GB - $1800`,
whatever its other fields, `Search` for `rtx 5090` returns that product: the
tokens of the query are `rtx` and `5090`, and the lower-cased name contains the
token `rtx`, which is the token test of the first condition of the loop. -/
theorem C20_token_match (p : Product) :
    (queryForms asciiLib (toLower asciiLib (trimSpace "rtx 5090".toList))).tokens =
      ["rtx".toList, "5090".toList] ∧
    contains (toLower asciiLib "RTX 4090 24GB - $1800".toList) "rtx".toList = true ∧
    primaryMatch asciiLib (queryForms asciiLib (toLower asciiLib (trimSpace "rtx 5090".toList)))
      { p with Name := "RTX 4090 24GB - $1800".toList } = true ∧
    Search asciiLib [{ p with Name := "RTX 4090 24GB - $1800".toList }] "rtx 5090".toList =
      ([{ p with Name := "RTX 4090 24GB - $1800".toList }], none) := by
  have ht : (queryForms asciiLib (toLower asciiLib (trimSpace "rtx 5090".toList))).tokens =
      ["rtx".toList, "5090".toList] := by decide
  have hc : contains (toLower asciiLib "RTX 4090 24GB - $1800".toList) "rtx".toList = true := by
    decide
  have hp : primaryMatch asciiLib
      (queryForms asciiLib (toLower asciiLib (trimSpace "rtx 5090".toList)))
      { p with Name := "RTX 4090 24GB - $1800".toList } = true := by
    unfold primaryMatch
    simp only [ht, matchTokens, List.length_cons, List.length_nil, List.any_cons, hc,
      Bool.true_or, Bool.or_true]
    simp
  have hd : directMatch asciiLib
      (queryForms asciiLib (toLower asciiLib (trimSpace "rtx 5090".toList)))
      { p with Name := "RTX 4090 24GB - $1800".toList } = true := by
    simp only [directMatch, hp, Bool.true_or]
  have hg : isGPUProduct asciiLib { p with Name := "RTX 4090 24GB - $1800".toList } = true := by
    unfold isGPUProduct
    simp only [hc, Bool.true_or, Bool.or_true, if_true]
    split <;> rfl
  have hq : (toLower asciiLib (trimSpace "rtx 5090".toList)).isEmpty = false := by decide
  have hfil : List.filter
      (directMatch asciiLib (queryForms asciiLib (toLower asciiLib (trimSpace "rtx 5090".toList))))
      [{ p with Name := "RTX 4090 24GB - $1800".toList }] =
      [{ p with Name := "RTX 4090 24GB - $1800".toList }] := by
    simp only [List.filter_cons, hd, if_true, List.filter_nil]
  have hfil2 : List.filter (isGPUProduct asciiLib)
      [{ p with Name := "RTX 4090 24GB - $1800".toList }] =
      [{ p with Name := "RTX 4090 24GB - $1800".toList }] := by
    simp only [List.filter_cons, hg, if_true, List.filter_nil]
  have hgr : ∀ b, gpuRefine asciiLib b [{ p with Name := "RTX 4090 24GB - $1800".toList }] =
      [{ p with Name := "RTX 4090 24GB - $1800".toList }] := by
    intro b
    unfold gpuRefine
    rw [hfil2]
    split
    · simp only
      split <;> rfl
    · rfl
  refine ⟨ht, hc, hp, ?_⟩
  simp only [Search, searchProducts, hq, Bool.false_eq_true, if_false]
  rw [searchUnrefined_eq, hfil, if_neg (List.cons_ne_nil _ _), hgr]

/-! ## Lemmas on `ReplaceAll` and on `parsePrice` -/

theorem parsePrice_eq (lib : GoLib) (s : Str) :
    parsePrice lib s =
      if (toLower lib (trimSpace s)).isEmpty then none
      else lib.parseFloat (stripPriceFormat (toLower lib (trimSpace s))) := rfl

/-- No occurrence of `old` begins in a string that shares no character with
it. -/
theorem isPrefixOf_append_disjoint (old x d y : Str) (hd : d ≠ [])
    (hdis : ∀ c ∈ d, c ∉ old) :
    old.isPrefixOf (x ++ (d ++ y)) = old.isPrefixOf x := by
  induction x generalizing old with
  | nil =>
    cases old with
    | nil => simp
    | cons o os =>
      cases d with
      | nil => exact absurd rfl hd
      | cons c d' =>
        have hne : ¬ o = c := fun e => hdis c (List.mem_cons_self _ _) (e ▸ List.mem_cons_self _ _)
        simp [List.isPrefixOf, hne]
  | cons a t ih =>
    cases old with
    | nil => simp
    | cons o os =>
      have := ih os (fun c hc hm => hdis c hc (List.mem_cons_of_mem _ hm))
      rw [List.cons_append]
      show (o == a && os.isPrefixOf (t ++ (d ++ y))) = (o == a && os.isPrefixOf t)
      rw [this]

theorem replaceAllAux_disjoint_left (old d y : Str) (hdis : ∀ c ∈ d, c ∉ old)
    (hold : old ≠ []) :
    replaceAllAux old [] 0 (d ++ y) = d ++ replaceAllAux old [] 0 y := by
  induction d with
  | nil => rfl
  | cons c t ih =>
    have ht : ∀ c ∈ t, c ∉ old := fun x hx => hdis x (List.mem_cons_of_mem _ hx)
    have hp : old.isPrefixOf (c :: (t ++ y)) = false := by
      cases old with
      | nil => exact absurd rfl hold
      | cons o os =>
        have hne : ¬ o = c := fun e => hdis c (List.mem_cons_self _ _) (e ▸ List.mem_cons_self _ _)
        simp [List.isPrefixOf, hne]
    rw [List.cons_append, replaceAllAux, hp, ih ht]
    simp

theorem isPrefixOf_length_le (old x : Str) (h : old.isPrefixOf x = true) :
    old.length ≤ x.length :=
  (List.isPrefixOf_iff_prefix.1 h).length_le

theorem replaceAllAux_disjoint (old d y : Str) (hd : d ≠ []) (hdis : ∀ c ∈ d, c ∉ old)
    (hold : old ≠ []) (x : Str) :
    ∀ k, k ≤ x.length →
      replaceAllAux old [] k (x ++ (d ++ y)) =
        replaceAllAux old [] k x ++ (d ++ replaceAllAux old [] 0 y) := by
  induction x with
  | nil =>
    intro k hk
    have : k = 0 := by simpa using hk
    subst this
    rw [List.nil_append, replaceAllAux_disjoint_left old d y hdis hold]
    cases d with
    | nil => exact absurd rfl hd
    | cons c t => simp [replaceAllAux]
  | cons a t ih =>
    intro k hk
    cases k with
    | succ k =>
      rw [List.cons_append, replaceAllAux, replaceAllAux]
      exact ih k (by simpa using hk)
    | zero =>
      have hp := isPrefixOf_append_disjoint old (a :: t) d y hd hdis
      rw [List.cons_append] at hp
      rw [List.cons_append, replaceAllAux, replaceAllAux, hp]
      by_cases hm : old.isPrefixOf (a :: t) = true
      · have hl := isPrefixOf_length_le old (a :: t) hm
        rw [List.length_cons] at hl
        rw [if_pos hm, if_pos hm, ih (old.length - 1) (by omega)]
        rfl
      · rw [if_neg hm, if_neg hm, ih 0 (Nat.zero_le _)]
        rfl

theorem replaceAll_disjoint (old x d y : Str) (hd : d ≠ []) (hdis : ∀ c ∈ d, c ∉ old)
    (hold : old ≠ []) :
    replaceAll (x ++ (d ++ y)) old [] = replaceAll x old [] ++ (d ++ replaceAll y old []) :=
  replaceAllAux_disjoint old d y hd hdis hold x 0 (Nat.zero_le _)

theorem replaceAll_single (c : Char) (s : Str) :
    replaceAll s [c] [] = s.filter (fun a => !(a == c)) := by
  unfold replaceAll
  induction s with
  | nil => rfl
  | cons a t ih =>
    rw [replaceAllAux]
    by_cases h : c = a
    · subst h
      simp [List.isPrefixOf, ih]
    · have h2 : ¬ a = c := fun e => h e.symm
      simp [List.isPrefixOf, h, h2, ih]

theorem foldl_replaceAll_disjoint (rs : List String) (d : Str) (hd : d ≠ [])
    (hdis : ∀ r ∈ rs, r.toList ≠ [] ∧ ∀ c ∈ d, c ∉ r.toList) :
    ∀ x y : Str,
      rs.foldl (fun acc r => replaceAll acc r.toList []) (x ++ (d ++ y)) =
        rs.foldl (fun acc r => replaceAll acc r.toList []) x ++
          (d ++ rs.foldl (fun acc r => replaceAll acc r.toList []) y) := by
  induction rs with
  | nil => intro x y; rfl
  | cons r t ih =>
    intro x y
    have hr := hdis r (List.mem_cons_self _ _)
    rw [List.foldl_cons, List.foldl_cons, List.foldl_cons,
      replaceAll_disjoint r.toList x d y hd hr.2 hr.1]
    exact ih (fun r' hr' => hdis r' (List.mem_cons_of_mem _ hr')) _ _

theorem priceRemoved_markers :
    ∀ m ∈ priceRemoved, stripPriceFormat m.toList = [] := by
  decide

theorem priceRemoved_no_digit :
    ∀ r ∈ priceRemoved.drop 2, r.toList ≠ [] ∧
      ∀ c ∈ r.toList, isDigitRune c = false ∧ c ≠ '.' := by
  decide

theorem stripPriceFormat_eq (s : Str) :
    stripPriceFormat s =
      (priceRemoved.drop 2).foldl (fun acc r => replaceAll acc r.toList [])
        (s.filter (fun a => !(a == ',') && !(a == ' '))) := by
  have hp : priceRemoved = "," :: " " :: priceRemoved.drop 2 := by decide
  have e1 : ",".toList = [','] := rfl
  have e2 : " ".toList = [' '] := rfl
  unfold stripPriceFormat
  generalize priceRemoved.drop 2 = rest at hp ⊢
  rw [hp, List.foldl_cons, List.foldl_cons, e1, e2, replaceAll_single, replaceAll_single,
    List.filter_filter]
  congr 1
  apply List.filter_congr
  intro a _
  exact Bool.and_comm _ _

/-- The `ReplaceAll` calls of `parsePrice` on a numeral between two strings. -/
theorem stripPriceFormat_numeral (u body v : Str)
    (hbody : ∀ c ∈ body, isDigitRune c = true ∨ c = '.' ∨ c = ',' ∨ c = ' ')
    (hne : body.filter (fun a => !(a == ',') && !(a == ' ')) ≠ []) :
    stripPriceFormat (u ++ body ++ v) =
      stripPriceFormat u ++ (body.filter (fun a => !(a == ',') && !(a == ' ')) ++
        stripPriceFormat v) := by
  rw [stripPriceFormat_eq, stripPriceFormat_eq u, stripPriceFormat_eq v, List.append_assoc,
    List.filter_append, List.filter_append]
  apply foldl_replaceAll_disjoint _ _ hne
  intro r hr
  have h1 := priceRemoved_no_digit r hr
  refine ⟨h1.1, ?_⟩
  intro c hc hcr
  have h2 := h1.2 c hcr
  have h3 := List.mem_filter.1 hc
  have h4 : c ≠ ',' ∧ c ≠ ' ' := by simpa using h3.2
  rcases hbody c h3.1 with h | h | h | h
  · rw [h2.1] at h; exact absurd h (by simp)
  · exact h2.2 h
  · exact h4.1 h
  · exact h4.2 h

/-! ## Catalog ingestion, headers and prices: theorems -/

/-- C18: the sheet `[["Name","Price"],["Widget","10"]]` is treated as a sheet
with a header and the sheet `[["Widget","10"]]` as a sheet without one; the
ingestion of either returns exactly one product, with the name `Widget`, the
price 10 and the category `Boshqa`. -/
theorem C18_header_detection (ids : Nat → Str) (now : Nat) :
    detectHeader asciiLib sampleSheetHeader = true ∧
    detectHeader asciiLib sampleSheetNoHeader = false ∧
    parseExcelFile asciiLib ids now (ExcelFile.ofRows sampleSheetHeader) =
      Except.ok [{ ID := ids 0, Name := "Widget".toList, Category := "Boshqa".toList,
                   Price := F64.fin 10, Description := [], Stock := 0, Specs := [],
                   CreatedAt := now, UpdatedAt := now }] ∧
    parseExcelFile asciiLib ids now (ExcelFile.ofRows sampleSheetNoHeader) =
      Except.ok [{ ID := ids 0, Name := "Widget".toList, Category := "Boshqa".toList,
                   Price := F64.fin 10, Description := [], Stock := 0, Specs := [],
                   CreatedAt := now, UpdatedAt := now }] :=
  ⟨by decide, by decide, rfl, rfl⟩

/-- C19: `parsePrice` ignores formatting.  Let the price cell, trimmed and in
lower case, be a numeral part between two strings, each empty or a marker of
the removed set; the numeral part is made of digits, points, commas and blanks,
and `d` is what is left of it without the commas and blanks.  Then `parsePrice`
returns what `strconv.ParseFloat` returns for `d`.  With integer numerals:
`150`, `150$` and `150 so'm` give 150, and `1,500` and `1 500` give 1500. -/
theorem C19_parsePrice_formatting (lib : GoLib) (s u body v d : Str)
    (hs : toLower lib (trimSpace s) = u ++ body ++ v)
    (hbody : ∀ c ∈ body, isDigitRune c = true ∨ c = '.' ∨ c = ',' ∨ c = ' ')
    (hd : body.filter (fun a => !(a == ',') && !(a == ' ')) = d)
    (hne : d ≠ [])
    (hu : u = [] ∨ ∃ m ∈ priceRemoved, u = m.toList)
    (hv : v = [] ∨ ∃ m ∈ priceRemoved, v = m.toList) :
    parsePrice lib s = lib.parseFloat d ∧
    parsePrice asciiLib "150".toList = some (F64.fin 150) ∧
    parsePrice asciiLib "150$".toList = some (F64.fin 150) ∧
    parsePrice asciiLib "150 so'm".toList = some (F64.fin 150) ∧
    parsePrice asciiLib "1,500".toList = some (F64.fin 1500) ∧
    parsePrice asciiLib "1 500".toList = some (F64.fin 1500) := by
  refine ⟨?_, by decide, by decide, by decide, by decide, by decide⟩
  have hstrip : ∀ w : Str, (w = [] ∨ ∃ m ∈ priceRemoved, w = m.toList) →
      stripPriceFormat w = [] := by
    intro w hw
    rcases hw with rfl | ⟨m, hm, rfl⟩
    · rfl
    · exact priceRemoved_markers m hm
  have hbne : body ≠ [] := by
    intro hb
    rw [hb] at hd
    exact hne hd.symm
  have hemp : (toLower lib (trimSpace s)).isEmpty = false := by
    rw [hs]
    cases u with
    | cons a t => rfl
    | nil =>
      cases body with
      | nil => exact absurd rfl hbne
      | cons a t => rfl
  rw [parsePrice_eq, hemp, hs, stripPriceFormat_numeral u body v hbody (by rw [hd]; exact hne),
    hstrip u hu, hstrip v hv, hd]
  simp

/-- A use of C19: the cell ` 1,500 SO'M ` is read as 1500. -/
theorem C19_parsePrice_formatting_witness :
    parsePrice asciiLib " 1,500 SO'M ".toList = some (F64.fin 1500) :=
  ((C19_parsePrice_formatting asciiLib " 1,500 SO'M ".toList [] "1,500 ".toList "so'm".toList
    "1500".toList (by decide) (by decide) (by decide) (by decide) (Or.inl rfl)
    (Or.inr ⟨"so'm", by decide, rfl⟩)).1).trans (by decide)

/-! ## The reminder of the config command: lemmas -/

theorem RemindedKept.of_reminded_eq {h h' : BotHandler} (e : h'.configReminded = h.configReminded) :
    RemindedKept h h' :=
  fun c hc => by rw [e]; exact hc

theorem RemindedKept.branch {h : BotHandler} {c : Prop} [Decidable c] {a b : Out}
    (ha : RemindedKept h a.1) (hb : RemindedKept h b.1) :
    RemindedKept h (if c then a else b).1 := by
  split <;> assumption

theorem remindConfigCommand_kept (h : BotHandler) (chatID : Int) :
    RemindedKept h (remindConfigCommand h chatID).1 := by
  intro c hc
  simp only [remindConfigCommand, markConfigReminded, setKey]
  split
  · rfl
  · exact hc

theorem handleGenerativeBackend_reminded (lib : GoLib) (env : Env) (h : BotHandler)
    (userID : Int) (username text : Str) (chatID : Int) :
    (handleGenerativeBackend lib env h userID username text chatID).1.configReminded =
      h.configReminded := by
  unfold handleGenerativeBackend maybeAskToBuy
  simp only
  split
  · rfl
  · split <;> split <;> rfl

theorem handleTextMessage_kept (lib : GoLib) (env : Env) (h : BotHandler) (userID : Int)
    (username text : Str) (chatID : Int) (contact : Option Str)
    (location : Option (F64 × F64)) :
    RemindedKept h
      (handleTextMessage lib env h userID username text chatID contact location).1 := by
  rw [handleTextMessage_eq_handler]
  cases firstApplicable lib h userID chatID text <;> simp only [TextRoute.handler]
  · exact RemindedKept.of_reminded_eq
      (handleUserMessageForAdmin_frame env h userID username text chatID).2.2.2.2.1
  · exact RemindedKept.of_reminded_eq (handleConfigFlow_frame env h userID username text chatID).2.2.2.1
  · exact RemindedKept.of_reminded_eq (handleShopMessage_frame env h userID username text chatID).2.2.2.1
  · exact RemindedKept.of_reminded_eq
      (handleOrderFlow_frame env h userID text chatID contact location).2.2.1
  · exact RemindedKept.of_reminded_eq (handleChangeRequest_frame env h userID username text chatID).2.2.1
  · exact remindConfigCommand_kept h chatID
  · exact RemindedKept.of_reminded_eq
      (handleGenerativeBackend_reminded lib env h userID username text chatID)

theorem handleMessage_kept (lib : GoLib) (env : Env) (h : BotHandler) (m : Message) :
    RemindedKept h (handleMessage lib env h m).1 := by
  unfold handleMessage
  dsimp only
  apply RemindedKept.branch
  · unfold handleGroupMessage getGroupThread
    split
    · exact RemindedKept.of_reminded_eq rfl
    · split
      · exact RemindedKept.of_reminded_eq rfl
      · dsimp only
        apply RemindedKept.branch <;> exact RemindedKept.of_reminded_eq rfl
  · apply RemindedKept.branch
    · exact RemindedKept.of_reminded_eq rfl
    · apply RemindedKept.branch
      · unfold handlePasswordInput
        dsimp only
        split <;> exact RemindedKept.of_reminded_eq rfl
      · split
        · unfold handleCommand
          apply RemindedKept.branch
          · unfold handleAdminCommand
            apply RemindedKept.branch <;> exact RemindedKept.of_reminded_eq rfl
          · apply RemindedKept.branch
            · exact RemindedKept.of_reminded_eq rfl
            · apply RemindedKept.branch
              · exact RemindedKept.of_reminded_eq rfl
              · apply RemindedKept.branch <;> exact RemindedKept.of_reminded_eq rfl
        · apply RemindedKept.branch
          · exact handleTextMessage_kept lib env h _ _ _ _ _ _
          · exact RemindedKept.of_reminded_eq rfl

theorem popFeedback_reminded (h : BotHandler) (key : Int) :
    (popFeedback h key).1.configReminded = h.configReminded := by
  unfold popFeedback
  split <;> rfl

theorem popPendingApproval_reminded (h : BotHandler) (key : Int) :
    (popPendingApproval h key).1.configReminded = h.configReminded := by
  unfold popPendingApproval
  split <;> rfl

theorem handleChangeButton_reminded (h : BotHandler) (userID chatID : Int)
    (component question : String) :
    (handleChangeButton h userID chatID component question).1.configReminded =
      h.configReminded := by
  unfold handleChangeButton getFeedback
  simp only
  split <;> rfl

theorem handleOrderButton_reminded (h : BotHandler) (userID chatID : Int) (notFound : String)
    (staffNotice : Option String) :
    (handleOrderButton h userID chatID notFound staffNotice).1.configReminded =
      h.configReminded := by
  unfold handleOrderButton popPendingApproval
  cases h.pendingApprove userID <;> rfl

theorem handleDeliveryChoice_reminded (env : Env) (h : BotHandler) (userID : Int) (choice : Str)
    (chatID : Int) :
    (handleDeliveryChoice env h userID choice chatID).1.configReminded = h.configReminded := by
  unfold handleDeliveryChoice
  split
  · rfl
  · simp only
    split <;> rfl

theorem handleDeliveryConfirm_reminded (env : Env) (h : BotHandler) (userID : Int)
    (agree : Bool) (chatID : Int) :
    (handleDeliveryConfirm env h userID agree chatID).1.configReminded = h.configReminded := by
  unfold handleDeliveryConfirm
  split
  · rfl
  · split <;> rfl

theorem handleFeedbackYes_reminded (env : Env) (h : BotHandler) (userID chatID : Int) :
    (handleFeedbackYes env h userID chatID).1.configReminded = h.configReminded := by
  unfold handleFeedbackYes popFeedback
  cases h.feedbacks userID with
  | none => rfl
  | some info =>
    simp only
    split
    · split <;> rfl
    · rfl

theorem handleAdminApprovalCallback_reminded (env : Env) (h : BotHandler) (reqID : Int)
    (allowOrder : Bool) :
    (handleAdminApprovalCallback env h reqID allowOrder).1.1.configReminded =
      h.configReminded := by
  unfold handleAdminApprovalCallback popAdminApproval sendAdminReplyToUser
  cases h.adminApprovals reqID with
  | none => rfl
  | some req =>
    simp only
    split <;> rfl

theorem handleCallbackSwitch_kept (env : Env) (h : BotHandler) (userID : Int) (data : Str)
    (chatID : Int) :
    RemindedKept h (handleCallbackSwitch env h userID data chatID).1 := by
  unfold handleCallbackSwitch
  repeat' apply RemindedKept.branch
  all_goals first
    | exact RemindedKept.of_reminded_eq rfl
    | exact RemindedKept.of_reminded_eq (handleFeedbackYes_reminded env h _ _)
    | exact RemindedKept.of_reminded_eq (popFeedback_reminded h _)
    | exact RemindedKept.of_reminded_eq (popPendingApproval_reminded h _)
    | exact RemindedKept.of_reminded_eq (handleChangeButton_reminded h _ _ _ _)
    | exact RemindedKept.of_reminded_eq (handleOrderButton_reminded h _ _ _ _)
    | exact RemindedKept.of_reminded_eq (handleDeliveryChoice_reminded env h _ _ _)
    | exact RemindedKept.of_reminded_eq (handleDeliveryConfirm_reminded env h _ _ _)

theorem handleCallback_kept (env : Env) (h : BotHandler) (cq : CallbackQuery) :
    RemindedKept h (handleCallback env h cq).1 := by
  unfold handleCallback
  apply RemindedKept.branch
  · dsimp only
    split
    · exact RemindedKept.of_reminded_eq rfl
    · apply RemindedKept.branch <;>
        exact RemindedKept.of_reminded_eq (handleAdminApprovalCallback_reminded env h _ _)
  · apply RemindedKept.branch
    · exact RemindedKept.of_reminded_eq rfl
    · exact handleCallbackSwitch_kept env h _ _ _

/-- No update removes the reminder mark of a chat. -/
theorem handleUpdate_kept (lib : GoLib) (env : Env) (h : BotHandler) (u : Update) :
    RemindedKept h (handleUpdate lib env h u).1 := by
  cases u with
  | message m => exact handleMessage_kept lib env h m
  | callback cq => exact handleCallback_kept env h cq

theorem runUpdates_kept (lib : GoLib) (updates : List (Env × Update)) :
    ∀ h : BotHandler, RemindedKept h (runUpdates lib h updates) := by
  induction updates with
  | nil => intro h c hc; exact hc
  | cons eu rest ih =>
    intro h c hc
    obtain ⟨env, u⟩ := eu
    rw [runUpdates]
    exact ih _ c (handleUpdate_kept lib env h u c hc)

theorem handleGenerativeBackend_calls (lib : GoLib) (env : Env) (h : BotHandler)
    (userID : Int) (username text : Str) (chatID : Int) :
    Effect.processMessage userID username text ∈
      (handleGenerativeBackend lib env h userID username text chatID).2 := by
  unfold handleGenerativeBackend
  simp only
  split
  · simp
  · split <;> simp

/-! ## The reminder of the config command: theorem -/

/-- C21: a text with the intent of a PC build, of a user with no active flow.
In a chat not yet reminded the text marks the chat as reminded and is answered
with the redirect to `/configuratsiya` alone, with no call of the generative
backend.  In a chat already reminded the text is not redirected: it is passed
to the generative backend, and the mark stays.  No update ever removes the
mark of a chat, so every later text of this kind in the chat is passed on. -/
theorem C21_reminder_once (lib : GoLib) (env : Env) (h : BotHandler) (userID : Int)
    (username text : Str) (chatID : Int) (contact : Option Str)
    (location : Option (F64 × F64)) (hflow : noActiveFlow h userID)
    (hcfg : isConfigRequest lib text = true) :
    (h.configReminded chatID = false →
      handleTextMessage lib env h userID username text chatID contact location =
        (markConfigReminded h chatID,
          [Effect.sendMessage chatID
            (msg "PC yig'ishda yordam berish uchun /configuratsiya")]) ∧
      (handleTextMessage lib env h userID username text chatID contact
        location).1.configReminded chatID = true ∧
      (∀ e ∈ (handleTextMessage lib env h userID username text chatID contact location).2,
        e.isProcessMessage = false)) ∧
    (h.configReminded chatID = true →
      handleTextMessage lib env h userID username text chatID contact location =
        handleGenerativeBackend lib env h userID username text chatID ∧
      Effect.processMessage userID username text ∈
        (handleTextMessage lib env h userID username text chatID contact location).2 ∧
      (handleTextMessage lib env h userID username text chatID contact
        location).1.configReminded = h.configReminded) ∧
    (∀ updates : List (Env × Update), h.configReminded chatID = true →
      (runUpdates lib h updates).configReminded chatID = true) := by
  obtain ⟨ha, hc, hs, ho, hp⟩ := hflow
  have hroute : handleTextMessage lib env h userID username text chatID contact location =
      if h.configReminded chatID = false then remindConfigCommand h chatID
      else handleGenerativeBackend lib env h userID username text chatID := by
    unfold handleTextMessage handleTextAfterShop
    simp only [isAwaitingAdminMessage, ha, hasConfigSession, hc, isInShopMode, hs,
      hasOrderSession, ho, hasPendingChange, hp, hcfg, wasConfigReminded, Option.isSome_none,
      Bool.false_eq_true, if_false, true_and, Bool.not_eq_true']
  refine ⟨?_, ?_, ?_⟩
  · intro hr
    rw [hroute, if_pos hr]
    refine ⟨rfl, ?_, ?_⟩
    · simp [remindConfigCommand, markConfigReminded, setKey]
    · intro e he
      simp only [remindConfigCommand, List.mem_singleton] at he
      subst he
      rfl
  · intro hr
    have hr2 : ¬ h.configReminded chatID = false := by rw [hr]; simp
    rw [hroute, if_neg hr2]
    exact ⟨rfl, handleGenerativeBackend_calls lib env h userID username text chatID,
      handleGenerativeBackend_reminded lib env h userID username text chatID⟩
  · intro updates hr
    exact runUpdates_kept lib updates h chatID hr

/-- A use of C21: on a new handler the text `gaming pc kerak 800$` of user 1 is
answered with the redirect and marks the chat; the next text of this kind is
passed to the generative backend. -/
theorem C21_reminder_once_witness :
    isConfigRequest asciiLib "gaming pc kerak 800$".toList = true ∧
    handleTextMessage asciiLib sampleEnv (NewBotHandler 0 0) 1 "user".toList
        "gaming pc kerak 800$".toList 1 none none =
      (markConfigReminded (NewBotHandler 0 0) 1,
        [Effect.sendMessage 1 (msg "PC yig'ishda yordam berish uchun /configuratsiya")]) ∧
    Effect.processMessage 1 "user".toList "pc yig'ib bering".toList ∈
      (handleTextMessage asciiLib sampleEnv (markConfigReminded (NewBotHandler 0 0) 1) 1
        "user".toList "pc yig'ib bering".toList 1 none none).2 ∧
    (runUpdates asciiLib (NewBotHandler 0 0) sampleTwoConfigTexts).configReminded 1 = true :=
  ⟨by decide,
   ((C21_reminder_once asciiLib sampleEnv (NewBotHandler 0 0) 1 "user".toList
      "gaming pc kerak 800$".toList 1 none none ⟨rfl, rfl, rfl, rfl, rfl⟩ (by decide)).1 rfl).1,
   ((C21_reminder_once asciiLib sampleEnv (markConfigReminded (NewBotHandler 0 0) 1) 1
      "user".toList "pc yig'ib bering".toList 1 none none ⟨rfl, rfl, rfl, rfl, rfl⟩
      (by decide)).2.1 (by decide)).2.1,
   by decide⟩

/-! ## Lemmas on the products of the row loops -/

/-- The price, the stock and the specs of the product of a table row. -/
theorem parseTableRow_some (lib : GoLib) (plan : SheetPlan) (id : Str) (now : Nat)
    (row : List Str) (p : Product) (h : parseTableRow lib plan id now row = some p) :
    parsePrice lib (trimSpace (cell row plan.priceCol)) = some p.Price ∧
    p.Price.isZero = false ∧
    p.Stock =
      (match plan.columnMap.get "stock".toList with
       | some c =>
         if c < row.length then
           (if !(trimSpace (cell row c)).isEmpty then
             (match parsePrice lib (trimSpace (cell row c)) with
              | some st => st.toInt
              | none => 0)
            else 0)
         else 0
       | none => 0) ∧
    p.Specs =
      (if plan.hasHeader then
        headerSpecs plan
          ([plan.nameCol, plan.priceCol] ++ (plan.columnMap.get "category".toList).toList ++
            (plan.columnMap.get "description".toList).toList ++
            (plan.columnMap.get "stock".toList).toList) row
       else headerlessSpecs row) := by
  unfold parseTableRow at h
  split at h
  · cases h
  · split at h
    · cases h
    · simp only at h
      split at h
      · cases h
      · split at h
        · cases h
        · rename_i price hpp
          split at h
          · cases h
          · rename_i hz
            split at h
            · cases h
            · cases h
              exact ⟨hpp, by simpa using hz, rfl, rfl⟩

/-- The product of a column pair: its price, stock and specs. -/
theorem parsePair_some (lib : GoLib) (id : Str) (now : Nat) (nameCell priceCell : Str)
    (p : Product) (h : parsePair lib id now nameCell priceCell = some p) :
    parsePrice lib (trimSpace priceCell) = some p.Price ∧ p.Price.isZero = false ∧
    p.Stock = 0 ∧ p.Specs = [] := by
  unfold parsePair at h
  simp only at h
  split at h
  · cases h
  · split at h
    · cases h
    · rename_i price hpp
      split at h
      · cases h
      · rename_i hz
        split at h
        · cases h
        · cases h
          exact ⟨hpp, by simpa using hz, rfl, rfl⟩

theorem mem_parsePairs (lib : GoLib) (ids : Nat → Str) (now : Nat) (p : Product) :
    ∀ (cells : List Str) (acc : List Product), p ∈ parsePairs lib ids now cells acc →
      p ∈ acc ∨ ∃ id k, 2 * k + 1 < cells.length ∧
        parsePair lib id now (cells.getD (2 * k) []) (cells.getD (2 * k + 1) []) = some p
  | [], acc, h => by
    rw [parsePairs] at h
    · exact Or.inl h
    · intro a b rest hc
      cases hc
  | [_], acc, h => by
    rw [parsePairs] at h
    · exact Or.inl h
    · intro a b rest hc
      cases hc
  | nameCell :: priceCell :: rest, acc, h => by
    have hstep : ∀ acc2, p ∈ parsePairs lib ids now rest acc2 →
        p ∈ acc2 ∨ ∃ id k, 2 * k + 1 < (nameCell :: priceCell :: rest).length ∧
          parsePair lib id now ((nameCell :: priceCell :: rest).getD (2 * k) [])
            ((nameCell :: priceCell :: rest).getD (2 * k + 1) []) = some p := by
      intro acc2 h2
      rcases mem_parsePairs lib ids now p rest acc2 h2 with h3 | ⟨id, k, hk, hp⟩
      · exact Or.inl h3
      · refine Or.inr ⟨id, k + 1, ?_, ?_⟩
        · simp only [List.length_cons]
          omega
        · have e1 : 2 * (k + 1) = 2 * k + 1 + 1 := by omega
          rw [e1, List.getD_cons_succ, List.getD_cons_succ, List.getD_cons_succ,
            List.getD_cons_succ]
          exact hp
    rw [parsePairs] at h
    split at h
    · rename_i product hp
      rcases hstep _ h with h1 | h1
      · rcases List.mem_append.1 h1 with h2 | h2
        · exact Or.inl h2
        · rw [List.mem_singleton] at h2
          subst h2
          exact Or.inr ⟨_, 0, by simp, hp⟩
      · exact Or.inr h1
    · exact hstep _ h

theorem mem_parseTableRows (lib : GoLib) (plan : SheetPlan) (ids : Nat → Str) (now : Nat)
    (p : Product) (dataRows : Sheet) :
    ∀ acc : List Product,
      p ∈ dataRows.foldl
        (fun products row =>
          match parseTableRow lib plan (ids products.length) now row with
          | some product => products ++ [product]
          | none => products) acc →
      p ∈ acc ∨ ∃ id row, row ∈ dataRows ∧ parseTableRow lib plan id now row = some p := by
  induction dataRows with
  | nil => intro acc h; exact Or.inl h
  | cons row t ih =>
    intro acc h
    rw [List.foldl_cons] at h
    rcases ih _ h with h1 | ⟨id, r, hr, hp⟩
    · cases hrow : parseTableRow lib plan (ids acc.length) now row with
      | none =>
        rw [hrow] at h1
        exact Or.inl h1
      | some product =>
        rw [hrow] at h1
        rcases List.mem_append.1 h1 with h2 | h2
        · exact Or.inl h2
        · rw [List.mem_singleton] at h2
          subst h2
          exact Or.inr ⟨_, row, List.mem_cons_self _ _, hrow⟩
    · exact Or.inr ⟨id, r, List.mem_cons_of_mem _ hr, hp⟩

theorem mem_parseSideBySideRows (lib : GoLib) (ids : Nat → Str) (now : Nat)
    (p : Product) (dataRows : Sheet) :
    ∀ acc : List Product,
      p ∈ dataRows.foldl
        (fun products row =>
          if row.length = 0 || isEmptyRow row then products
          else parsePairs lib ids now row products) acc →
      p ∈ acc ∨ ∃ id row k, row ∈ dataRows ∧ 2 * k + 1 < row.length ∧
        parsePair lib id now (row.getD (2 * k) []) (row.getD (2 * k + 1) []) = some p := by
  induction dataRows with
  | nil => intro acc h; exact Or.inl h
  | cons row t ih =>
    intro acc h
    rw [List.foldl_cons] at h
    rcases ih _ h with h1 | ⟨id, r, k, hr, hk, hp⟩
    · split at h1
      · exact Or.inl h1
      · rcases mem_parsePairs lib ids now p row acc h1 with h2 | ⟨id, k, hk, hp⟩
        · exact Or.inl h2
        · exact Or.inr ⟨id, row, k, List.mem_cons_self _ _, hk, hp⟩
    · exact Or.inr ⟨id, r, k, List.mem_cons_of_mem _ hr, hk, hp⟩

/-- Where a product of the ingestion of a row grid comes from: a table row, under
the plan of the sheet, or a pair of neighbouring cells of a row. -/
theorem mem_parseRows (lib : GoLib) (ids : Nat → Str) (now : Nat) (rows : Sheet) (p : Product)
    (h : p ∈ productsOf (parseRows lib ids now rows)) :
    ∃ row0 rest, rows = row0 :: rest ∧
      (((sheetPlan lib rows row0).isTableFormat = true ∧
        ∃ id row, row ∈ rows.drop (sheetPlan lib rows row0).startRow ∧
          parseTableRow lib (sheetPlan lib rows row0) id now row = some p) ∨
       ((sheetPlan lib rows row0).isTableFormat = false ∧
        ∃ id row k, row ∈ rows.drop (sheetPlan lib rows row0).startRow ∧
          2 * k + 1 < row.length ∧
          parsePair lib id now (row.getD (2 * k) []) (row.getD (2 * k + 1) []) = some p)) := by
  cases rows with
  | nil => simp [parseRows, productsOf] at h
  | cons row0 rest =>
    refine ⟨row0, rest, rfl, ?_⟩
    simp only [parseRows] at h
    split at h
    · simp [productsOf] at h
    · simp only [productsOf, parseDataRows] at h
      split at h
      · rename_i ht
        left
        rcases mem_parseTableRows lib _ ids now p _ [] h with h1 | h1
        · simp at h1
        · exact ⟨ht, h1⟩
      · rename_i ht
        right
        rcases mem_parseSideBySideRows lib ids now p _ [] h with h1 | h1
        · simp at h1
        · exact ⟨by simpa using ht, h1⟩

theorem ColumnMap.get_set (m : ColumnMap) (key key2 : Str) (idx : Int) :
    (m.set key idx).get key2 = if key2 = key then some idx else m.get key2 := by
  unfold ColumnMap.get ColumnMap.set
  by_cases h : key2 = key
  · subst h
    simp [List.find?_cons]
  · have h2 : ¬ key = key2 := fun e => h e.symm
    simp only [List.find?_cons, h2, decide_False, if_neg h]
    congr 1
    rw [List.find?_filter]
    congr 1
    funext kv
    by_cases hk2 : kv.1 = key2
    · have hk : ¬ kv.1 = key := fun e => h (hk2.symm.trans e)
      simp [hk, hk2, h]
    · simp [hk2]

theorem ColumnMap.Nonneg.set {m : ColumnMap} (hm : m.Nonneg) (key : Str) {idx : Int}
    (hi : 0 ≤ idx) : (m.set key idx).Nonneg := by
  intro kv hkv
  unfold ColumnMap.set at hkv
  rcases List.mem_cons.1 hkv with rfl | hkv
  · exact hi
  · exact hm kv (List.mem_filter.1 hkv).1

theorem ColumnMap.Nonneg.get {m : ColumnMap} (hm : m.Nonneg) {key : Str} {v : Int}
    (h : m.get key = some v) : 0 ≤ v := by
  unfold ColumnMap.get at h
  cases hf : m.find? (fun kv => decide (kv.1 = key)) with
  | none => rw [hf] at h; cases h
  | some kv =>
    rw [hf] at h
    cases h
    exact hm kv (List.mem_of_find?_eq_some hf)

theorem mapColumnsStep_nonneg (lib : GoLib) (m : ColumnMap) (ic : Nat × Str) (hm : m.Nonneg) :
    (mapColumnsStep lib m ic).Nonneg := by
  have hi : (0 : Int) ≤ (ic.1 : Int) := Int.ofNat_nonneg _
  unfold mapColumnsStep
  simp only
  repeat' split
  all_goals first
    | exact hm.set _ hi
    | exact hm

theorem mapColumns_nonneg (lib : GoLib) (header : List Str) : (mapColumns lib header).Nonneg := by
  have hfold : ∀ (l : List (Nat × Str)) (m : ColumnMap), m.Nonneg →
      (l.foldl (mapColumnsStep lib) m).Nonneg := by
    intro l
    induction l with
    | nil => intro m hm; exact hm
    | cons ic t ih =>
      intro m hm
      rw [List.foldl_cons]
      exact ih _ (mapColumnsStep_nonneg lib m ic hm)
  have h0 : (header.enum.foldl (mapColumnsStep lib) []).Nonneg :=
    hfold _ [] (fun kv hkv => absurd hkv (List.not_mem_nil _))
  unfold mapColumns
  simp only
  split
  · split
    · exact (h0.set _ (le_refl _)).set _ (by decide)
    · exact h0.set _ (le_refl _)
  · split
    · exact h0.set _ (by decide)
    · exact h0

theorem priceDefault_isSome (m : ColumnMap) (n : Nat) (h : 1 < n) :
    ((if (m.get "price".toList).isNone = true ∧ 1 < n then m.set "price".toList 1 else m).get
      "price".toList).isSome = true := by
  split
  · rw [ColumnMap.get_set, if_pos rfl]
    rfl
  · rename_i hc
    cases hg : m.get "price".toList with
    | none => exact absurd ⟨by rw [hg]; rfl, h⟩ hc
    | some v => rfl

/-- A header of two cells or more always gets a price column from `mapColumns`. -/
theorem mapColumns_price (lib : GoLib) (header : List Str) (h : 1 < header.length) :
    ((mapColumns lib header).get "price".toList).isSome = true := by
  unfold mapColumns
  exact priceDefault_isSome _ _ h

/-! ## Catalog ingestion, prices and columns: theorems -/

/-- C22 (as stated, refuted): the data row of the sample sheet has the price
cell `-5` and the stock cell `-3`; the ingestion returns its product with the
price -5 and the stock -3. -/
theorem C22_counterexample :
    productsOf (parseExcelFile asciiLib sampleIds 0 (ExcelFile.ofRows sampleSheetNegative)) =
      [sampleNegativeWidget] ∧
    F64.lt sampleNegativeWidget.Price (F64.fin 0) = true ∧
    sampleNegativeWidget.Stock < 0 := by
  decide

/-- C22 (amended): every product returned by the ingestion of a row grid has a
price that is not zero, and it comes from a row of the sheet.  In table layout
its price is the number `parsePrice` reads from the cell of the row in the
price column, and its stock is the conversion `int(x)` of the number `x` that
`parsePrice` reads from the cell of the row in the mapped stock column, or 0
when no stock column is mapped, the row has no such cell, the cell is blank or
`parsePrice` does not read it.  In side-by-side layout its price is the number
`parsePrice` reads from the cell after its name cell, and its stock is 0.  The
conversion `int(x)` is the truncation toward zero when that is in the range of
`int`.  No sign is tested: a negative numeral gives a negative price or
stock. -/
theorem C22_price_stock_unchecked (lib : GoLib) (ids : Nat → Str) (now : Nat) (rows : Sheet)
    (p : Product)
    (hp : p ∈ productsOf (parseExcelFile lib ids now (ExcelFile.ofRows rows))) :
    p.Price.isZero = false ∧
    (((sheetPlan lib rows (rows.headD [])).isTableFormat = true ∧
      ∃ id row, row ∈ rows.drop (sheetPlan lib rows (rows.headD [])).startRow ∧
        parseTableRow lib (sheetPlan lib rows (rows.headD [])) id now row = some p ∧
        parsePrice lib (trimSpace (cell row (sheetPlan lib rows (rows.headD [])).priceCol)) =
          some p.Price ∧
        p.Stock =
          (match (sheetPlan lib rows (rows.headD [])).columnMap.get "stock".toList with
           | some c =>
             if c < row.length then
               (if !(trimSpace (cell row c)).isEmpty then
                 (match parsePrice lib (trimSpace (cell row c)) with
                  | some st => st.toInt
                  | none => 0)
                else 0)
             else 0
           | none => 0)) ∨
     ((sheetPlan lib rows (rows.headD [])).isTableFormat = false ∧
      ∃ id row k, row ∈ rows.drop (sheetPlan lib rows (rows.headD [])).startRow ∧
        2 * k + 1 < row.length ∧
        parsePair lib id now (row.getD (2 * k) []) (row.getD (2 * k + 1) []) = some p ∧
        p.Name = trimSpace (row.getD (2 * k) []) ∧
        parsePrice lib (trimSpace (row.getD (2 * k + 1) [])) = some p.Price ∧
        p.Stock = 0)) ∧
    (∀ q : ℚ, -(2 : Int) ^ 63 ≤ q.num.tdiv q.den → q.num.tdiv q.den < (2 : Int) ^ 63 →
      (F64.fin q).toInt = q.num.tdiv q.den) := by
  have hp2 : p ∈ productsOf (parseRows lib ids now rows) := hp
  obtain ⟨row0, rest, hrows, h | h⟩ := mem_parseRows lib ids now rows p hp2
  · subst hrows
    obtain ⟨ht, id, row, hmem, hrow⟩ := h
    obtain ⟨h1, h2, h3, _⟩ := parseTableRow_some lib _ id now row p hrow
    exact ⟨h2, Or.inl ⟨ht, id, row, hmem, hrow, h1, h3⟩,
      fun q hq1 hq2 => if_pos ⟨hq1, hq2⟩⟩
  · subst hrows
    obtain ⟨ht, id, row, k, hmem, hk, hpair⟩ := h
    obtain ⟨h1, h2, h3, _⟩ := parsePair_some lib id now _ _ p hpair
    have hname : p.Name = trimSpace (row.getD (2 * k) []) := by
      unfold parsePair at hpair
      simp only at hpair
      split at hpair
      · cases hpair
      · split at hpair
        · cases hpair
        · split at hpair
          · cases hpair
          · split at hpair
            · cases hpair
            · cases hpair
              rfl
    exact ⟨h2, Or.inr ⟨ht, id, row, k, hmem, hk, hpair, hname, h1, h3⟩,
      fun q hq1 hq2 => if_pos ⟨hq1, hq2⟩⟩

/-- A use of C22 (amended): the product of the sample sheet with the negative
numerals comes from the data row in table layout; its price is what
`parsePrice` reads from the cell `-5` and its stock the conversion of what it
reads from the cell `-3`. -/
theorem C22_price_stock_unchecked_witness :
    sampleNegativeWidget ∈
      productsOf (parseExcelFile asciiLib sampleIds 0 (ExcelFile.ofRows sampleSheetNegative)) ∧
    sampleNegativeWidget.Price.isZero = false ∧
    (((sheetPlan asciiLib sampleSheetNegative (sampleSheetNegative.headD [])).isTableFormat =
        true ∧
      ∃ id row,
        row ∈ sampleSheetNegative.drop
          (sheetPlan asciiLib sampleSheetNegative (sampleSheetNegative.headD [])).startRow ∧
        parseTableRow asciiLib (sheetPlan asciiLib sampleSheetNegative
          (sampleSheetNegative.headD [])) id 0 row = some sampleNegativeWidget ∧
        parsePrice asciiLib (trimSpace (cell row
          (sheetPlan asciiLib sampleSheetNegative (sampleSheetNegative.headD [])).priceCol)) =
          some sampleNegativeWidget.Price ∧
        sampleNegativeWidget.Stock =
          (match (sheetPlan asciiLib sampleSheetNegative
              (sampleSheetNegative.headD [])).columnMap.get "stock".toList with
           | some c =>
             if c < row.length then
               (if !(trimSpace (cell row c)).isEmpty then
                 (match parsePrice asciiLib (trimSpace (cell row c)) with
                  | some st => st.toInt
                  | none => 0)
                else 0)
             else 0
           | none => 0)) ∨
     ((sheetPlan asciiLib sampleSheetNegative (sampleSheetNegative.headD [])).isTableFormat =
        false ∧
      ∃ id row k,
        row ∈ sampleSheetNegative.drop
          (sheetPlan asciiLib sampleSheetNegative (sampleSheetNegative.headD [])).startRow ∧
        2 * k + 1 < row.length ∧
        parsePair asciiLib id 0 (row.getD (2 * k) []) (row.getD (2 * k + 1) []) =
          some sampleNegativeWidget ∧
        sampleNegativeWidget.Name = trimSpace (row.getD (2 * k) []) ∧
        parsePrice asciiLib (trimSpace (row.getD (2 * k + 1) [])) =
          some sampleNegativeWidget.Price ∧
        sampleNegativeWidget.Stock = 0)) ∧
    parsePrice asciiLib "-5".toList = some (F64.fin (-5)) ∧
    (parsePrice asciiLib "-3".toList).map F64.toInt = some (-3) :=
  have h := C22_price_stock_unchecked asciiLib sampleIds 0 sampleSheetNegative
    sampleNegativeWidget (by decide)
  ⟨by decide, h.1, h.2.1, by decide, by decide⟩

/-- C23 (refuted by the code): `mapColumns` gives every header of two cells or
more a price column, column 1 when no cell has a price keyword, so
`parseExcelFile` finds a price column in the map and does not call
`detectPriceColumn`.  In the sample sheet the header has no price keyword and
the numbers are in column 2, which `detectPriceColumn` would return; the price
column used is column 1 and the ingestion fails with no valid product. -/
theorem C23_price_column_not_guessed (lib : GoLib) (row0 : List Str) (rest : Sheet) :
    (detectHeader lib (row0 :: rest) = true → 1 < row0.length →
      ((mapColumns lib row0).get "price".toList).isSome = true ∧
      (sheetPlan lib (row0 :: rest) row0).priceCol =
        ((mapColumns lib row0).get "price".toList).getD 1) ∧
    detectHeader asciiLib sampleSheetThirdColumn = true ∧
    (mapColumns asciiLib ["Name".toList, "Color".toList, "Val".toList]).get "price".toList =
      some 1 ∧
    detectPriceColumn asciiLib sampleSheetThirdColumn 1 = 2 ∧
    (sheetPlan asciiLib sampleSheetThirdColumn
      ["Name".toList, "Color".toList, "Val".toList]).priceCol = 1 ∧
    isError (parseExcelFile asciiLib sampleIds 0 (ExcelFile.ofRows sampleSheetThirdColumn)) =
      true := by
  refine ⟨?_, by decide, by decide, by decide, by decide, by decide⟩
  intro hh hl
  have hm := mapColumns_price lib row0 hl
  refine ⟨hm, ?_⟩
  cases hg : (mapColumns lib row0).get "price".toList with
  | none => rw [hg] at hm; simp at hm
  | some v =>
    have hv : v ≠ -1 := by
      have := (mapColumns_nonneg lib row0).get hg
      omega
    simp only [sheetPlan, hh, if_true, hg, Option.getD_some, if_neg hv]

/-! ## Lemmas on the layout test -/

/-- The loop of `detectTableFormat` counts over the first rows, up to 5 in all,
that have the price column and are not empty. -/
theorem tableFormatCounts_eq (lib : GoLib) (priceCol : Nat) (rows : Sheet) :
    ∀ valid total : Nat,
      tableFormatCounts lib (priceCol : Int) rows (valid, total) =
        (valid + (((rows.filter
            (fun row => decide (priceCol < row.length) && !isEmptyRow row)).take
              (5 - total)).filter (priceCellParses lib priceCol)).length,
         total + ((rows.filter
            (fun row => decide (priceCol < row.length) && !isEmptyRow row)).take
              (5 - total)).length) := by
  induction rows with
  | nil => intro valid total; simp [tableFormatCounts]
  | cons row t ih =>
    intro valid total
    rw [tableFormatCounts]
    by_cases h5 : total < 5
    · rw [if_pos h5]
      by_cases hskip : (decide ((row.length : Int) ≤ (priceCol : Int)) || isEmptyRow row) = true
      · have hf : (decide (priceCol < row.length) && !isEmptyRow row) = false := by
          rcases Bool.or_eq_true_iff.1 hskip with h | h
          · have : ¬ priceCol < row.length := by
              have h' : (row.length : Int) ≤ (priceCol : Int) := by simpa using h
              omega
            simp [this]
          · simp [h]
        rw [if_pos hskip, ih, List.filter_cons, hf]
        simp
      · have hf : (decide (priceCol < row.length) && !isEmptyRow row) = true := by
          have h1 : ¬ (row.length : Int) ≤ (priceCol : Int) := by
            intro hc; exact hskip (by simp [hc])
          have h2 : isEmptyRow row = false := by
            cases he : isEmptyRow row with
            | false => rfl
            | true => exact absurd (by simp [he]) hskip
          have h3 : priceCol < row.length := by omega
          simp [h3, h2]
        obtain ⟨k, hk⟩ : ∃ k, 5 - total = k + 1 := ⟨4 - total, by omega⟩
        have hk2 : 5 - (total + 1) = k := by omega
        have hcell : cell row (priceCol : Int) = row.getD priceCol [] := by
          simp [cell]
        rw [if_neg hskip, ih, List.filter_cons, hf, if_pos rfl, hk, hk2, List.take_succ_cons,
          List.filter_cons, List.length_cons]
        simp only [hcell]
        by_cases hp : (parsePrice lib (trimSpace (row.getD priceCol []))).isSome = true
        · have hp2 : priceCellParses lib priceCol row = true := hp
          rw [if_pos hp, hp2, if_pos rfl, List.length_cons]
          simp only [Prod.mk.injEq]
          constructor <;> rw [Nat.add_right_comm, Nat.add_assoc]
        · have hp2 : priceCellParses lib priceCol row = false := by
            simpa [priceCellParses] using hp
          rw [if_neg hp, hp2]
          simp only [Bool.false_eq_true, if_false, Prod.mk.injEq, true_and]
          rw [Nat.add_right_comm, Nat.add_assoc]
    · rw [if_neg h5]
      have h0 : 5 - total = 0 := by omega
      rw [h0]
      simp

theorem detectTableFormat_eq (lib : GoLib) (row0 : List Str) (rest : Sheet) (priceCol : Nat) :
    detectTableFormat lib (row0 :: rest) 0 (priceCol : Int) =
      ((layoutSample priceCol (row0 :: rest)).isEmpty ||
        decide (7 * (layoutSample priceCol (row0 :: rest)).length <
          10 * ((layoutSample priceCol (row0 :: rest)).filter
            (priceCellParses lib priceCol)).length)) := by
  have hneg : ¬ (priceCol : Int) < 0 := by omega
  unfold detectTableFormat
  simp only [List.length_cons, Nat.le_zero_eq, Nat.add_one_ne_zero, if_false, hneg, List.drop_zero,
    tableFormatCounts_eq, Nat.zero_add, Nat.sub_zero]
  unfold layoutSample
  cases hs : ((row0 :: rest).filter
      (fun row => decide (priceCol < row.length) && !isEmptyRow row)).take 5 with
  | nil => simp
  | cons a l => simp

theorem sheetPlan_headerless (lib : GoLib) (row0 : List Str) (rest : Sheet)
    (h : detectHeader lib (row0 :: rest) = false) :
    (sheetPlan lib (row0 :: rest) row0).hasHeader = false ∧
    (sheetPlan lib (row0 :: rest) row0).startRow = 0 ∧
    (sheetPlan lib (row0 :: rest) row0).nameCol = 0 ∧
    (sheetPlan lib (row0 :: rest) row0).priceCol = 1 ∧
    (sheetPlan lib (row0 :: rest) row0).isTableFormat =
      detectTableFormat lib (row0 :: rest) 0 1 := by
  have hp : ∀ b : Prop, [Decidable b] →
      ColumnMap.get (if b then
        ((ColumnMap.set [] "name".toList 0).set "price".toList 1).set "category".toList 2
        else (ColumnMap.set [] "name".toList 0).set "price".toList 1) "price".toList = some 1 := by
    intro b _
    split <;> decide
  have hn : ∀ b : Prop, [Decidable b] →
      ColumnMap.get (if b then
        ((ColumnMap.set [] "name".toList 0).set "price".toList 1).set "category".toList 2
        else (ColumnMap.set [] "name".toList 0).set "price".toList 1) "name".toList = some 0 := by
    intro b _
    split <;> decide
  simp only [sheetPlan, h, Bool.false_eq_true, if_false, hp, hn, Option.getD_some,
    Bool.not_false, if_true]
  simp

/-! ## The layout test: theorems -/

/-- C24 (as stated, refuted): the sample sheet has no header and four non-empty
rows, one with a number in column 1 and three with a single cell.  Counting the
three as not parseable gives 1 of 4, not more than 70%, so side-by-side layout;
`detectTableFormat` skips the rows without the column, samples one row, and
answers table layout. -/
theorem C24_counterexample :
    detectHeader asciiLib sampleSheetShortRows = false ∧
    tableLayoutAsStated asciiLib 1 sampleSheetShortRows = false ∧
    (sheetPlan asciiLib sampleSheetShortRows ["Widget".toList, "10".toList]).isTableFormat =
      true ∧
    layoutSample 1 sampleSheetShortRows = [["Widget".toList, "10".toList]] := by
  decide

/-- C24 (amended): a sheet with a header is always in table layout.  For a sheet
without header the price column is column 1, and the layout is table exactly
when, among the first up to 5 rows that are not empty and have a cell in
column 1, strictly more than 70% have a number `parsePrice` reads there, or
no such row exists; otherwise it is side-by-side.  A row without a cell in
column 1 is skipped, not counted. -/
theorem C24_layout_detection (lib : GoLib) (row0 : List Str) (rest : Sheet) :
    (detectHeader lib (row0 :: rest) = true →
      (sheetPlan lib (row0 :: rest) row0).isTableFormat = true) ∧
    (detectHeader lib (row0 :: rest) = false →
      (sheetPlan lib (row0 :: rest) row0).priceCol = 1 ∧
      ((sheetPlan lib (row0 :: rest) row0).isTableFormat = true ↔
        (layoutSample 1 (row0 :: rest) = [] ∨
         7 * (layoutSample 1 (row0 :: rest)).length <
           10 * ((layoutSample 1 (row0 :: rest)).filter (priceCellParses lib 1)).length))) := by
  constructor
  · intro h
    simp [sheetPlan, h]
  · intro h
    obtain ⟨_, _, _, hp, ht⟩ := sheetPlan_headerless lib row0 rest h
    refine ⟨hp, ?_⟩
    have hd := detectTableFormat_eq lib row0 rest 1
    have hcast : ((1 : Nat) : Int) = 1 := rfl
    rw [hcast] at hd
    rw [ht, hd]
    simp [List.isEmpty_iff]

/-- A use of C24 (amended): the sheet of three data rows with a header is in
table layout; the sample sheet without header is in table layout because its
only sampled row has a number in column 1. -/
theorem C24_layout_detection_witness :
    (sheetPlan asciiLib sampleSheet3 ["Name".toList, "Price".toList]).isTableFormat = true ∧
    (sheetPlan asciiLib sampleSheetShortRows ["Widget".toList, "10".toList]).isTableFormat =
      true :=
  ⟨(C24_layout_detection asciiLib ["Name".toList, "Price".toList]
      [["Widget".toList, "10".toList], ["Gadget".toList, "abc".toList],
       ["RTX 4090".toList, "1800".toList]]).1 (by decide),
   ((C24_layout_detection asciiLib ["Widget".toList, "10".toList]
      [["Foo".toList], ["Bar".toList], ["Baz".toList]]).2 (by decide)).2.2
     (Or.inr (by decide))⟩

/-! ## Lemmas on category classification -/

/-- An `if` chain over fifteen conditions is the first match over the list of
the conditions. -/
theorem firstMatch_chain (b1 b2 b3 b4 b5 b6 b7 b8 b9 b10 b11 b12 b13 b14 b15 : Bool) :
    (if b1 = true then "Monitor".toList
      else if b2 = true then "Storage".toList
      else if b3 = true then "RAM".toList
      else if b4 = true then "CPU".toList
      else if b5 = true then "GPU".toList
      else if b6 = true then "Motherboard".toList
      else if b7 = true then "PSU".toList
      else if b8 = true then "Case".toList
      else if b9 = true then "Cooling".toList
      else if b10 = true then "Chair".toList
      else if b11 = true then "Desk".toList
      else if b12 = true then "Keyboard".toList
      else if b13 = true then "Mouse".toList
      else if b14 = true then "Headset".toList
      else if b15 = true then "RAM".toList
      else "Boshqa".toList) =
      ((([(b1, "Monitor"),
        (b2, "Storage"),
        (b3, "RAM"),
        (b4, "CPU"),
        (b5, "GPU"),
        (b6, "Motherboard"),
        (b7, "PSU"),
        (b8, "Case"),
        (b9, "Cooling"),
        (b10, "Chair"),
        (b11, "Desk"),
        (b12, "Keyboard"),
        (b13, "Mouse"),
        (b14, "Headset"),
        (b15, "RAM")] : List (Bool × String)).find? (fun rule => rule.1)).map
        (fun rule => rule.2.toList)).getD "Boshqa".toList := by
  cases b1
  swap
  · rfl
  cases b2
  swap
  · rfl
  cases b3
  swap
  · rfl
  cases b4
  swap
  · rfl
  cases b5
  swap
  · rfl
  cases b6
  swap
  · rfl
  cases b7
  swap
  · rfl
  cases b8
  swap
  · rfl
  cases b9
  swap
  · rfl
  cases b10
  swap
  · rfl
  cases b11
  swap
  · rfl
  cases b12
  swap
  · rfl
  cases b13
  swap
  · rfl
  cases b14
  swap
  · rfl
  cases b15
  swap
  · rfl
  rfl

theorem detectCategory_firstMatch (lib : GoLib) (name : Str) :
    detectCategory lib name =
      firstMatchCategory (fun k => contains (toLower lib name) k.toList) := by
  unfold detectCategory firstMatchCategory categoryRules
  exact firstMatch_chain _ _ _ _ _ _ _ _ _ _ _ _ _ _ _

/-! ## Category classification: theorems -/

/-- C25 (as stated, refuted): the name `Intel RAM 16GB` has no token of the
monitor rule and contains `ram`, yet its category is `CPU`, not `RAM`: the rule
of the generic RAM tokens is the last one, after the brand tokens.  The name
`Kingston ddr` contains `ddr` and gets the fallback category. -/
theorem C25_counterexample :
    containsAny (toLower asciiLib "Intel RAM 16GB".toList)
      ["monitor", "монитор", "display", "screen", "144hz", "165hz", "240hz", "300hz", "ips",
       "va panel", "curved", "ultrawide"] = false ∧
    contains (toLower asciiLib "Intel RAM 16GB".toList) "ram".toList = true ∧
    detectCategory asciiLib "Intel RAM 16GB".toList = "CPU".toList ∧
    contains (toLower asciiLib "Kingston ddr".toList) "ddr".toList = true ∧
    detectCategory asciiLib "Kingston ddr".toList = "Boshqa".toList := by
  decide

/-- C25 (amended): `detectCategory` is the first match over the rules in the
order of `categoryRules`: monitor tokens, storage tokens, DDR tokens, CPU
tokens, GPU tokens, motherboard and socket tokens, PSU, case, cooling, chair,
desk, keyboard, mouse, headset and, last, the generic RAM tokens; the fallback
is `Boshqa`.  So a name containing `monitor` is a Monitor whatever else it
contains; a name without monitor and storage tokens that contains `ddr3`,
`ddr4`, `ddr5` or `ddr` and a blank is RAM, also with a brand token; a name
containing `ram` is RAM when no earlier rule matches; a name matching no rule
gets the fallback. -/
theorem C25_category_first_match (lib : GoLib) (name : Str) :
    detectCategory lib name =
      firstMatchCategory (fun k => contains (toLower lib name) k.toList) ∧
    (contains (toLower lib name) "monitor".toList = true →
      detectCategory lib name = "Monitor".toList) ∧
    (containsAny (toLower lib name)
        ["monitor", "монитор", "display", "screen", "144hz", "165hz", "240hz", "300hz", "ips",
         "va panel", "curved", "ultrawide"] = false →
      containsAny (toLower lib name) ["ssd", "nvme", "hdd", "hard drive"] = false →
      containsAny (toLower lib name) ["ddr4", "ddr5", "ddr3", "ddr "] = true →
      detectCategory lib name = "RAM".toList) ∧
    ((∀ rule ∈ (categoryRules (fun k => contains (toLower lib name) k.toList)).take 14,
        rule.1 = false) →
      contains (toLower lib name) "ram".toList = true →
      detectCategory lib name = "RAM".toList) ∧
    ((∀ rule ∈ categoryRules (fun k => contains (toLower lib name) k.toList), rule.1 = false) →
      detectCategory lib name = "Boshqa".toList) := by
  refine ⟨detectCategory_firstMatch lib name, ?_, ?_, ?_, ?_⟩
  · intro h
    unfold detectCategory
    simp only [h, Bool.true_or, if_true]
  · intro hm hs hd
    simp only [containsAny, List.any_cons, List.any_nil, Bool.or_false, ← Bool.or_assoc]
      at hm hs hd
    unfold detectCategory
    simp only [hm, hs, hd, Bool.false_eq_true, if_false, if_true]
  · intro h14 hram
    rw [detectCategory_firstMatch]
    unfold firstMatchCategory
    have hsplit : categoryRules (fun k => contains (toLower lib name) k.toList) =
        (categoryRules (fun k => contains (toLower lib name) k.toList)).take 14 ++
        (categoryRules (fun k => contains (toLower lib name) k.toList)).drop 14 :=
      (List.take_append_drop 14 _).symm
    have hnone : ((categoryRules (fun k => contains (toLower lib name) k.toList)).take 14).find?
        (fun rule => rule.1) = none := by
      rw [List.find?_eq_none]
      intro rule hr
      rw [h14 rule hr]
      simp
    rw [hsplit, List.find?_append, hnone]
    simp only [categoryRules, List.drop, hram, Bool.true_or, Option.none_or, List.find?_cons,
      Option.map_some', Option.getD_some]
  · intro hall
    rw [detectCategory_firstMatch]
    unfold firstMatchCategory
    have hnone : (categoryRules (fun k => contains (toLower lib name) k.toList)).find?
        (fun rule => rule.1) = none := by
      rw [List.find?_eq_none]
      intro rule hr
      rw [hall rule hr]
      simp
    rw [hnone]
    rfl

/-- A use of C25 (amended): a monitor with a brand token, a DDR4 module with a
brand token, a name with `ram` and no other token, and a name without any
token. -/
theorem C25_category_first_match_witness :
    detectCategory asciiLib "Monitor Intel ram".toList = "Monitor".toList ∧
    detectCategory asciiLib "AMD DDR4 16GB".toList = "RAM".toList ∧
    detectCategory asciiLib "Kingmax RAM 16GB".toList = "RAM".toList ∧
    detectCategory asciiLib "Widget".toList = "Boshqa".toList :=
  ⟨(C25_category_first_match asciiLib "Monitor Intel ram".toList).2.1 (by decide),
   (C25_category_first_match asciiLib "AMD DDR4 16GB".toList).2.2.1 (by decide) (by decide)
     (by decide),
   (C25_category_first_match asciiLib "Kingmax RAM 16GB".toList).2.2.2.1 (by decide) (by decide),
   (C25_category_first_match asciiLib "Widget".toList).2.2.2.2 (by decide)⟩

/-! ## Lemmas on the specs of a table row -/

theorem specsLookup_replace (key value key2 : Str) (specs : List (Str × Str)) :
    specsLookup (specs.map (fun kv => if kv.1 = key then (key, value) else kv)) key2 =
      if key2 = key then
        (if specs.any (fun kv => decide (kv.1 = key)) then some value else none)
      else specsLookup specs key2 := by
  unfold specsLookup
  induction specs with
  | nil => by_cases h : key2 = key <;> simp [h]
  | cons kv t ih =>
    rw [List.map_cons, List.find?_cons, List.find?_cons, List.any_cons]
    by_cases hk : kv.1 = key
    · rw [if_pos hk]
      by_cases h : key2 = key
      · subst h
        simp [hk]
      · have h2 : ¬ key = key2 := fun e => h e.symm
        have h3 : ¬ kv.1 = key2 := fun e => h (e.symm.trans hk)
        rw [if_neg h] at ih ⊢
        simp only [h2, h3, decide_False]
        exact ih
    · rw [if_neg hk]
      by_cases h3 : kv.1 = key2
      · have h : ¬ key2 = key := fun e => hk (h3.trans e)
        simp [h3, h]
      · simp only [h3, hk, decide_False, Bool.false_or]
        exact ih

theorem specsLookup_absent (key : Str) (specs : List (Str × Str))
    (h : specs.any (fun kv => decide (kv.1 = key)) = false) : specsLookup specs key = none := by
  unfold specsLookup
  have : specs.find? (fun kv => decide (kv.1 = key)) = none := by
    rw [List.find?_eq_none]
    intro x hx hc
    have := List.any_eq_false.1 h x hx
    exact this hc
  rw [this]
  rfl

theorem specsLookup_specsSet (specs : List (Str × Str)) (key value key2 : Str) :
    specsLookup (specsSet specs key value) key2 =
      if key2 = key then some value else specsLookup specs key2 := by
  unfold specsSet
  by_cases hany : specs.any (fun kv => decide (kv.1 = key)) = true
  · rw [if_pos hany, specsLookup_replace, hany]
    rfl
  · have hany2 : specs.any (fun kv => decide (kv.1 = key)) = false :=
      Bool.eq_false_iff.2 hany
    rw [if_neg hany]
    by_cases h : key2 = key
    · subst h
      have hn := specsLookup_absent key2 specs hany2
      unfold specsLookup at hn ⊢
      rw [List.find?_append]
      cases hf : specs.find? (fun kv => decide (kv.1 = key2)) with
      | none => simp
      | some x => rw [hf] at hn; cases hn
    · have h2 : ¬ key = key2 := fun e => h e.symm
      rw [if_neg h]
      unfold specsLookup
      rw [List.find?_append]
      simp [h2]

theorem lastAssigned_cons (a : Str × Str) (t : List (Str × Str)) (key : Str) :
    lastAssigned (a :: t) key =
      (lastAssigned t key).or (if a.1 = key then some a.2 else none) := by
  unfold lastAssigned
  rw [List.reverse_cons, List.find?_append]
  cases List.find? (fun kv => decide (kv.1 = key)) t.reverse with
  | some x => rfl
  | none =>
    by_cases h : a.1 = key <;> simp [h]

/-- The specs after a run of assignments: a key holds the value of the last
assignment to it, or what it held before. -/
theorem specsLookup_foldl (assignments : List (Str × Str)) (key : Str) :
    ∀ init : List (Str × Str),
      specsLookup (assignments.foldl (fun specs kv => specsSet specs kv.1 kv.2) init) key =
        (lastAssigned assignments key).or (specsLookup init key) := by
  induction assignments with
  | nil => intro init; rfl
  | cons a t ih =>
    intro init
    obtain ⟨k, v⟩ := a
    rw [List.foldl_cons, ih, specsLookup_specsSet, lastAssigned_cons]
    cases lastAssigned t key with
    | some x => rfl
    | none =>
      by_cases h : k = key
      · subst h
        simp
      · have h2 : ¬ key = k := fun e => h e.symm
        simp [h, h2]

/-- Every entry of the specs after a run of assignments is an entry from before
or one of the assignments. -/
theorem mem_specs_foldl (assignments : List (Str × Str)) (kv : Str × Str) :
    ∀ init : List (Str × Str),
      kv ∈ assignments.foldl (fun specs kv => specsSet specs kv.1 kv.2) init →
      kv ∈ init ∨ kv ∈ assignments := by
  induction assignments with
  | nil => intro init h; exact Or.inl h
  | cons a t ih =>
    intro init h
    rw [List.foldl_cons] at h
    rcases ih _ h with h1 | h1
    · unfold specsSet at h1
      split at h1
      · rw [List.mem_map] at h1
        obtain ⟨x, hx, he⟩ := h1
        split at he
        · exact Or.inr (by rw [← he]; exact List.mem_cons_self _ _)
        · exact Or.inl (by rw [← he]; exact hx)
      · rcases List.mem_append.1 h1 with h2 | h2
        · exact Or.inl h2
        · rw [List.mem_singleton] at h2
          exact Or.inr (by rw [h2]; exact List.mem_cons_self _ _)
    · exact Or.inr (List.mem_cons_of_mem _ h1)

theorem foldl_filter_map {α β σ : Type} (q : α → Bool) (f : α → β) (g : σ → β → σ)
    (l : List α) : ∀ init : σ,
      l.foldl (fun s x => if q x = true then g s (f x) else s) init =
        ((l.filter q).map f).foldl g init := by
  induction l with
  | nil => intro init; rfl
  | cons a t ih =>
    intro init
    rw [List.foldl_cons, List.filter_cons]
    by_cases h : q a = true
    · rw [if_pos h, if_pos h, List.map_cons, List.foldl_cons]
      exact ih _
    · rw [if_neg h, if_neg h]
      exact ih _

/-- The specs loop of a sheet with a header is the run of the assignments of the
row. -/
theorem headerSpecs_eq (plan : SheetPlan) (row : List Str) :
    headerSpecs plan (usedColumns plan) row =
      (specAssignments plan row).foldl (fun specs kv => specsSet specs kv.1 kv.2) [] := by
  unfold headerSpecs specAssignments
  rw [← foldl_filter_map]
  congr 1
  funext specs ic
  unfold specKey
  by_cases h1 : (usedColumns plan).contains (ic.1 : Int) = true
  · rw [if_pos h1, h1]
    rfl
  · rw [if_neg h1]
    have h1f : (usedColumns plan).contains (ic.1 : Int) = false := Bool.eq_false_iff.2 h1
    rw [h1f]
    by_cases h2 : (trimSpace ic.2).isEmpty = true
    · simp only [h2, if_true]
      rfl
    · have h2f : (trimSpace ic.2).isEmpty = false := Bool.eq_false_iff.2 h2
      simp only [h2f]
      rfl

/-- The specs loop of a sheet without header is the run of the assignments of
the columns from the third on. -/
theorem headerlessSpecs_eq (row : List Str) :
    headerlessSpecs row =
      (((row.enum.drop 2).filter (fun jc => !(trimSpace jc.2).isEmpty)).map
        (fun jc => (extraKey jc.1, trimSpace jc.2))).foldl
        (fun specs kv => specsSet specs kv.1 kv.2) [] := by
  unfold headerlessSpecs
  rw [← foldl_filter_map]
  split
  · rfl
  · rename_i h
    have : row.enum.drop 2 = [] := by
      apply List.drop_eq_nil_of_le
      rw [List.enum_length]
      omega
    rw [this]
    rfl

theorem enumFrom_filter_ge {α : Type} (q : Nat × α → Bool) :
    ∀ (k n : Nat) (l : List α),
      (List.enumFrom n l).filter (fun ic => decide (n + k ≤ ic.1) && q ic) =
        ((List.enumFrom n l).drop k).filter q := by
  intro k
  induction k with
  | zero =>
    intro n l
    rw [List.drop_zero]
    apply List.filter_congr
    intro x hx
    have := List.le_fst_of_mem_enumFrom hx
    have hd : decide (n + 0 ≤ x.1) = true := decide_eq_true this
    rw [hd, Bool.true_and]
  | succ k ih =>
    intro n l
    cases l with
    | nil => rfl
    | cons a t =>
      rw [List.enumFrom_cons, List.drop_succ_cons, List.filter_cons]
      have hd : decide (n + (k + 1) ≤ n) = false := decide_eq_false (by omega)
      simp only [hd, Bool.false_and, Bool.false_eq_true, if_false]
      have he : n + (k + 1) = n + 1 + k := by omega
      rw [he]
      exact ih (n + 1) t

theorem unused_two (i : Nat) : (!([0, 1] : List Int).contains (i : Int)) = decide (0 + 2 ≤ i) := by
  rw [Bool.eq_iff_iff]
  simp
  omega

theorem unused_three (i : Nat) :
    (!([0, 1, 2] : List Int).contains (i : Int)) = decide (0 + 3 ≤ i) := by
  rw [Bool.eq_iff_iff]
  simp
  omega

/-- The column map of a sheet without header: name, price and, when the first
row has a third cell, category. -/
theorem sheetPlan_headerless_columns (lib : GoLib) (row0 : List Str) (rest : Sheet)
    (h : detectHeader lib (row0 :: rest) = false) :
    (sheetPlan lib (row0 :: rest) row0).header = [] ∧
    (sheetPlan lib (row0 :: rest) row0).nameCol = 0 ∧
    (sheetPlan lib (row0 :: rest) row0).priceCol = 1 ∧
    (sheetPlan lib (row0 :: rest) row0).columnMap.get "category".toList =
      (if 2 < row0.length then some 2 else none) ∧
    (sheetPlan lib (row0 :: rest) row0).columnMap.get "description".toList = none ∧
    (sheetPlan lib (row0 :: rest) row0).columnMap.get "stock".toList = none := by
  have hp : ∀ b : Prop, [Decidable b] →
      ColumnMap.get (if b then
        ((ColumnMap.set [] "name".toList 0).set "price".toList 1).set "category".toList 2
        else (ColumnMap.set [] "name".toList 0).set "price".toList 1) "price".toList = some 1 := by
    intro b _
    split <;> decide
  have hn : ∀ b : Prop, [Decidable b] →
      ColumnMap.get (if b then
        ((ColumnMap.set [] "name".toList 0).set "price".toList 1).set "category".toList 2
        else (ColumnMap.set [] "name".toList 0).set "price".toList 1) "name".toList = some 0 := by
    intro b _
    split <;> decide
  have h1 : ¬ ((1 : Int) = -1) := by decide
  have h2 : ∀ q : Prop, ¬ ((1 : Int) = -1 ∧ q) := fun _ hq => h1 hq.1
  simp only [sheetPlan, h, Bool.false_eq_true, if_false, hp, hn, Option.getD_some, if_neg h1,
    if_neg (h2 _)]
  refine ⟨trivial, trivial, trivial, ?_, ?_, ?_⟩
  · split <;> decide
  · split <;> decide
  · split <;> decide

theorem option_or_none {α : Type} (o : Option α) : o.or none = o := by
  cases o <;> rfl

/-- In a sheet without header the specs of a row hold, under every key other
than that of a third column mapped to category, the value of the last
assignment of the row to the key. -/
theorem headerlessSpecs_lookup (lib : GoLib) (row0 : List Str) (rest : Sheet)
    (h : detectHeader lib (row0 :: rest) = false) (row : List Str) (key : Str)
    (hk : (sheetPlan lib (row0 :: rest) row0).columnMap.get "category".toList = none ∨
      key ≠ extraKey 2) :
    specsLookup (headerlessSpecs row) key =
      lastAssigned (specAssignments (sheetPlan lib (row0 :: rest) row0) row) key := by
  obtain ⟨hh, hn, hp, hc, hd, hs⟩ := sheetPlan_headerless_columns lib row0 rest h
  rw [headerlessSpecs_eq, specsLookup_foldl]
  have hnil : specsLookup [] key = none := rfl
  rw [hnil, option_or_none]
  have hkey : ∀ idx, specKey (sheetPlan lib (row0 :: rest) row0) idx = extraKey idx := by
    intro idx
    unfold specKey
    rw [hh]
    exact if_neg (fun hc => Nat.not_lt_zero _ hc.1)
  unfold specAssignments usedColumns
  rw [hn, hp, hd, hs]
  simp only [hkey]
  rw [hc] at hk ⊢
  by_cases h3 : 2 < row0.length
  · rw [if_pos h3] at hk ⊢
    have hk2 : key ≠ extraKey 2 := by
      rcases hk with hk | hk
      · cases hk
      · exact hk
    have hu : ([0, 1] ++ (some (2 : Int)).toList ++ (none : Option Int).toList ++
        (none : Option Int).toList : List Int) = [0, 1, 2] := rfl
    rw [hu]
    simp only [unused_three]
    rw [show row.enum = List.enumFrom 0 row from rfl, enumFrom_filter_ge]
    match row with
    | [] => rfl
    | [_] => rfl
    | [_, _] => rfl
    | a :: b :: c :: t =>
      have h2 : (List.enumFrom 0 (a :: b :: c :: t)).drop 2 =
          (2, c) :: (List.enumFrom 0 (a :: b :: c :: t)).drop 3 := rfl
      rw [h2, List.filter_cons]
      split
      · rw [List.map_cons, lastAssigned_cons, if_neg (fun e => hk2 e.symm), option_or_none]
      · rfl
  · rw [if_neg h3]
    have hu : ([0, 1] ++ (none : Option Int).toList ++ (none : Option Int).toList ++
        (none : Option Int).toList : List Int) = [0, 1] := rfl
    rw [hu]
    simp only [unused_two]
    rw [show row.enum = List.enumFrom 0 row from rfl, enumFrom_filter_ge]

/-- In a sheet with a header the specs of a row hold, under every key, the value
of the last assignment of the row to the key. -/
theorem headerSpecs_lookup (plan : SheetPlan) (row : List Str) (key : Str) :
    specsLookup (headerSpecs plan (usedColumns plan) row) key =
      lastAssigned (specAssignments plan row) key := by
  rw [headerSpecs_eq, specsLookup_foldl]
  have hnil : specsLookup [] key = none := rfl
  rw [hnil, option_or_none]

/-! ## The specs of a table row: theorems -/

/-- C26 (as stated, refuted): in the first sample sheet two unmapped columns have
the header text `Color`, with the cells `Red` and `Blue`; the product has the one
entry `Color: Blue` and no entry with the value `Red`.  In the second sample
sheet, without header, the third column is mapped to category and gives the
category `Tools`, and the specs have the entry `Extra_2: Tools` all the same. -/
theorem C26_counterexample :
    (sheetPlan asciiLib sampleSheetTwoColors (sampleSheetTwoColors.headD [])).isTableFormat =
      true ∧
    usedColumns (sheetPlan asciiLib sampleSheetTwoColors (sampleSheetTwoColors.headD [])) =
      [0, 1] ∧
    (productsOf (parseExcelFile asciiLib sampleIds 0
      (ExcelFile.ofRows sampleSheetTwoColors))).map (fun p => (p.Name, p.Specs)) =
      [("Widget".toList, [("Color".toList, "Blue".toList)])] ∧
    (sheetPlan asciiLib sampleSheetFourColumns (sampleSheetFourColumns.headD [])).isTableFormat =
      true ∧
    (sheetPlan asciiLib sampleSheetFourColumns
      (sampleSheetFourColumns.headD [])).columnMap.get "category".toList = some 2 ∧
    (productsOf (parseExcelFile asciiLib sampleIds 0
      (ExcelFile.ofRows sampleSheetFourColumns))).map (fun p => (p.Category, p.Specs)) =
      [("Tools".toList,
        [("Extra_2".toList, "Tools".toList), ("Extra_3".toList, "x".toList)])] := by
  decide

/-- C26 (amended): a product of a sheet in table layout comes from a row of the
sheet, and its specs are those of a map filled column by column: under every
key they hold the value of the last assignment among those of the columns of
the row that are mapped to no field and have a non-empty trimmed cell, each
assigning the trimmed cell under the header text of the column, or under
`Extra_<index>` when the sheet has no header or the header cell is blank or
missing; a key no such column assigns is absent.  For a sheet without header
whose third column is mapped to category this is stated for the keys other
than `Extra_2`. -/
theorem C26_specs_of_table_row (lib : GoLib) (ids : Nat → Str) (now : Nat) (rows : Sheet)
    (p : Product)
    (hp : p ∈ productsOf (parseExcelFile lib ids now (ExcelFile.ofRows rows)))
    (ht : (sheetPlan lib rows (rows.headD [])).isTableFormat = true) :
    ∃ id row, row ∈ rows.drop (sheetPlan lib rows (rows.headD [])).startRow ∧
      parseTableRow lib (sheetPlan lib rows (rows.headD [])) id now row = some p ∧
      ∀ key : Str,
        ((sheetPlan lib rows (rows.headD [])).hasHeader = true ∨
          (sheetPlan lib rows (rows.headD [])).columnMap.get "category".toList = none ∨
          key ≠ extraKey 2) →
        specsLookup p.Specs key =
          lastAssigned (specAssignments (sheetPlan lib rows (rows.headD [])) row) key := by
  have hp2 : p ∈ productsOf (parseRows lib ids now rows) := hp
  obtain ⟨row0, rest, hrows, h | h⟩ := mem_parseRows lib ids now rows p hp2
  · subst hrows
    obtain ⟨_, id, row, hmem, hrow⟩ := h
    refine ⟨id, row, hmem, hrow, ?_⟩
    intro key hkey
    obtain ⟨_, _, _, hspecs⟩ := parseTableRow_some lib _ id now row p hrow
    rw [hspecs]
    show specsLookup (if (sheetPlan lib (row0 :: rest) row0).hasHeader = true then
        headerSpecs (sheetPlan lib (row0 :: rest) row0)
          (usedColumns (sheetPlan lib (row0 :: rest) row0)) row
      else headerlessSpecs row) key = _
    by_cases hh : (sheetPlan lib (row0 :: rest) row0).hasHeader = true
    · rw [if_pos hh]
      exact headerSpecs_lookup _ row key
    · rw [if_neg hh]
      have hd : detectHeader lib (row0 :: rest) = false := by
        have : (sheetPlan lib (row0 :: rest) row0).hasHeader = detectHeader lib (row0 :: rest) :=
          rfl
        rw [← this]
        exact Bool.eq_false_iff.2 hh
      apply headerlessSpecs_lookup lib row0 rest hd row key
      rcases hkey with hk | hk | hk
      · exact absurd hk hh
      · exact Or.inl hk
      · exact Or.inr hk
  · subst hrows
    obtain ⟨hf, _⟩ := h
    have ht2 : (sheetPlan lib (row0 :: rest) row0).isTableFormat = true := ht
    rw [hf] at ht2
    cases ht2

/-- A use of C26 (amended): the product of the sample sheet with two `Color`
columns. -/
theorem C26_specs_of_table_row_witness :
    sampleTwoColorsWidget ∈ productsOf
      (parseExcelFile asciiLib sampleIds 0 (ExcelFile.ofRows sampleSheetTwoColors)) ∧
    ∃ id row,
      row ∈ sampleSheetTwoColors.drop
        (sheetPlan asciiLib sampleSheetTwoColors (sampleSheetTwoColors.headD [])).startRow ∧
      parseTableRow asciiLib
        (sheetPlan asciiLib sampleSheetTwoColors (sampleSheetTwoColors.headD [])) id 0 row =
        some sampleTwoColorsWidget ∧
      ∀ key : Str,
        ((sheetPlan asciiLib sampleSheetTwoColors
            (sampleSheetTwoColors.headD [])).hasHeader = true ∨
          (sheetPlan asciiLib sampleSheetTwoColors
            (sampleSheetTwoColors.headD [])).columnMap.get "category".toList = none ∨
          key ≠ extraKey 2) →
        specsLookup sampleTwoColorsWidget.Specs key =
          lastAssigned (specAssignments
            (sheetPlan asciiLib sampleSheetTwoColors (sampleSheetTwoColors.headD [])) row) key :=
  ⟨by decide,
    C26_specs_of_table_row asciiLib sampleIds 0 sampleSheetTwoColors sampleTwoColorsWidget
      (by decide) (by decide)⟩

/-! ## Lemmas on the GPU-like test -/

theorem utf8Size_digit (c : Char) (h : isDigitRune c = true) : c.utf8Size = 1 := by
  simp only [isDigitRune, Bool.and_eq_true, decide_eq_true_eq] at h
  have h2 : c.val ≤ 57 := h.2
  have h3 : c.val.toNat ≤ 57 := h2
  unfold Char.utf8Size
  have h4 : c.val ≤ 127 := by
    show c.val.toNat ≤ 127
    omega
  show (if c.val ≤ UInt32.ofNatCore 127 (by decide) then 1 else _) = 1
  exact if_pos h4

theorem byteLen_digits (s : Str) (h : ∀ c ∈ s, isDigitRune c = true) : byteLen s = s.length := by
  induction s with
  | nil => rfl
  | cons a t ih =>
    have ha := utf8Size_digit a (h a (List.mem_cons_self _ _))
    have ht := ih (fun c hc => h c (List.mem_cons_of_mem _ hc))
    unfold byteLen at ht ⊢
    rw [List.map_cons, List.sum_cons, ha, ht, List.length_cons]
    omega

theorem byteLen_extractDigits (s : Str) : byteLen (extractDigits s) = (extractDigits s).length :=
  byteLen_digits _ (fun _ hc => (List.mem_filter.1 hc).2)

theorem contains_trans (s a b : Str) (hab : contains a b = true) (hsa : contains s a = true) :
    contains s b = true := by
  rw [contains_iff_isInfix] at *
  exact hab.trans hsa

/-- C27 (as stated, refuted): the query `karta` has none of the keywords `rtx`,
`gtx`, `rx`, `gpu`, `video` and no digit, and `a1 b2 c3` has no keyword and no
3 consecutive digits, yet `isGPUQuery` holds for both; `marx` contains the
keyword `rx`, yet `isGPUQuery` does not hold for it. -/
theorem C27_counterexample :
    (gpuLikeAsStated asciiLib "karta".toList = false ∧
      isGPUQuery asciiLib "karta".toList = true) ∧
    (gpuLikeAsStated asciiLib "a1 b2 c3".toList = false ∧
      isGPUQuery asciiLib "a1 b2 c3".toList = true) ∧
    (gpuLikeAsStated asciiLib "marx".toList = true ∧
      isGPUQuery asciiLib "marx".toList = false) := by
  decide

/-- C27 (amended): a query is GPU-like exactly when, in lower case, it contains
one of `rtx`, `gtx`, `gpu`, `video`, `karta`, or `rx` followed by a blank or a
hyphen, or `rx` and at least one digit, or at least 3 digits in all, consecutive
or not.  For a query that is not blank and not GPU-like the result of `Search`
is the result before the GPU filter. -/
theorem C27_gpu_query (lib : GoLib) (q : Str) :
    (isGPUQuery lib q = true ↔
      (contains (toLower lib q) "rtx".toList = true ∨
       contains (toLower lib q) "gtx".toList = true ∨
       contains (toLower lib q) "gpu".toList = true ∨
       contains (toLower lib q) "video".toList = true ∨
       contains (toLower lib q) "karta".toList = true ∨
       contains (toLower lib q) "rx ".toList = true ∨
       contains (toLower lib q) "rx-".toList = true ∨
       (contains (toLower lib q) "rx".toList = true ∧
        ∃ c ∈ toLower lib q, isDigitRune c = true) ∨
       3 ≤ ((toLower lib q).filter isDigitRune).length)) ∧
    (∀ products : List Product, toLower lib (trimSpace q) ≠ [] →
      isGPUQuery lib (toLower lib (trimSpace q)) = false →
      (Search lib products q).1 =
        searchUnrefined lib (queryForms lib (toLower lib (trimSpace q))) products) := by
  constructor
  · have hd : (!(extractDigits (toLower lib q)).isEmpty) = true ↔
        ∃ c ∈ toLower lib q, isDigitRune c = true := by
      unfold extractDigits
      constructor
      · intro h
        cases hf : (toLower lib q).filter isDigitRune with
        | nil => rw [hf] at h; simp at h
        | cons a t =>
          have : a ∈ (toLower lib q).filter isDigitRune := by rw [hf]; exact List.mem_cons_self _ _
          exact ⟨a, (List.mem_filter.1 this).1, (List.mem_filter.1 this).2⟩
      · rintro ⟨c, hc, hdc⟩
        have : c ∈ (toLower lib q).filter isDigitRune := List.mem_filter.2 ⟨hc, hdc⟩
        cases hf : (toLower lib q).filter isDigitRune with
        | nil => rw [hf] at this; simp at this
        | cons _ _ => rfl
    have hv : contains (toLower lib q) "videokarta".toList = true →
        contains (toLower lib q) "video".toList = true :=
      contains_trans _ _ _ (by decide)
    have hl : byteLen (extractDigits (toLower lib q)) =
        ((toLower lib q).filter isDigitRune).length := byteLen_extractDigits _
    unfold isGPUQuery
    simp only [Bool.or_eq_true, Bool.and_eq_true, decide_eq_true_eq, hd, hl]
    constructor
    · intro h
      rcases h with ((((((((h | h) | h) | h) | h) | h) | h) | h) | h) | h
      · exact Or.inl h
      · exact Or.inr (Or.inl h)
      · exact Or.inr (Or.inr (Or.inr (Or.inr (Or.inr (Or.inl h)))))
      · exact Or.inr (Or.inr (Or.inr (Or.inr (Or.inr (Or.inr (Or.inl h))))))
      · exact Or.inr (Or.inr (Or.inr (Or.inr (Or.inr (Or.inr (Or.inr (Or.inl h)))))))
      · exact Or.inr (Or.inr (Or.inr (Or.inr (Or.inr (Or.inr (Or.inr (Or.inr h)))))))
      · exact Or.inr (Or.inr (Or.inl h))
      · exact Or.inr (Or.inr (Or.inr (Or.inl h)))
      · exact Or.inr (Or.inr (Or.inr (Or.inl (hv h))))
      · exact Or.inr (Or.inr (Or.inr (Or.inr (Or.inl h))))
    · intro h
      rcases h with h | h | h | h | h | h | h | h | h
      · exact Or.inl (Or.inl (Or.inl (Or.inl (Or.inl (Or.inl (Or.inl (Or.inl (Or.inl h))))))))
      · exact Or.inl (Or.inl (Or.inl (Or.inl (Or.inl (Or.inl (Or.inl (Or.inl (Or.inr h))))))))
      · exact Or.inl (Or.inl (Or.inl (Or.inr h)))
      · exact Or.inl (Or.inl (Or.inr h))
      · exact Or.inr h
      · exact Or.inl (Or.inl (Or.inl (Or.inl (Or.inl (Or.inl (Or.inl (Or.inr h)))))))
      · exact Or.inl (Or.inl (Or.inl (Or.inl (Or.inl (Or.inl (Or.inr h))))))
      · exact Or.inl (Or.inl (Or.inl (Or.inl (Or.inl (Or.inr h)))))
      · exact Or.inl (Or.inl (Or.inl (Or.inl (Or.inr h))))
  · intro products hq hg
    have hemp : (toLower lib (trimSpace q)).isEmpty = false := by
      cases h : toLower lib (trimSpace q) with
      | nil => exact absurd h hq
      | cons a l => rfl
    have hg2 : (queryForms lib (toLower lib (trimSpace q))).gpuQuery = false := hg
    simp only [Search, searchProducts, hemp, gpuRefine, hg2, Bool.false_eq_true, false_and,
      if_false]

/-- A use of C27 (amended): the query `ssd` is not GPU-like and its result on
the sample catalog is the result before the GPU filter; the query `rx 580`
is GPU-like. -/
theorem C27_gpu_query_witness :
    (Search asciiLib sampleCatalog "ssd".toList).1 =
      searchUnrefined asciiLib (queryForms asciiLib (toLower asciiLib (trimSpace "ssd".toList)))
        sampleCatalog ∧
    isGPUQuery asciiLib "rx 580".toList = true :=
  ⟨(C27_gpu_query asciiLib "ssd".toList).2 sampleCatalog (by decide) (by decide),
   (C27_gpu_query asciiLib "rx 580".toList).1.2 (Or.inr (Or.inr (Or.inr (Or.inr (Or.inr
     (Or.inl (by decide)))))))⟩

/-! ## Header detection, shop mode and the GPU-like test: theorems -/

/-- C30: the first row of a sheet is treated as data exactly when it has at
least two cells and `strconv.ParseFloat` reads its second cell, trimmed and
without commas, as a number; otherwise it is a header and the data start at
the second row.  The test is stricter than `parsePrice`: the first row of the
sample sheet, `Widget` with price cell `10$`, is a valid record, yet it is
taken as the header and the ingestion returns the product of the second row
only. -/
theorem C30_header_stricter (lib : GoLib) (rows : Sheet) :
    (detectHeader lib rows = false ↔
      ∃ row0 rest, rows = row0 :: rest ∧ 2 ≤ row0.length ∧
        (lib.parseFloat (replaceAll (trimSpace (row0.getD 1 [])) [','] [])).isSome = true) ∧
    (∀ row0, (sheetPlan lib rows row0).hasHeader = detectHeader lib rows ∧
      (sheetPlan lib rows row0).startRow = if detectHeader lib rows then 1 else 0) ∧
    validRecord asciiLib "Widget".toList "10$".toList = some ("Widget".toList, F64.fin 10) ∧
    detectHeader asciiLib sampleSheetDollar = true ∧
    ingestedPairs (parseExcelFile asciiLib sampleIds 0 (ExcelFile.ofRows sampleSheetDollar)) =
      [("Gadget".toList, F64.fin 20)] := by
  refine ⟨?_, fun row0 => ⟨rfl, rfl⟩, by decide, by decide, by decide⟩
  cases rows with
  | nil => simp [detectHeader]
  | cons row0 rest =>
    simp only [detectHeader]
    by_cases h : 1 < row0.length
    · simp only [h, if_true, Bool.not_eq_false']
      constructor
      · intro hp
        exact ⟨row0, rest, rfl, h, hp⟩
      · rintro ⟨r, t, he, _, hp⟩
        cases he
        exact hp
    · simp only [h, if_false]
      constructor
      · intro hc; exact absurd hc (by simp)
      · rintro ⟨r, t, he, hl, _⟩
        cases he
        exact absurd hl h

/-- C28 (as stated, refuted): user 1 enters shop mode and sends a query for
which the search finds no product; the text is handled by the shop handler,
which answers that nothing was found, and the user is still in shop mode. -/
theorem C28_counterexample :
    (handleUpdate asciiLib sampleEnv (NewBotHandler 0 0)
      (Update.message (commandMessage 1 "shop"))).1.shopMode 1 = true ∧
    (runUpdates asciiLib (NewBotHandler 0 0) sampleShopNothing).shopMode 1 = true ∧
    (handleUpdate asciiLib sampleEnv
      (handleUpdate asciiLib sampleEnv (NewBotHandler 0 0)
        (Update.message (commandMessage 1 "shop"))).1
      (Update.message (textMessage 1 "rtx"))).2 =
      [Effect.search "rtx".toList, Effect.sendMessage 1 (msg "Mahsulot topilmadi")] := by
  decide

/-- C28 (amended): a text of a user in shop mode, with no message to the admin
under way and no config session, is handled by the shop handler alone.  The
user leaves shop mode exactly when the text is not blank and the search
returns at least one product, and a pending approval is then saved; for a blank
text, a failed search or an empty result the handler is left as it was, the
user still in shop mode. -/
theorem C28_shop_mode_exit (lib : GoLib) (env : Env) (h : BotHandler) (userID : Int)
    (username text : Str) (chatID : Int) (contact : Option Str)
    (location : Option (F64 × F64)) (hshop : h.shopMode userID = true) :
    (h.awaitingAdminMsg userID = false → h.configSessions userID = none →
      handleTextMessage lib env h userID username text chatID contact location =
        (handleShopMessage env h userID username text chatID).1) ∧
    (∀ products, trimSpace text ≠ [] → env.search (trimSpace text) = Except.ok products →
      products ≠ [] →
      (handleShopMessage env h userID username text chatID).1.1.shopMode userID = false ∧
      ((handleShopMessage env h userID username text chatID).1.1.pendingApprove userID).isSome
        = true) ∧
    ((trimSpace text = [] ∨ (∃ e, env.search (trimSpace text) = Except.error e) ∨
        env.search (trimSpace text) = Except.ok []) →
      (handleShopMessage env h userID username text chatID).1.1 = h ∧
      (handleShopMessage env h userID username text chatID).1.1.shopMode userID = true) := by
  refine ⟨?_, ?_, ?_⟩
  · intro ha hc
    unfold handleTextMessage
    simp only [isAwaitingAdminMessage, ha, hasConfigSession, hc, isInShopMode, hshop,
      handleShopMessage_handled, Option.isSome_none, Bool.false_eq_true, if_false, if_true]
  · intro products ht hs hne
    have hl : products.length ≠ 0 := fun hc => hne (List.length_eq_zero.1 hc)
    have he : (trimSpace text).isEmpty = false := by
      cases hx : trimSpace text with
      | nil => exact absurd hx ht
      | cons a l => rfl
    simp [handleShopMessage, he, hs, hl, setShopMode, savePendingApproval, setKey]
  · intro hcase
    have key : (handleShopMessage env h userID username text chatID).1.1 = h := by
      rcases hcase with ht | ⟨e, hs⟩ | hs
      · simp [handleShopMessage, ht]
      · by_cases he : (trimSpace text).isEmpty = true
        · simp [handleShopMessage, he]
        · simp [handleShopMessage, he, hs]
      · by_cases he : (trimSpace text).isEmpty = true
        · simp [handleShopMessage, he]
        · simp [handleShopMessage, he, hs]
    exact ⟨key, by rw [key]; exact hshop⟩

/-- A use of C28 (amended): user 1 in shop mode sends `rtx`; when the search
finds the sample GPU product the user leaves shop mode, when it finds nothing
the user stays in it. -/
theorem C28_shop_mode_exit_witness :
    (handleShopMessage sampleShopEnv
      (handleUpdate asciiLib sampleEnv (NewBotHandler 0 0)
        (Update.message (commandMessage 1 "shop"))).1 1 "user".toList "rtx".toList 1).1.1.shopMode
      1 = false ∧
    (handleShopMessage sampleEnv
      (handleUpdate asciiLib sampleEnv (NewBotHandler 0 0)
        (Update.message (commandMessage 1 "shop"))).1 1 "user".toList "rtx".toList 1).1.1.shopMode
      1 = true :=
  ⟨((C28_shop_mode_exit asciiLib sampleShopEnv
      (handleUpdate asciiLib sampleEnv (NewBotHandler 0 0)
        (Update.message (commandMessage 1 "shop"))).1 1 "user".toList "rtx".toList 1 none none
      (by decide)).2.1 [sampleGPU] (by decide) rfl (by decide)).1,
   ((C28_shop_mode_exit asciiLib sampleEnv
      (handleUpdate asciiLib sampleEnv (NewBotHandler 0 0)
        (Update.message (commandMessage 1 "shop"))).1 1 "user".toList "rtx".toList 1 none none
      (by decide)).2.2 (Or.inr (Or.inr rfl))).2⟩

/-! ## Lemmas on the similarity score -/

theorem contains_nil (s : Str) : contains s [] = true := by
  cases s <;> rfl

theorem tokenScore_no_containment (qt nameNorm nameCompact catNorm descNorm : Str)
    (h1 : contains nameNorm qt = false) (h2 : contains nameCompact qt = false)
    (h3 : contains catNorm qt = false) (h4 : contains descNorm qt = false) :
    tokenScore qt nameNorm nameCompact catNorm descNorm =
      if proximityHit qt nameNorm then 2 else 0 := by
  have hne : qt.isEmpty = false := by
    cases qt with
    | nil => rw [contains_nil] at h1; cases h1
    | cons a t => rfl
  unfold tokenScore proximityHit
  simp only [hne, h1, h2, h3, h4, Bool.or_self, Bool.false_eq_true, if_false]
  by_cases hq : 0 < extractNumber qt ∧ 0 < extractNumber nameNorm
  · rw [if_pos hq]
    have habs : (if extractNumber qt - extractNumber nameNorm < 0
        then -(extractNumber qt - extractNumber nameNorm)
        else extractNumber qt - extractNumber nameNorm) =
        |extractNumber qt - extractNumber nameNorm| := by
      split
      · rename_i hneg
        rw [abs_of_neg hneg]
      · rename_i hnn
        rw [abs_of_nonneg (by omega)]
    simp only [habs]
    by_cases hd : |extractNumber qt - extractNumber nameNorm| ≤ 200
    · simp [hq.1, hq.2, hd]
    · simp [hq.1, hq.2, hd]
  · rw [if_neg hq]
    have : ¬ (0 < extractNumber qt ∧ 0 < extractNumber nameNorm ∧
        |extractNumber qt - extractNumber nameNorm| ≤ 200) := fun hc => hq ⟨hc.1, hc.2.1⟩
    simp [this]

theorem foldl_tokenScore (nameNorm nameCompact catNorm descNorm : Str) (tokens : List Str)
    (h : ∀ qt ∈ tokens, contains nameNorm qt = false ∧ contains nameCompact qt = false ∧
      contains catNorm qt = false ∧ contains descNorm qt = false) :
    ∀ acc : Int,
      tokens.foldl (fun sc qt => sc + tokenScore qt nameNorm nameCompact catNorm descNorm) acc =
        acc + 2 * ((tokens.filter (fun qt => proximityHit qt nameNorm)).length : Int) := by
  induction tokens with
  | nil => intro acc; simp
  | cons qt t ih =>
    intro acc
    have hq := h qt (List.mem_cons_self _ _)
    rw [List.foldl_cons, ih (fun x hx => h x (List.mem_cons_of_mem _ hx)),
      tokenScore_no_containment qt _ _ _ _ hq.1 hq.2.1 hq.2.2.1 hq.2.2.2, List.filter_cons]
    by_cases hp : proximityHit qt nameNorm = true
    · simp only [hp, if_true, List.length_cons]
      push_cast
      ring
    · have hp2 : proximityHit qt nameNorm = false := by simpa using hp
      simp only [hp2, Bool.false_eq_true, if_false]
      ring

/-- A product that fails the first condition of the loop contains no
normalised token of the query. -/
theorem primaryMatch_false_tokens (lib : GoLib) (qf : QueryForms) (p : Product)
    (h : primaryMatch lib qf p = false) :
    ∀ qt ∈ qf.tokensNorm,
      contains (normalizeProductString lib p.Name) qt = false ∧
      contains (normalizeAlphaNum lib p.Name) qt = false ∧
      contains (normalizeAlphaNum lib p.Category) qt = false ∧
      contains (normalizeAlphaNum lib p.Description) qt = false := by
  unfold primaryMatch at h
  simp only [Bool.or_eq_false_iff] at h
  have hm := h.2
  intro qt hqt
  unfold matchTokens at hm
  have hlen : ¬ qf.tokensNorm.length = 0 := by
    intro hc
    rw [List.length_eq_zero.1 hc] at hqt
    exact absurd hqt (List.not_mem_nil _)
  rw [if_neg hlen] at hm
  have hall := List.any_eq_false.1 hm qt hqt
  simp only [List.any_cons, List.any_nil, Bool.or_false, Bool.or_eq_true, not_or,
    Bool.not_eq_true] at hall
  exact ⟨hall.1, hall.2.1, hall.2.2.1, hall.2.2.2⟩

theorem productScore_fallback (lib : GoLib) (qf : QueryForms) (p : Product)
    (h : primaryMatch lib qf p = false) :
    productScore lib qf p = fallbackScore lib qf p := by
  have ht := primaryMatch_false_tokens lib qf p h
  unfold productScore similarityScore fallbackScore
  simp only [foldl_tokenScore _ _ _ _ qf.tokensNorm ht, zero_add]
  by_cases he : qf.compactQuery.isEmpty = true
  · have hl : longestCommonSubstringLength qf.compactQuery (normalizeAlphaNum lib p.Name) = 0 := by
      unfold longestCommonSubstringLength
      rw [List.isEmpty_iff.1 he]
      simp
    simp [he, hl]
  · have he2 : qf.compactQuery.isEmpty = false := by simpa using he
    simp only [he2, Bool.not_false, if_true]
    split
    · rfl
    · exact (add_zero _).symm

/-! ## The fallback score: theorem -/

/-- C29: a product that fails the first condition of the loop of `Search`, as
every product the loop scores for the fallback does, contains no normalised
token of the query in its normalised name, compact name, category or
description.  So the terms +4 and +2 for a contained token never count for it:
its score is 2 for every token whose digits-number is positive and within 200
of the positive digits-number of the name, plus the length of the longest
common substring of compact query and compact name when that is at least 3. -/
theorem C29_fallback_score (lib : GoLib) (qf : QueryForms) (p : Product)
    (h : primaryMatch lib qf p = false) :
    (∀ qt ∈ qf.tokensNorm,
      contains (normalizeProductString lib p.Name) qt = false ∧
      contains (normalizeAlphaNum lib p.Name) qt = false ∧
      contains (normalizeAlphaNum lib p.Category) qt = false ∧
      contains (normalizeAlphaNum lib p.Description) qt = false) ∧
    productScore lib qf p = fallbackScore lib qf p ∧
    (∀ products : List Product,
      ∀ sp ∈ (products.foldl (searchStep lib qf) ⟨[], []⟩).scored,
        primaryMatch lib qf sp.Product = false ∧ sp.Score = fallbackScore lib qf sp.Product) := by
  refine ⟨primaryMatch_false_tokens lib qf p h, productScore_fallback lib qf p h, ?_⟩
  intro products sp hsp
  rw [foldl_searchStep_scored, List.nil_append, List.mem_map] at hsp
  obtain ⟨x, hx, rfl⟩ := hsp
  have hx2 := (List.mem_filter.1 hx).2
  have hpm : primaryMatch lib qf x = false := by
    simp only [decide_eq_true_eq] at hx2
    exact hx2.1
  exact ⟨hpm, productScore_fallback lib qf x hpm⟩

/-- A use of C29: for the query `geforce4091` the product `GeForce 4090` fails
the first condition; its score is 2 for the token, whose number is within 200
of 4090, plus 10 for the common substring `geforce409`. -/
theorem C29_fallback_score_witness :
    primaryMatch asciiLib (queryForms asciiLib "geforce4091".toList) sampleGeForce4090 = false ∧
    productScore asciiLib (queryForms asciiLib "geforce4091".toList) sampleGeForce4090 = 12 ∧
    fallbackScore asciiLib (queryForms asciiLib "geforce4091".toList) sampleGeForce4090 =
      2 * 1 + 10 :=
  have h := C29_fallback_score asciiLib (queryForms asciiLib "geforce4091".toList)
    sampleGeForce4090 (by decide)
  ⟨by decide, h.2.1.trans (by decide), by decide⟩

end UPG
